import Mathlib

/-!
# trueAtom price testing: assignment, targeting, aggregation, significance

A shallow embedding of the storefront proxy (`app/routes/app.proxy.jsx`), of the
analytics service (`app/services/analytics.js`), of the price automation service
(`app/services/priceAutomation.js`), of the completion check of
`app/contexts/TestContext.jsx` and of the winner analysis of the test detail view
(`app/routes/app.tests.$testId.jsx`).

Conventions of the embedding:

* a JavaScript string is the list of its UTF-16 code units (`JSString`);
* JavaScript numbers that hold 32-bit integer results are `Int`, with `ToInt32`
  written out as an explicit reduction modulo `2 ^ 32`;
* other JavaScript numbers are exact rationals (or a linear ordered field for the
  statistics); IEEE-754 rounding is modelled where a statement depends on it, in the
  section on double-precision arithmetic (`roundToDouble`, `NumberOps`, `JSValue`);
* `null` / `undefined` results are `none`.
-/

namespace TrueAtom

/-! ## Strings -/

/-- A JavaScript string, as the list of its UTF-16 code units. -/
abbrev JSString := List Nat

/-- UTF-16 code units of one Unicode scalar value. -/
def utf16Units (c : Char) : List Nat :=
  if c.toNat < 65536 then [c.toNat]
  else [55296 + (c.toNat - 65536) / 1024, 56320 + (c.toNat - 65536) % 1024]

/-- The JavaScript string written by a string literal. -/
def js (s : String) : JSString := s.toList.flatMap utf16Units

/-! ## Hashing and bucketing (`app.proxy.jsx`, `simpleHash`) -/

/-- ECMAScript `ToInt32`: reduce modulo `2 ^ 32` into `[-2 ^ 31, 2 ^ 31)`. -/
def toInt32 (x : Int) : Int :=
  let m := x % 4294967296
  if 2147483648 ≤ m then m - 4294967296 else m

/-- The operator `a << n` of JavaScript: `ToInt32 a` shifted left, wrapped to 32 bits. -/
def jsShl (a : Int) (n : Nat) : Int := toInt32 (toInt32 a * 2 ^ (n % 32))

/-- The operator `a & b` of JavaScript: bitwise and of the two `ToInt32` operands. -/
def jsAnd (a b : Int) : Int := Int.land (toInt32 a) (toInt32 b)

/-- One round of the loop body of `simpleHash`:
`hash = ((hash << 5) - hash) + char; hash = hash & hash`. -/
def simpleHashStep (hash : Int) (char : Nat) : Int :=
  let hash1 := (jsShl hash 5 - hash) + (char : Int)
  jsAnd hash1 hash1

/-- The `for` loop of `simpleHash`, from accumulator `hash` over the remaining code units. -/
def simpleHashLoop : Int → JSString → Int
  | hash, [] => hash
  | hash, char :: rest => simpleHashLoop (simpleHashStep hash char) rest

/-- The function `simpleHash(str)`: `Math.abs` of the final accumulator. -/
def simpleHash (str : JSString) : Int := |simpleHashLoop 0 str|

/-- Signed 32-bit two's-complement reduction, as the specification words it:
the representative of `x` modulo `2 ^ 32` in `[-2 ^ 31, 2 ^ 31)`. -/
def wrapSigned32 (x : Int) : Int := (x + 2 ^ 31) % 2 ^ 32 - 2 ^ 31

/-- The 31-multiplier polynomial rolling hash with 32-bit wrap-around, as the
specification words it: `h_0 = 0`, `h_(i+1) = wrap (31 * h_i + c_i)`. -/
def polyHash31 (s : JSString) : Int :=
  s.foldl (fun (h : Int) (c : Nat) => wrapSigned32 (31 * h + (c : Int))) 0

/-- The bucket value `random = (hash % 10000) / 10000` of `assignVisitorToVariant`. -/
def bucket (visitorId : JSString) : ℚ := ((simpleHash visitorId % 10000 : Int) : ℚ) / 10000

/-! ## Variant assignment (`app.proxy.jsx`, `assignVisitorToVariant`) -/

/-- The `for` loop of `assignVisitorToVariant`: `fuel` iterations remain, `i` is the
loop index and `cumulative` the running sum. `none` means the loop ran to its end. -/
def assignLoop {V : Type} (random : ℚ) (variations : List V) (trafficSplit : List ℚ) :
    Nat → Nat → ℚ → Option V
  | 0, _, _ => none
  | fuel + 1, i, cumulative =>
    let percentage := trafficSplit.getD i 0
    let cumulative1 := cumulative + percentage / 100
    if random ≤ cumulative1 then variations[i]?
    else assignLoop random variations trafficSplit fuel (i + 1) cumulative1

/-- The function `assignVisitorToVariant(visitorId, variations, trafficSplit)`.
A `null` or `undefined` array behaves as the empty one (both take the first guard);
`none` is the `null` result. -/
def assignVisitorToVariant {V : Type} (visitorId : JSString) (variations : List V)
    (trafficSplit : List ℚ) : Option V :=
  if variations.length = 0 ∨ trafficSplit.length = 0 then none
  else
    let random := bucket visitorId
    match assignLoop random variations trafficSplit variations.length 0 0 with
    | some v => some v
    | none => variations.getLast?

/-- The cumulative share up to index `i` in closed form:
`(trafficSplit[0] + ... + trafficSplit[i]) / 100`, a missing entry counting as 0. -/
def splitThreshold (trafficSplit : List ℚ) (i : Nat) : ℚ :=
  ((List.range (i + 1)).map (fun j => trafficSplit.getD j 0)).sum / 100

/-- The cumulative value held by the loop when it enters index `i`. -/
def cumulativeBefore (trafficSplit : List ℚ) : Nat → ℚ
  | 0 => 0
  | i + 1 => splitThreshold trafficSplit i

/-! ## Audience targeting and the proxy loader (`app.proxy.jsx`, `loader`) -/

/-- One variation record of a test: `label`, `price`, the optional per-product `prices`
map, and the `isControl` flag (a missing flag is `false`). -/
structure Variation where
  label : JSString
  price : Option ℚ
  prices : Option (List (JSString × ℚ))
  isControl : Bool
  deriving DecidableEq

/-- The `targeting` object of a test; a field that is missing or not of the expected
shape (`!Array.isArray`) is `none`. -/
structure Targeting where
  deviceType : Option JSString
  trafficSources : Option (List JSString)
  countries : Option (List JSString)
  deriving DecidableEq

/-- The fields of a `Test` record read by the proxy loader and the analytics service. -/
structure Test where
  id : JSString
  variations : List Variation
  trafficSplit : List ℚ
  targeting : Option Targeting
  stoppedVariations : List JSString
  deriving DecidableEq

/-- What the loader reads from the request: the query parameters `product_id`,
`variant_id`, `test_price`, `preview`, the query string `new URL(request.url).search`,
and the request headers it consults (`none` when `get` returns `null`). -/
structure Request where
  productId : Option JSString
  variantId : Option JSString
  testPrice : Option JSString
  preview : Option JSString
  search : JSString
  userAgent : Option JSString
  referer : Option JSString
  referrer : Option JSString
  cfIpCountry : Option JSString
  xCountry : Option JSString
  xForwardedFor : Option JSString
  xRealIp : Option JSString
  cookie : Option JSString

/-- The answers of the loader's collaborators for one request: whether
`unauthenticated.appProxy` accepted it, the rows `prisma.test.findMany` returned
(running tests of the product, with their variations), and the country the GeoIP
service answered (`none` when the lookup failed, timed out or gave no country). -/
structure Env where
  proxyValid : Bool
  activeTests : List Test
  geoCountry : Option JSString

/-- The JSON bodies the loader can answer with. -/
inductive Response where
  /-- Status 400, `Product ID required`. -/
  | badRequest
  /-- Preview mode: `variation`, the text of `test_price` (the body carries its
  `parseFloat`), `isControl`; `hasTest` is `true`. -/
  | preview (variation : JSString) (testPrice : JSString) (isControl : Bool)
  /-- The body `{ ok: true, hasTest: false, originalPrice: null }`. -/
  | noTest
  /-- Fallback to the control variation: `testId`, `variation`, `price`; `isControl` is
  `true`. -/
  | fallback (testId : JSString) (variation : JSString) (price : Option ℚ)
  /-- The assigned variation: `testId`, `variation`, `price`, `isControl`, and the
  `Set-Cookie` header when one is set. -/
  | assigned (testId : JSString) (variation : JSString) (price : Option ℚ)
      (isControl : Bool) (setCookie : Option JSString)
  /-- Status 500, `Internal server error`. -/
  | serverError
  deriving DecidableEq

/-- The expression `a || b` for a possibly-`null` string `a`: `null` and the empty string
are falsy. -/
def jsOr (a : Option JSString) (b : JSString) : JSString :=
  match a with
  | some (c :: rest) => c :: rest
  | _ => b

/-- Lower-casing of one code unit. Exact for code units up to `0xFF` (the range of a
header value): `A`-`Z` and the Latin-1 capitals `0xC0`-`0xDE` except `0xD7` move up by
32. Larger code units are left unchanged. -/
def lowerUnit (c : Nat) : Nat :=
  if (65 ≤ c ∧ c ≤ 90) ∨ (192 ≤ c ∧ c ≤ 222 ∧ c ≠ 215) then c + 32 else c

/-- The method `String.prototype.toLowerCase`, unit by unit. -/
def toLowerCase (s : JSString) : JSString := s.map lowerUnit

/-- The method `String.prototype.includes`: `needle` occurs in `s`. -/
def includes (s needle : JSString) : Bool := s.tails.any (fun t => needle.isPrefixOf t)

/-- The method `String.prototype.startsWith`. -/
def startsWith (s pre : JSString) : Bool := pre.isPrefixOf s

/-- Line terminators, which the regular-expression dot does not match. -/
def isLineTerminator (c : Nat) : Bool := c = 10 || c = 13 || c = 8232 || c = 8233

/-- The alternative `t.co` of the social pattern: `t`, one unit that is not a line
terminator, `c`, `o`. -/
def includesTDotCo (s : JSString) : Bool :=
  s.tails.any (fun t =>
    match t with
    | 116 :: d :: 99 :: 111 :: _ => !isLineTerminator d
    | _ => false)

/-- The test `/mobile|iphone|android/.test(ua)`. -/
def isMobileUA (ua : JSString) : Bool :=
  includes ua (js "mobile") || includes ua (js "iphone") || includes ua (js "android")

/-- The test `/ipad|tablet/.test(ua)`. -/
def isTabletUA (ua : JSString) : Bool :=
  includes ua (js "ipad") || includes ua (js "tablet")

/-- The closure `matchesDevice(deviceType)` over the request's `userAgent`. -/
def matchesDevice (userAgent : JSString) (deviceType : Option JSString) : Bool :=
  match deviceType with
  | none => true
  | some [] => true
  | some dt =>
    if dt = js "all" then true
    else
      let ua := toLowerCase userAgent
      let isMobile := isMobileUA ua
      let isTablet := isTabletUA ua
      let isDesktop := !isMobile && !isTablet
      if dt = js "mobile" then isMobile
      else if dt = js "tablet" then isTablet
      else if dt = js "desktop" then isDesktop
      else true

/-- The test `/(facebook|instagram|twitter|t.co|linkedin|pinterest|tiktok)/.test(url)`. -/
def isSocialUrl (url : JSString) : Bool :=
  includes url (js "facebook") || includes url (js "instagram") ||
  includes url (js "twitter") || includesTDotCo url || includes url (js "linkedin") ||
  includes url (js "pinterest") || includes url (js "tiktok")

/-- The test `/(google|bing|facebook|instagram|twitter|linkedin)/.test(url)`. -/
def isKnownEngineUrl (url : JSString) : Bool :=
  includes url (js "google") || includes url (js "bing") || includes url (js "facebook") ||
  includes url (js "instagram") || includes url (js "twitter") || includes url (js "linkedin")

/-- The closure `matchesTrafficSource(sources)` over the request's `referrer` and query
string. -/
def matchesTrafficSource (referrer search : JSString) (sources : Option (List JSString)) :
    Bool :=
  match sources with
  | none => true
  | some [] => true
  | some l =>
    let url := toLowerCase referrer
    let utm := toLowerCase search
    l.any (fun s =>
      if s = js "organic" then
        includes url (js "google") || includes url (js "bing") || includes url (js "yahoo")
      else if s = js "paid_search" then
        includes utm (js "utm_medium=cpc") || includes url (js "gclid=")
      else if s = js "social" then isSocialUrl url
      else if s = js "email" then includes utm (js "utm_medium=email")
      else if s = js "referral" then url ≠ [] && !isKnownEngineUrl url
      else true)

/-- The closure `matchesCountry(allowed)` over the resolved `country`. -/
def matchesCountry (country : JSString) (allowed : Option (List JSString)) : Bool :=
  match allowed with
  | none => true
  | some [] => true
  | some l =>
    l.any (fun c =>
      c ≠ [] && country ≠ [] &&
        startsWith (toLowerCase country) (toLowerCase (c.take 1)))

/-- The country taken from the headers: `cf-ipcountry`, else `x-country`, else `''`. -/
def headerCountry (req : Request) : JSString := jsOr req.cfIpCountry (jsOr req.xCountry [])

/-- The value of `country` after the GeoIP fallback: the header value when there is one,
else the GeoIP answer when it is a non-empty string, else still `''`. -/
def resolveCountry (req : Request) (geoCountry : Option JSString) : JSString :=
  let country := headerCountry req
  if country = [] then
    match geoCountry with
    | some (c :: rest) => c :: rest
    | _ => country
  else country

/-- The predicate of `activeTests.filter`: all three targeting closures accept the test
(`t.targeting || {}` makes every field of a missing targeting object missing). -/
def isEligible (req : Request) (country : JSString) (t : Test) : Bool :=
  let deviceType := t.targeting.bind (fun g => g.deviceType)
  let trafficSources := t.targeting.bind (fun g => g.trafficSources)
  let countries := t.targeting.bind (fun g => g.countries)
  matchesDevice (jsOr req.userAgent []) deviceType &&
    matchesTrafficSource (jsOr req.referer (jsOr req.referrer [])) req.search trafficSources &&
    matchesCountry country countries

/-- The match of `/visitor_id=([^;]+)/` against the cookie header: the capture group of
the leftmost match, `none` when there is no match. -/
def matchVisitorId : JSString → Option JSString
  | [] => none
  | c :: rest =>
    if (js "visitor_id=").isPrefixOf (c :: rest) then
      match ((c :: rest).drop 11).takeWhile (fun u => u != 59) with
      | [] => matchVisitorId rest
      | u :: us => some (u :: us)
    else matchVisitorId rest

/-- Decimal text of a non-negative integer, as template-string interpolation writes it. -/
def decimalText (n : Int) : JSString := (Nat.toDigits 10 n.toNat).map Char.toNat

/-- The function `getVisitorId(request)`. -/
def getVisitorId (req : Request) : JSString :=
  let cookies := jsOr req.cookie []
  match matchVisitorId cookies with
  | some v => v
  | none =>
    let ip := jsOr req.xForwardedFor (jsOr req.xRealIp (js "unknown"))
    let userAgent := jsOr req.userAgent (js "unknown")
    let hash := simpleHash (ip ++ userAgent)
    js "visitor_" ++ decimalText hash

/-- The expression `price || null`: a missing or zero price becomes `null`. -/
def priceOrNull (price : Option ℚ) : Option ℚ :=
  match price with
  | some p => if p = 0 then none else some p
  | none => none

/-- The loader from the point where `prisma.test.findMany` has returned `activeTests`:
the empty-list answer, the targeting filter, the assignment and its response. -/
def loaderAfterQuery (req : Request) (activeTests : List Test) (geoCountry : Option JSString) :
    Response :=
  if activeTests.length = 0 then Response.noTest
  else
    let country := resolveCountry req geoCountry
    let eligibleTests := activeTests.filter (isEligible req country)
    let testsToUse := if eligibleTests.length > 0 then eligibleTests else []
    match testsToUse with
    | [] => Response.noTest
    | test :: _ =>
      let visitorId := getVisitorId req
      match assignVisitorToVariant visitorId test.variations test.trafficSplit with
      | none =>
        match test.variations.find? (fun v => v.isControl) with
        | some controlVariation =>
          Response.fallback test.id (jsOr (some controlVariation.label) (js "A"))
            (priceOrNull controlVariation.price)
        | none => Response.fallback test.id (js "A") none
      | some assignment =>
        let existingVisitor := getVisitorId req
        let setCookie :=
          if existingVisitor ≠ [] then
            some (js "pt_vid=" ++ existingVisitor ++
              js "; Path=/; Max-Age=31536000; Secure; SameSite=Lax")
          else none
        Response.assigned test.id assignment.label assignment.price assignment.isControl
          setCookie

/-- The route's `loader`. -/
def loader (req : Request) (env : Env) : Response :=
  match req.productId with
  | none => Response.badRequest
  | some [] => Response.badRequest
  | some (_ :: _) =>
    let isPreview : Bool := req.preview = some (js "true")
    let testPrice := jsOr req.testPrice []
    if isPreview = true ∧ testPrice ≠ [] then
      Response.preview (jsOr req.variantId (js "A")) testPrice
        (req.variantId = some (js "A") || req.variantId = some (js "control"))
    else if env.proxyValid then loaderAfterQuery req env.activeTests env.geoCountry
    else Response.serverError

/-- The test a response names through its `testId` field, if it has one. -/
def Response.testId? : Response → Option JSString
  | Response.fallback testId _ _ => some testId
  | Response.assigned testId _ _ _ _ => some testId
  | _ => none

/-- The variation label a loader response assigns, if it assigns one of a test. -/
def Response.variation? : Response → Option JSString
  | Response.fallback _ variation _ => some variation
  | Response.assigned _ variation _ _ _ => some variation
  | _ => none

/-- A request for product `p1` whose only header is the cookie
`visitor_id=visitor_4553`: no user agent, referrer, geo or address header. -/
def sampleRequest : Request :=
  { productId := some (js "p1"), variantId := none, testPrice := none, preview := none,
    search := js "?product_id=p1", userAgent := none, referer := none, referrer := none,
    cfIpCountry := none, xCountry := none, xForwardedFor := none, xRealIp := none,
    cookie := some (js "visitor_id=visitor_4553") }

/-- Control `A` at 10 and variant `B` at 12. -/
def sampleVariations : List Variation :=
  [{ label := js "A", price := some 10, prices := none, isControl := true },
   { label := js "B", price := some 12, prices := none, isControl := false }]

/-- A running test with an even split, no targeting, whose variation `B` is stopped. -/
def stoppedBTest : Test :=
  { id := js "t1", variations := sampleVariations, trafficSplit := [50, 50],
    targeting := none, stoppedVariations := [js "B"] }

/-- A running test with an even split that targets the country list `[US]`. -/
def usOnlyTest : Test :=
  { id := js "t2", variations := sampleVariations, trafficSplit := [50, 50],
    targeting := some { deviceType := none, trafficSources := none,
                        countries := some [js "US"] },
    stoppedVariations := [] }

/-! ## Event aggregation (`services/analytics.js`, `processEventsToAnalytics`) -/

/-- The fields of a stored `Event` the aggregation reads. -/
structure Event where
  type : JSString
  variation : JSString
  path : Option JSString
  revenueCents : Option Int
  deriving DecidableEq

/-- One entry of `variationPerformance`. -/
structure VariationPerformance where
  variation : JSString
  label : JSString
  price : Option ℚ
  prices : Option (List (JSString × ℚ))
  trafficPercentage : ℚ
  visitors : Nat
  conversions : Nat
  addToCart : Nat
  conversionRate : ℚ
  revenue : ℚ
  revenuePerVisitor : ℚ
  isControl : Bool
  events : List Event
  deriving DecidableEq

/-- The object `kpis` of the result. -/
structure Kpis where
  totalVisitors : Nat
  totalConversions : Nat
  totalRevenue : ℚ
  revenuePerVisitor : ℚ
  conversionRate : ℚ
  deriving DecidableEq

/-- The result of `processEventsToAnalytics`, without `chartData` (which depends on the
wall clock through `new Date()`). -/
structure Analytics where
  variationPerformance : List VariationPerformance
  kpis : Kpis
  events : List Event
  deriving DecidableEq

/-- How a run of `processEventsToAnalytics` can end without a result. -/
inductive AnalyticsError where
  /-- The JavaScript `TypeError: variation.push is not a function`. -/
  | typeError
  /-- A configured label `__proto__`: the assignment `eventsByVariation[label] = []`
  replaces the prototype of the object instead of creating a property. The embedding
  does not follow the run further. -/
  | prototypeReplaced
  deriving DecidableEq

/-- The own properties of the object `eventsByVariation`, each holding an array of
events. -/
abbrev EventsByVariation := List (JSString × List Event)

/-- The string-keyed properties every plain object inherits from `Object.prototype`. All
of them hold truthy values, none of which is an array. -/
def objectPrototypeKeys : List JSString :=
  [js "constructor", js "__defineGetter__", js "__defineSetter__", js "hasOwnProperty",
   js "__lookupGetter__", js "__lookupSetter__", js "isPrototypeOf",
   js "propertyIsEnumerable", js "toString", js "valueOf", js "__proto__",
   js "toLocaleString"]

/-- The own property `key` of the object, if there is one. -/
def getOwn : EventsByVariation → JSString → Option (List Event)
  | [], _ => none
  | (k, v) :: rest, key => if k = key then some v else getOwn rest key

/-- The assignment `o[key] = value` for a key other than `__proto__`: an existing own
property is overwritten in place, a new one is added after the others. -/
def setOwn : EventsByVariation → JSString → List Event → EventsByVariation
  | [], key, value => [(key, value)]
  | (k, v) :: rest, key, value =>
    if k = key then (key, value) :: rest else (k, v) :: setOwn rest key value

/-- What the property read `o[key]` gives. -/
inductive PropertyValue where
  /-- An own property: an array of events. -/
  | array (events : List Event)
  /-- A member of `Object.prototype`: truthy, without a `push` method. -/
  | inherited
  /-- No such property: `undefined`. -/
  | undefined

/-- The property read `eventsByVariation[key]`: own properties first, then the prototype. -/
def getProperty (o : EventsByVariation) (key : JSString) : PropertyValue :=
  match getOwn o key with
  | some events => PropertyValue.array events
  | none => if key ∈ objectPrototypeKeys then PropertyValue.inherited else PropertyValue.undefined

/-- The loop `variations.forEach(v => { eventsByVariation[v.label] = [] })`. -/
def initEventsByVariation : List Variation → EventsByVariation →
    Except AnalyticsError EventsByVariation
  | [], o => Except.ok o
  | v :: rest, o =>
    if v.label = js "__proto__" then Except.error AnalyticsError.prototypeReplaced
    else initEventsByVariation rest (setOwn o v.label [])

/-- The loop `events.forEach(event => { ... })` that groups the events: an event whose
`variation` reads a truthy property is pushed to it, which throws when the property is
not an array. -/
def groupEvents : List Event → EventsByVariation → Except AnalyticsError EventsByVariation
  | [], o => Except.ok o
  | event :: rest, o =>
    match getProperty o event.variation with
    | PropertyValue.array events => groupEvents rest (setOwn o event.variation (events ++ [event]))
    | PropertyValue.inherited => Except.error AnalyticsError.typeError
    | PropertyValue.undefined => groupEvents rest o

/-- The expression `eventsByVariation[perf.variation] || []`. An inherited value is not
an array, so the `filter` call on it throws. -/
def eventsOfVariation (o : EventsByVariation) (variation : JSString) :
    Except AnalyticsError (List Event) :=
  match getProperty o variation with
  | PropertyValue.array events => Except.ok events
  | PropertyValue.inherited => Except.error AnalyticsError.typeError
  | PropertyValue.undefined => Except.ok []

/-- The initial entry of `variationPerformance` for the variation at `index`. -/
def initialPerformance (trafficSplit : List ℚ) (variation : Variation) (index : Nat) :
    VariationPerformance :=
  { variation := variation.label
    label := if variation.isControl then js "Control" else js "Variant " ++ variation.label
    price := variation.price
    prices := variation.prices
    trafficPercentage := trafficSplit.getD index 0
    visitors := 0
    conversions := 0
    addToCart := 0
    conversionRate := 0
    revenue := 0
    revenuePerVisitor := 0
    isControl := variation.isControl
    events := [] }

/-- The body of `variationPerformance.forEach(perf => { ... })` for the events of one
variation. -/
def fillPerformance (perf : VariationPerformance) (variationEvents : List Event) :
    VariationPerformance :=
  let uniqueVisitors :=
    ((variationEvents.filter (fun e => e.type = js "page_view")).map (fun e => e.path)).dedup
  let visitors := uniqueVisitors.length
  let conversions := variationEvents.filter (fun e => e.type = js "purchase")
  let addToCart := variationEvents.filter (fun e => e.type = js "add_to_cart")
  let conversionRate : ℚ :=
    if visitors > 0 then ((conversions.length : ℚ) / (visitors : ℚ)) * 100 else 0
  let revenue : ℚ :=
    ((conversions.foldl (fun (sum : Int) e => sum + e.revenueCents.getD 0) 0 : Int) : ℚ) / 100
  let revenuePerVisitor : ℚ := if visitors > 0 then revenue / (visitors : ℚ) else 0
  { perf with
    visitors := visitors
    conversions := conversions.length
    addToCart := addToCart.length
    conversionRate := conversionRate
    revenue := revenue
    revenuePerVisitor := revenuePerVisitor
    events := variationEvents }

/-- The loop `variationPerformance.forEach(perf => { ... })`. -/
def fillAll (o : EventsByVariation) :
    List VariationPerformance → Except AnalyticsError (List VariationPerformance)
  | [] => Except.ok []
  | perf :: rest =>
    match eventsOfVariation o perf.variation with
    | Except.error e => Except.error e
    | Except.ok variationEvents =>
      match fillAll o rest with
      | Except.error e => Except.error e
      | Except.ok filled => Except.ok (fillPerformance perf variationEvents :: filled)

/-- The method `AnalyticsService.processEventsToAnalytics(events, test)`. -/
def processEventsToAnalytics (events : List Event) (test : Test) :
    Except AnalyticsError Analytics :=
  let variations := test.variations
  let trafficSplit := test.trafficSplit
  let variationPerformance :=
    (variations.zip (List.range variations.length)).map
      (fun vi => initialPerformance trafficSplit vi.1 vi.2)
  match initEventsByVariation variations [] with
  | Except.error e => Except.error e
  | Except.ok o0 =>
    match groupEvents events o0 with
    | Except.error e => Except.error e
    | Except.ok eventsByVariation =>
      match fillAll eventsByVariation variationPerformance with
      | Except.error e => Except.error e
      | Except.ok filled =>
        let totalVisitors : Nat := (filled.map (fun v => v.visitors)).sum
        let totalConversions : Nat := (filled.map (fun v => v.conversions)).sum
        let totalRevenue : ℚ := (filled.map (fun v => v.revenue)).sum
        let revenuePerVisitor : ℚ :=
          if totalVisitors > 0 then totalRevenue / (totalVisitors : ℚ) else 0
        Except.ok
          { variationPerformance := filled
            kpis :=
              { totalVisitors := totalVisitors
                totalConversions := totalConversions
                totalRevenue := totalRevenue
                revenuePerVisitor := revenuePerVisitor
                conversionRate :=
                  if totalVisitors > 0 then
                    ((totalConversions : ℚ) / (totalVisitors : ℚ)) * 100
                  else 0 }
            events := events.drop (events.length - 100) }

/-- A page view that carries the variation label `constructor`. -/
def constructorEvent : Event :=
  { type := js "page_view", variation := js "constructor", path := some (js "/"),
    revenueCents := none }

/-- A test with control `A` and variant `B`, an even split and no targeting. -/
def plainTest : Test :=
  { id := js "t3", variations := sampleVariations, trafficSplit := [50, 50],
    targeting := none, stoppedVariations := [] }

/-! ## Significance engine (`services/analytics.js`, `calculateStatisticalSignificance`)

The statistics are written over a linear ordered field `α` with a floor function; the
platform functions `Math.sqrt` and `Math.exp` are parameters. A quotient whose divisor is
zero (`NaN` or an infinity in JavaScript) is the field's `x / 0 = 0`; the properties
stated below do not depend on such quotients. -/

/-- The platform functions `Math.sqrt` and `Math.exp`. -/
structure JSMath (α : Type) where
  sqrt : α → α
  exp : α → α

/-- The values of the `method` field. -/
inductive Method where
  | none
  | insufficient_data
  | fishers_exact
  | chi_square
  deriving DecidableEq

/-- The object `{ pValue, confidence }` returned by the two tests. -/
structure TestOutcome (α : Type) where
  pValue : α
  confidence : α

/-- The object `{ lower, upper, difference }`. -/
structure ConfidenceInterval (α : Type) where
  lower : α
  upper : α
  difference : α

/-- One entry of `results`; the three last fields are absent from an
`insufficient_data` entry. -/
structure StatisticalResult (α : Type) where
  variation : JSString
  confidence : α
  pValue : α
  lift : α
  isSignificant : Bool
  method : Method
  confidenceInterval : Option (ConfidenceInterval α)
  sampleSize : Option Nat
  power : Option α

/-- The `recommendation` texts. -/
inductive Recommendation (α : Type) where
  | noControlVariation
  | controlNotInPerformanceData
  | noTestVariations
  /-- The text `Winner: <variation> shows <lift>% improvement with <confidence>% confidence`. -/
  | winner (variation : JSString) (lift : α) (confidence : α)
  | insufficientPower
  | noSignificantWinner

/-- The object returned by `calculateStatisticalSignificance`; `allResults` and
`overallPower` are absent from the three early returns. -/
structure Significance (α : Type) where
  confidence : α
  pValue : α
  winner : Option JSString
  lift : α
  recommendation : Recommendation α
  allResults : Option (List (StatisticalResult α))
  overallPower : Option α
  method : Method

section Significance

variable {α : Type} [LinearOrderedField α] [FloorRing α]

/-- The function `Math.round`: the nearest integer, halves rounded up. -/
def mathRound (x : α) : α := ((⌊x + 1 / 2⌋ : Int) : α)

/-- The method `erf(x)`, the Abramowitz-Stegun approximation. -/
def erf (m : JSMath α) (x : α) : α :=
  let a1 : α := 0.254829592
  let a2 : α := -0.284496736
  let a3 : α := 1.421413741
  let a4 : α := -1.453152027
  let a5 : α := 1.061405429
  let p : α := 0.3275911
  let sign : α := if x ≥ 0 then 1 else -1
  let x1 := |x|
  let t := 1 / (1 + p * x1)
  let y := 1 - (((((a5 * t + a4) * t) + a3) * t + a2) * t + a1) * t * m.exp (-x1 * x1)
  sign * y

/-- The method `normalCDF(x)`. -/
def normalCDF (m : JSMath α) (x : α) : α := 0.5 * (1 + erf m (x / m.sqrt 2))

/-- The method `chiSquarePValue(chiSquare, degreesOfFreedom)`. -/
def chiSquarePValue (m : JSMath α) (chiSquare : α) (degreesOfFreedom : Nat) : α :=
  if degreesOfFreedom = 1 then 2 * (1 - normalCDF m (m.sqrt chiSquare))
  else 1 - normalCDF m (m.sqrt chiSquare)

/-- The method `chiSquareTest`. -/
def chiSquareTest (m : JSMath α) (controlConversions controlVisitors testConversions
    testVisitors : α) : TestOutcome α :=
  let controlNonConversions := controlVisitors - controlConversions
  let testNonConversions := testVisitors - testConversions
  let totalVisitors := controlVisitors + testVisitors
  let totalConversions := controlConversions + testConversions
  let totalNonConversions := controlNonConversions + testNonConversions
  let expectedControlConversions := (controlVisitors * totalConversions) / totalVisitors
  let expectedTestConversions := (testVisitors * totalConversions) / totalVisitors
  let expectedControlNonConversions := (controlVisitors * totalNonConversions) / totalVisitors
  let expectedTestNonConversions := (testVisitors * totalNonConversions) / totalVisitors
  let chiSquare :=
    (controlConversions - expectedControlConversions) ^ 2 / expectedControlConversions +
    (testConversions - expectedTestConversions) ^ 2 / expectedTestConversions +
    (controlNonConversions - expectedControlNonConversions) ^ 2 / expectedControlNonConversions +
    (testNonConversions - expectedTestNonConversions) ^ 2 / expectedTestNonConversions
  let pValue := chiSquarePValue m chiSquare 1
  let confidence := (1 - pValue) * 100
  { pValue := pValue, confidence := confidence }

/-- The method `fishersExactTest`. -/
def fishersExactTest (m : JSMath α) (controlConversions controlVisitors testConversions
    testVisitors : α) : TestOutcome α :=
  let controlRate := controlConversions / controlVisitors
  let testRate := testConversions / testVisitors
  let pooledRate := (controlConversions + testConversions) / (controlVisitors + testVisitors)
  let se := m.sqrt (pooledRate * (1 - pooledRate) * (1 / controlVisitors + 1 / testVisitors))
  let zScore := if se > 0 then (testRate - controlRate) / se else 0
  let pValue := max 0 (min 1 (2 * (1 - normalCDF m |zScore|)))
  let confidence := (1 - pValue) * 100
  { pValue := pValue, confidence := confidence }

/-- The method `calculateConfidenceInterval`. -/
def calculateConfidenceInterval (m : JSMath α) (controlRate testRate controlVisitors
    testVisitors : α) : ConfidenceInterval α :=
  let difference := testRate - controlRate
  let se := m.sqrt
    ((controlRate * (1 - controlRate)) / controlVisitors +
      (testRate * (1 - testRate)) / testVisitors)
  let z95 : α := 1.96
  let margin := z95 * se
  { lower := difference - margin, upper := difference + margin, difference := difference }

/-- The method `calculateStatisticalPower`. -/
def calculateStatisticalPower (m : JSMath α) (controlRate testRate controlVisitors
    testVisitors : α) : α :=
  let effectSize := |testRate - controlRate|
  let pooledRate := (controlRate + testRate) / 2
  let se := m.sqrt (pooledRate * (1 - pooledRate) * (1 / controlVisitors + 1 / testVisitors))
  let zAlpha : α := 1.96
  let zBeta := (effectSize / se) - zAlpha
  max 0 (min 1 (normalCDF m zBeta))

/-- The callback of `testVariations.map`: the result for one test variation against the
control. -/
def variationResult (m : JSMath α) (control variation : VariationPerformance) :
    StatisticalResult α :=
  let controlConversions : α := control.conversions
  let controlVisitors : α := control.visitors
  let testConversions : α := variation.conversions
  let testVisitors : α := variation.visitors
  if control.visitors = 0 ∨ variation.visitors = 0 then
    { variation := variation.variation
      confidence := 0
      pValue := 1
      lift := 0
      isSignificant := false
      method := Method.insufficient_data
      confidenceInterval := Option.none
      sampleSize := Option.none
      power := Option.none }
  else
    let controlRate := controlConversions / controlVisitors
    let testRate := testConversions / testVisitors
    let lift := if controlRate > 0 then ((testRate - controlRate) / controlRate) * 100 else 0
    let chiSquareResult :=
      chiSquareTest m controlConversions controlVisitors testConversions testVisitors
    let fisherResult :=
      fishersExactTest m controlConversions controlVisitors testConversions testVisitors
    let useFisher : Bool :=
      (control.visitors < 30 ∨ variation.visitors < 30) ∧
        (control.conversions < 5 ∨ variation.conversions < 5)
    let result := if useFisher then fisherResult else chiSquareResult
    let confidenceInterval :=
      calculateConfidenceInterval m controlRate testRate controlVisitors testVisitors
    { variation := variation.variation
      confidence := mathRound result.confidence
      pValue := mathRound (result.pValue * 1000) / 1000
      lift := mathRound (lift * 10) / 10
      isSignificant := result.pValue < 0.05 ∧ |lift| ≥ 5
      method := if useFisher then Method.fishers_exact else Method.chi_square
      confidenceInterval := some confidenceInterval
      sampleSize := some (control.visitors + variation.visitors)
      power := some (calculateStatisticalPower m controlRate testRate controlVisitors testVisitors) }

/-- The expression `x || 0` for a number. -/
def orZero (x : α) : α := if x = 0 then 0 else x

/-- The callback of `results.reduce` that keeps the best variation. -/
def betterOf (best current : StatisticalResult α) : StatisticalResult α :=
  if current.isSignificant = true ∧ current.lift > orZero best.lift then current else best

/-- The value of `bestVariation`: `results.reduce(..., results[0] || {})`; `none` is the
empty object of an empty `results`. -/
def bestVariation (results : List (StatisticalResult α)) : Option (StatisticalResult α) :=
  match results with
  | [] => Option.none
  | first :: _ => some (results.foldl betterOf first)

/-- The value of `winner`: `bestVariation.isSignificant ? bestVariation : null`. -/
def winnerResult (results : List (StatisticalResult α)) : Option (StatisticalResult α) :=
  match bestVariation results with
  | some best => if best.isSignificant = true then some best else Option.none
  | Option.none => Option.none

/-- The call `Math.max(...xs)` for a non-empty argument list. -/
def maxOf (xs : List α) : α :=
  match xs with
  | [] => 0
  | x :: rest => rest.foldl max x

/-- The call `Math.min(...xs)` for a non-empty argument list. -/
def minOf (xs : List α) : α :=
  match xs with
  | [] => 0
  | x :: rest => rest.foldl min x

/-- The three early returns of `calculateStatisticalSignificance`. -/
def neutralResult (recommendation : Recommendation α) : Significance α :=
  { confidence := 0, pValue := 1, winner := Option.none, lift := 0,
    recommendation := recommendation, allResults := Option.none,
    overallPower := Option.none, method := Method.none }

/-- The method `calculateStatisticalSignificance(variationPerformance, controlVariation)`;
a missing `controlVariation` is `none`. -/
def calculateStatisticalSignificance (m : JSMath α)
    (variationPerformance : List VariationPerformance) (controlVariation : Option JSString) :
    Significance α :=
  match controlVariation with
  | Option.none => neutralResult Recommendation.noControlVariation
  | some [] => neutralResult Recommendation.noControlVariation
  | some (c :: cs) =>
    match variationPerformance.find? (fun v => v.variation = c :: cs) with
    | Option.none => neutralResult Recommendation.controlNotInPerformanceData
    | some control =>
      let testVariations := variationPerformance.filter (fun v => v.variation ≠ c :: cs)
      if testVariations.length = 0 then neutralResult Recommendation.noTestVariations
      else
        let results : List (StatisticalResult α) := testVariations.map (variationResult m control)
        let winner := winnerResult results
        let overallPower : α :=
          (results.foldl (fun sum r => sum + orZero (r.power.getD 0)) 0) / (results.length : α)
        match winner with
        | some w =>
          { confidence := w.confidence
            pValue := w.pValue
            winner := some w.variation
            lift := w.lift
            recommendation := Recommendation.winner w.variation w.lift w.confidence
            allResults := some results
            overallPower := some (mathRound (overallPower * 100))
            method := w.method }
        | Option.none =>
          { confidence := maxOf (results.map (fun r => r.confidence))
            pValue := minOf (results.map (fun r => r.pValue))
            winner := Option.none
            lift := maxOf (results.map (fun r => r.lift))
            recommendation :=
              if overallPower < 0.8 then Recommendation.insufficientPower
              else Recommendation.noSignificantWinner
            allResults := some results
            overallPower := some (mathRound (overallPower * 100))
            method := Method.none }

end Significance

/-- A stand-in for `Math.sqrt` and `Math.exp` over the rationals, for runs that call
neither. -/
def unusedMath : JSMath ℚ := { sqrt := fun _ => 0, exp := fun _ => 1 }

/-- The rollup of a variation with the given label, visitors and conversions. -/
def performanceOf (variation : JSString) (isControl : Bool) (visitors conversions : Nat) :
    VariationPerformance :=
  { variation := variation, label := variation, price := none, prices := none,
    trafficPercentage := 50, visitors := visitors, conversions := conversions,
    addToCart := 0,
    conversionRate := if visitors > 0 then ((conversions : ℚ) / (visitors : ℚ)) * 100 else 0,
    revenue := 0, revenuePerVisitor := 0,
    isControl := isControl, events := [] }

/-! ## Significance engine: the values of the local variables, and sample inputs -/

section

variable {α : Type} [LinearOrderedField α]

def erfcPoly (t : α) : α :=
  (((((1.061405429 * t + -1.453152027) * t) + 1.421413741) * t + -0.284496736) * t
    + 0.254829592) * t

/-- The value of `chiSquare` in `chiSquareTest`. -/
def chiSquareStatistic (controlConversions controlVisitors testConversions testVisitors : α) :
    α :=
  let controlNonConversions := controlVisitors - controlConversions
  let testNonConversions := testVisitors - testConversions
  let totalVisitors := controlVisitors + testVisitors
  let totalConversions := controlConversions + testConversions
  let totalNonConversions := controlNonConversions + testNonConversions
  let expectedControlConversions := (controlVisitors * totalConversions) / totalVisitors
  let expectedTestConversions := (testVisitors * totalConversions) / totalVisitors
  let expectedControlNonConversions := (controlVisitors * totalNonConversions) / totalVisitors
  let expectedTestNonConversions := (testVisitors * totalNonConversions) / totalVisitors
  (controlConversions - expectedControlConversions) ^ 2 / expectedControlConversions +
  (testConversions - expectedTestConversions) ^ 2 / expectedTestConversions +
  (controlNonConversions - expectedControlNonConversions) ^ 2 / expectedControlNonConversions +
  (testNonConversions - expectedTestNonConversions) ^ 2 / expectedTestNonConversions

/-- The value of `pooledRate` in `fishersExactTest`. -/
def pooledRate (controlConversions controlVisitors testConversions testVisitors : α) : α :=
  (controlConversions + testConversions) / (controlVisitors + testVisitors)

/-- The value of `se` in `fishersExactTest`. -/
def pooledStandardError (m : JSMath α)
    (controlConversions controlVisitors testConversions testVisitors : α) : α :=
  let pooledRate := (controlConversions + testConversions) / (controlVisitors + testVisitors)
  m.sqrt (pooledRate * (1 - pooledRate) * (1 / controlVisitors + 1 / testVisitors))

/-- The value of `zScore` in `fishersExactTest`. -/
def zScore (m : JSMath α)
    (controlConversions controlVisitors testConversions testVisitors : α) : α :=
  let controlRate := controlConversions / controlVisitors
  let testRate := testConversions / testVisitors
  let se := pooledStandardError m controlConversions controlVisitors testConversions testVisitors
  if se > 0 then (testRate - controlRate) / se else 0

end

/-- The exact real square root and exponential, the functions `Math.sqrt` and
`Math.exp` approximate. -/
noncomputable def realMath : JSMath ℝ := { sqrt := Real.sqrt, exp := Real.exp }

section

variable {α : Type} [LinearOrderedField α] [FloorRing α]

/-- The value of `lift` in the callback of `testVariations.map`, before rounding. -/
def rawLift (control variation : VariationPerformance) : α :=
  let controlRate := (control.conversions : α) / (control.visitors : α)
  let testRate := (variation.conversions : α) / (variation.visitors : α)
  if controlRate > 0 then ((testRate - controlRate) / controlRate) * 100 else 0

/-- The value of `useFisher` in the callback of `testVariations.map`. -/
def useFisher (control variation : VariationPerformance) : Bool :=
  (control.visitors < 30 ∨ variation.visitors < 30) ∧
    (control.conversions < 5 ∨ variation.conversions < 5)

/-- The value of `result` in the callback of `testVariations.map`: the outcome of the
test chosen by `useFisher`. -/
def selectedOutcome (m : JSMath α) (control variation : VariationPerformance) : TestOutcome α :=
  if useFisher control variation then
    fishersExactTest m control.conversions control.visitors variation.conversions
      variation.visitors
  else
    chiSquareTest m control.conversions control.visitors variation.conversions
      variation.visitors

end

section

variable {α : Type} [LinearOrderedField α]

/-- The value of `se` in `calculateStatisticalPower`. -/
def powerStandardError (m : JSMath α) (controlRate testRate controlVisitors testVisitors : α) :
    α :=
  let pooledRate := (controlRate + testRate) / 2
  m.sqrt (pooledRate * (1 - pooledRate) * (1 / controlVisitors + 1 / testVisitors))

end

/-- Control `A`: 50000 conversions of 100000 visitors. -/
def controlHalf : VariationPerformance := performanceOf (js "A") true 100000 50000

/-- Variant `B`: 6 conversions of 10 visitors. -/
def smallSampleB : VariationPerformance := performanceOf (js "B") false 10 6

/-- Variant `C`: 55000 conversions of 100000 visitors. -/
def largeSampleC : VariationPerformance := performanceOf (js "C") false 100000 55000

/-- Control `A` of the worked scenario: 50 conversions of 1000 visitors. -/
def scenarioControl : VariationPerformance := performanceOf (js "A") true 1000 50

/-- Variant `B` of the worked scenario: 80 conversions of 1000 visitors. -/
def scenarioVariant : VariationPerformance := performanceOf (js "B") false 1000 80

section

variable {α : Type} [LinearOrderedField α]

/-- The divisors of the four chi-square terms in `chiSquareTest`: the expected counts
`expectedControlConversions`, `expectedTestConversions`, `expectedControlNonConversions`
and `expectedTestNonConversions`. -/
def chiSquareExpected (controlConversions controlVisitors testConversions testVisitors : α) :
    List α :=
  let controlNonConversions := controlVisitors - controlConversions
  let testNonConversions := testVisitors - testConversions
  let totalVisitors := controlVisitors + testVisitors
  let totalConversions := controlConversions + testConversions
  let totalNonConversions := controlNonConversions + testNonConversions
  [(controlVisitors * totalConversions) / totalVisitors,
   (testVisitors * totalConversions) / totalVisitors,
   (controlVisitors * totalNonConversions) / totalVisitors,
   (testVisitors * totalNonConversions) / totalVisitors]

/-- The divisors of the divisions that the callback of `testVariations.map` performs for a
pair with positive visitor counts, in the order of the source: the two visitor counts
(conversion rates), `controlRate` (lift, only under its guard `controlRate > 0`), the four
expected counts (chi-square terms), `se` of `fishersExactTest` (z-score, only under its
guard `se > 0`) and `se` of `calculateStatisticalPower` (the quotient `effectSize / se`,
which has no guard). -/
def significanceDivisors (m : JSMath α) (control variation : VariationPerformance) : List α :=
  let controlConversions : α := control.conversions
  let controlVisitors : α := control.visitors
  let testConversions : α := variation.conversions
  let testVisitors : α := variation.visitors
  let controlRate := controlConversions / controlVisitors
  let testRate := testConversions / testVisitors
  let se := pooledStandardError m controlConversions controlVisitors testConversions testVisitors
  [controlVisitors, testVisitors] ++
    (if controlRate > 0 then [controlRate] else []) ++
    chiSquareExpected controlConversions controlVisitors testConversions testVisitors ++
    (if se > 0 then [se] else []) ++
    [powerStandardError m controlRate testRate controlVisitors testVisitors]

end

/-- Control `A` with 100 visitors and no conversion. -/
def idleControl : VariationPerformance := performanceOf (js "A") true 100 0

/-- Variant `B` with 100 visitors and no conversion. -/
def idleVariant : VariationPerformance := performanceOf (js "B") false 100 0

/-- The method `applyRounding(price, rounding)`; a missing `rounding` is any
unrecognised string. -/
def applyRounding (price : ℚ) (rounding : JSString) : ℚ :=
  if rounding = js "round" then mathRound price
  else if rounding = js "round_up" then ((⌈price⌉ : Int) : ℚ)
  else if rounding = js "round_down" then ((⌊price⌋ : Int) : ℚ)
  else if rounding = js "round_to_cent" then mathRound (price * 100) / 100
  else if rounding = js "round_to_dollar" then mathRound price
  else price

/-! ## Price automation (`services/priceAutomation.js`).
Numbers are exact rationals; `Math.sqrt` and `Math.exp` of the significance engine are a
parameter `m : JSMath ℚ`. A run reads the clock once (`now`, in milliseconds). Numeric
fields of conditions and parameters are taken to be present. -/

/-- The object `timeWindow` of a condition. -/
structure TimeWindow where
  value : ℚ
  unit : JSString
  deriving DecidableEq

/-- The object `condition` of a rule, with the fields the evaluators read; a missing
`timeWindow` is `none`. -/
structure Condition where
  type : JSString
  operator : JSString
  value : ℚ
  metric : JSString
  timeWindow : Option TimeWindow
  variation : JSString
  minConfidence : ℚ
  minLift : ℚ
  minVisitors : ℚ
  deriving DecidableEq

/-- The nested object `parameters.parameters` of a `rebalance_traffic` rule; a missing
`customSplit` is `none`. -/
structure RebalanceParams where
  winnerBonus : ℚ
  minTraffic : ℚ
  customSplit : Option (List ℚ)
  deriving DecidableEq

/-- The object `parameters` of a rule, with the fields the actions read. -/
structure Parameters where
  variation : JSString
  adjustmentType : JSString
  adjustmentValue : ℚ
  rounding : JSString
  reason : JSString
  strategy : JSString
  parameters : Option RebalanceParams
  extensionDays : ℚ
  deriving DecidableEq

/-- One automation rule `{ id, condition, action, target, parameters }`; a missing
`condition` or `parameters` is `none`. -/
structure AutomationRule where
  id : JSString
  condition : Option Condition
  action : JSString
  parameters : Option Parameters
  deriving DecidableEq

/-- The object `automationSettings`; a missing `rules` is `none`. -/
structure AutomationSettings where
  enabled : Bool
  rules : Option (List AutomationRule)
  deriving DecidableEq

/-- The fields of a `Test` row the automation service reads or writes, and the
`durationUnit` the completion check combines with `duration`; times are in milliseconds. -/
structure TestRecord where
  id : JSString
  status : JSString
  variations : List Variation
  trafficSplit : List ℚ
  stoppedVariations : Option (List JSString)
  automationSettings : Option AutomationSettings
  duration : Option ℚ
  startedAt : Option ℚ
  createdAt : ℚ
  completedAt : Option ℚ
  durationUnit : Option JSString := none
  deriving DecidableEq

/-- The `details` object of an audit-log entry, before `JSON.stringify`. -/
inductive LogDetails where
  | adjustPrice (variation : JSString) (oldPrice : Option ℚ) (newPrice : ℚ)
      (adjustmentType : JSString) (adjustmentValue : ℚ)
  | stopVariation (variation : JSString) (reason : JSString)
  | rebalanceTraffic (strategy : JSString) (oldSplit : List ℚ) (newSplit : List ℚ)
  | extendTest (extensionDays : ℚ) (oldDuration : ℚ) (newDuration : ℚ) (reason : JSString)
  deriving DecidableEq

/-- One row of `automationLog`. -/
structure LogEntry where
  testId : JSString
  action : JSString
  details : LogDetails
  timestamp : ℚ
  deriving DecidableEq

/-- The database as the automation service sees it: the row of the test (`none` when
`findUnique` finds nothing), the audit log, and whether `prisma.test.update` and
`prisma.automationLog.create` succeed. -/
structure Store where
  test : Option TestRecord
  automationLog : List LogEntry
  updateAccepts : Bool
  logAccepts : Bool
  deriving DecidableEq

/-- The errors thrown inside `processAutomationRule`; the result entry carries their
message. -/
inductive AutomationError where
  /-- A `TypeError` from reading a field of `undefined`. -/
  | typeError
  /-- The message `Unknown action: <action>`. -/
  | unknownAction (action : JSString)
  /-- The message `Variation <variation> not found`. -/
  | variationNotFound (variation : JSString)
  /-- The message `Unknown adjustment type: <type>`. -/
  | unknownAdjustmentType (adjustmentType : JSString)
  /-- The message `Unknown rebalancing strategy: <strategy>`. -/
  | unknownStrategy (strategy : JSString)
  /-- The message `Traffic split must sum to 100%`. -/
  | splitMustSumTo100
  /-- The rejection of `prisma.test.update`. -/
  | updateRejected
  deriving DecidableEq

/-- The object an action returns (each with `success: true`). -/
inductive ActionResult where
  | adjustPrice (variation : JSString) (oldPrice : Option ℚ) (newPrice : ℚ)
  | stopVariation (variation : JSString) (reason : JSString)
  | rebalanceTraffic (strategy : JSString) (oldSplit : List ℚ) (newSplit : List ℚ)
  | extendTest (extensionDays : ℚ) (oldDuration : ℚ) (newDuration : ℚ)
  deriving DecidableEq

/-- The result entry of one rule. -/
inductive RuleResult where
  /-- The entry `{ ruleId, executed: false, reason: 'Condition not met' }`. -/
  | notMet (ruleId : JSString)
  /-- The entry `{ ruleId, executed: true, action, timestamp }`. -/
  | executed (ruleId : JSString) (action : ActionResult) (timestamp : ℚ)
  /-- The entry `{ ruleId, executed: false, error }`. -/
  | failed (ruleId : JSString) (error : AutomationError)
  deriving DecidableEq

/-- The field `ruleId` of a result entry. -/
def RuleResult.ruleId : RuleResult → JSString
  | RuleResult.notMet ruleId => ruleId
  | RuleResult.executed ruleId _ _ => ruleId
  | RuleResult.failed ruleId _ => ruleId

/-- The field `executed` of a result entry. -/
def RuleResult.isExecuted : RuleResult → Bool
  | RuleResult.executed _ _ _ => true
  | _ => false

/-- The field `error` of a result entry, `none` when the entry has none. -/
def RuleResult.error? : RuleResult → Option AutomationError
  | RuleResult.failed _ error => some error
  | _ => none

/-- What `processAutomationRules` returns or throws. -/
inductive RunOutcome where
  /-- The answer `{ success: false, message: 'Test not found or not running' }`. -/
  | testNotRunning
  /-- The answer `{ success: false, message: 'No performance data available' }`. -/
  | noPerformanceData
  /-- The answer `{ success: false, message: 'Automation not enabled for this test' }`. -/
  | automationNotEnabled
  /-- The answer `{ success: true, results, message }`. -/
  | processed (results : List RuleResult)
  /-- The error of `getTestAnalytics`, thrown again. -/
  | thrown (error : AnalyticsError)
  deriving DecidableEq

/-- The state a run changes: the array `test.stoppedVariations` of the loaded test
object (which `stopVariation` extends in place) and the database. -/
structure RunState where
  stoppedVariations : Option (List JSString)
  store : Store
  deriving DecidableEq

/-- The method `getMetricValue(variation, metric)`. -/
def getMetricValue (variation : VariationPerformance) (metric : JSString) : ℚ :=
  if metric = js "conversion_rate" then variation.conversionRate
  else if metric = js "revenue_per_visitor" then variation.revenuePerVisitor
  else if metric = js "total_revenue" then variation.revenue
  else if metric = js "visitors" then (variation.visitors : ℚ)
  else 0

/-- The method `compareValues(actual, operator, expected)`. -/
def compareValues (actual : ℚ) (operator : JSString) (expected : ℚ) : Bool :=
  if operator = js "greater_than" then actual > expected
  else if operator = js "less_than" then actual < expected
  else if operator = js "equals" then |actual - expected| < 0.01
  else if operator = js "greater_than_or_equal" then actual ≥ expected
  else if operator = js "less_than_or_equal" then actual ≤ expected
  else false

/-- The method `parseTimeWindow(timeWindow)`. -/
def parseTimeWindow (timeWindow : TimeWindow) : ℚ :=
  if timeWindow.unit = js "minutes" then timeWindow.value * 60 * 1000
  else if timeWindow.unit = js "hours" then timeWindow.value * 60 * 60 * 1000
  else if timeWindow.unit = js "days" then timeWindow.value * 24 * 60 * 60 * 1000
  else if timeWindow.unit = js "weeks" then timeWindow.value * 7 * 24 * 60 * 60 * 1000
  else timeWindow.value * 24 * 60 * 60 * 1000

/-- The method `evaluatePerformanceThreshold(condition, variationPerformance)`. -/
def evaluatePerformanceThreshold (condition : Condition)
    (variationPerformance : List VariationPerformance) : Bool :=
  match variationPerformance.find? (fun v => v.variation = condition.variation) with
  | none => false
  | some targetVariation =>
    let metricValue := getMetricValue targetVariation condition.metric
    compareValues metricValue condition.operator condition.value

/-- The method `evaluateStatisticalSignificance(condition, variationPerformance)`. -/
def evaluateStatisticalSignificance (m : JSMath ℚ) (condition : Condition)
    (variationPerformance : List VariationPerformance) : Bool :=
  match variationPerformance.find? (fun v => v.isControl),
      variationPerformance.find? (fun v => v.variation = condition.variation) with
  | some controlVariation, some _ =>
    let statisticalResult :=
      calculateStatisticalSignificance m variationPerformance (some controlVariation.variation)
    match statisticalResult.allResults.bind
        (fun rs => rs.find? (fun r => r.variation = condition.variation)) with
    | none => false
    | some variationResult =>
      variationResult.confidence ≥ condition.minConfidence ∧
        |variationResult.lift| ≥ condition.minLift
  | _, _ => false

/-- The method `evaluateTimeBasedCondition(condition, test)`; a `null` `startedAt` gives
way to `createdAt`, and reading `value` of a missing `timeWindow` throws. -/
def evaluateTimeBasedCondition (now : ℚ) (condition : Condition) (test : TestRecord) :
    Except AutomationError Bool :=
  let testStartTime := test.startedAt.getD test.createdAt
  let elapsedTime := now - testStartTime
  match condition.timeWindow with
  | none => Except.error AutomationError.typeError
  | some timeWindow =>
    let timeWindowMs := parseTimeWindow timeWindow
    if condition.operator = js "after" then Except.ok (elapsedTime ≥ timeWindowMs)
    else if condition.operator = js "before" then Except.ok (elapsedTime ≤ timeWindowMs)
    else Except.ok false

/-- The method `evaluateTrafficVolume(condition, variationPerformance)`. -/
def evaluateTrafficVolume (condition : Condition)
    (variationPerformance : List VariationPerformance) : Bool :=
  match variationPerformance.find? (fun v => v.variation = condition.variation) with
  | none => false
  | some targetVariation => (targetVariation.visitors : ℚ) ≥ condition.minVisitors

/-- The method `evaluateCondition(condition, variationPerformance, test)`; a missing
`condition` makes the destructuring throw. -/
def evaluateCondition (m : JSMath ℚ) (now : ℚ) (condition : Option Condition)
    (variationPerformance : List VariationPerformance) (test : TestRecord) :
    Except AutomationError Bool :=
  match condition with
  | none => Except.error AutomationError.typeError
  | some condition =>
    if condition.type = js "performance_threshold" then
      Except.ok (evaluatePerformanceThreshold condition variationPerformance)
    else if condition.type = js "statistical_significance" then
      Except.ok (evaluateStatisticalSignificance m condition variationPerformance)
    else if condition.type = js "time_based" then
      evaluateTimeBasedCondition now condition test
    else if condition.type = js "traffic_volume" then
      Except.ok (evaluateTrafficVolume condition variationPerformance)
    else Except.ok false

/-- The method `logAutomationAction(testId, action, details)`: a rejected write is
swallowed. -/
def logAutomationAction (now : ℚ) (testId : JSString) (action : JSString)
    (details : LogDetails) (store : Store) : Store :=
  if store.logAccepts then
    { store with
      automationLog := store.automationLog ++
        [{ testId := testId, action := action, details := details, timestamp := now }] }
  else store

/-- The call `prisma.test.update({ where: { id }, data })`: `data` is applied to the row,
or the call is rejected. -/
def updateTest (store : Store) (data : TestRecord → TestRecord) :
    Except AutomationError Store :=
  if store.updateAccepts then Except.ok { store with test := store.test.map data }
  else Except.error AutomationError.updateRejected

/-- The method `adjustPrice(target, parameters, test, variationPerformance)`; a `null`
price counts as 0 in the arithmetic. -/
def adjustPrice (now : ℚ) (parameters : Option Parameters) (test : TestRecord)
    (variationPerformance : List VariationPerformance) (state : RunState) :
    Except AutomationError ActionResult × RunState :=
  match parameters with
  | none => (Except.error AutomationError.typeError, state)
  | some parameters =>
    match variationPerformance.find? (fun v => v.variation = parameters.variation) with
    | none => (Except.error (AutomationError.variationNotFound parameters.variation), state)
    | some targetVariation =>
      let currentPrice := targetVariation.price
      let unrounded : Except AutomationError ℚ :=
        if parameters.adjustmentType = js "percentage" then
          let percentageChange := parameters.adjustmentValue / 100
          Except.ok (currentPrice.getD 0 * (1 + percentageChange))
        else if parameters.adjustmentType = js "fixed_amount" then
          Except.ok (currentPrice.getD 0 + parameters.adjustmentValue)
        else if parameters.adjustmentType = js "set_to" then
          Except.ok parameters.adjustmentValue
        else Except.error (AutomationError.unknownAdjustmentType parameters.adjustmentType)
      match unrounded with
      | Except.error e => (Except.error e, state)
      | Except.ok unroundedPrice =>
        let newPrice := applyRounding unroundedPrice parameters.rounding
        let updatedVariations := test.variations.map (fun v =>
          if v.label = parameters.variation then { v with price := some newPrice } else v)
        match updateTest state.store (fun row => { row with variations := updatedVariations }) with
        | Except.error e => (Except.error e, state)
        | Except.ok store1 =>
          let store2 := logAutomationAction now test.id (js "adjust_price")
            (LogDetails.adjustPrice parameters.variation currentPrice newPrice
              parameters.adjustmentType parameters.adjustmentValue) store1
          (Except.ok (ActionResult.adjustPrice parameters.variation currentPrice newPrice),
            { state with store := store2 })

/-- The method `stopVariation(target, parameters, test)`. The array
`test.stoppedVariations` is extended in place when the test object has one. -/
def stopVariation (now : ℚ) (parameters : Option Parameters) (test : TestRecord)
    (state : RunState) : Except AutomationError ActionResult × RunState :=
  match parameters with
  | none => (Except.error AutomationError.typeError, state)
  | some parameters =>
    let stoppedVariations := state.stoppedVariations.getD []
    if stoppedVariations.contains parameters.variation then
      (Except.ok (ActionResult.stopVariation parameters.variation parameters.reason), state)
    else
      let pushed := stoppedVariations ++ [parameters.variation]
      let inMemory := state.stoppedVariations.map (fun _ => pushed)
      match updateTest state.store (fun row => { row with stoppedVariations := some pushed }) with
      | Except.error e => (Except.error e, { state with stoppedVariations := inMemory })
      | Except.ok store1 =>
        let store2 := logAutomationAction now test.id (js "stop_variation")
          (LogDetails.stopVariation parameters.variation parameters.reason) store1
        (Except.ok (ActionResult.stopVariation parameters.variation parameters.reason),
          { stoppedVariations := inMemory, store := store2 })

/-- The method `calculateWinnerTakesMoreSplit(variationPerformance, params)`; reducing an
empty array throws. With a single variation the quotient in `baseTraffic` has divisor 0;
its value is then not used, the only entry being the winner. -/
def calculateWinnerTakesMoreSplit (variationPerformance : List VariationPerformance)
    (params : RebalanceParams) : Except AutomationError (List ℚ) :=
  let totalVariations := variationPerformance.length
  let baseTraffic :=
    max params.minTraffic ((100 - params.winnerBonus) / ((totalVariations : ℚ) - 1))
  match variationPerformance with
  | [] => Except.error AutomationError.typeError
  | first :: rest =>
    let winner := rest.foldl
      (fun best current => if current.conversionRate > best.conversionRate then current else best)
      first
    Except.ok (variationPerformance.map (fun v =>
      if v.variation = winner.variation then params.winnerBonus else baseTraffic))

/-- The method `calculateEqualSplit(variationPerformance)`. -/
def calculateEqualSplit (variationPerformance : List VariationPerformance) : List ℚ :=
  let totalVariations := variationPerformance.length
  let equalShare := 100 / (totalVariations : ℚ)
  List.replicate totalVariations equalShare

/-- The method `rebalanceTraffic(target, parameters, test, variationPerformance)`. -/
def rebalanceTraffic (now : ℚ) (parameters : Option Parameters) (test : TestRecord)
    (variationPerformance : List VariationPerformance) (state : RunState) :
    Except AutomationError ActionResult × RunState :=
  match parameters with
  | none => (Except.error AutomationError.typeError, state)
  | some parameters =>
    let newTrafficSplit : Except AutomationError (List ℚ) :=
      if parameters.strategy = js "winner_takes_more" then
        match parameters.parameters with
        | none => Except.error AutomationError.typeError
        | some rebalanceParams => calculateWinnerTakesMoreSplit variationPerformance rebalanceParams
      else if parameters.strategy = js "equal_split" then
        Except.ok (calculateEqualSplit variationPerformance)
      else if parameters.strategy = js "custom" then
        match parameters.parameters with
        | none => Except.error AutomationError.typeError
        | some rebalanceParams =>
          match rebalanceParams.customSplit with
          | none => Except.error AutomationError.typeError
          | some customSplit => Except.ok customSplit
      else Except.error (AutomationError.unknownStrategy parameters.strategy)
    match newTrafficSplit with
    | Except.error e => (Except.error e, state)
    | Except.ok newTrafficSplit =>
      let total := newTrafficSplit.foldl (fun sum val => sum + val) 0
      if |total - 100| > 0.1 then (Except.error AutomationError.splitMustSumTo100, state)
      else
        match updateTest state.store (fun row => { row with trafficSplit := newTrafficSplit }) with
        | Except.error e => (Except.error e, state)
        | Except.ok store1 =>
          let store2 := logAutomationAction now test.id (js "rebalance_traffic")
            (LogDetails.rebalanceTraffic parameters.strategy test.trafficSplit newTrafficSplit)
            store1
          (Except.ok (ActionResult.rebalanceTraffic parameters.strategy test.trafficSplit
            newTrafficSplit), { state with store := store2 })

/-- The method `extendTest(target, parameters, test)`. -/
def extendTest (now : ℚ) (parameters : Option Parameters) (test : TestRecord)
    (state : RunState) : Except AutomationError ActionResult × RunState :=
  match parameters with
  | none => (Except.error AutomationError.typeError, state)
  | some parameters =>
    let currentDuration := match test.duration with
      | some d => if d = 0 then 7 else d
      | none => 7
    let newDuration := currentDuration + parameters.extensionDays
    match updateTest state.store
        (fun row => { row with duration := some newDuration, completedAt := none }) with
    | Except.error e => (Except.error e, state)
    | Except.ok store1 =>
      let store2 := logAutomationAction now test.id (js "extend_test")
        (LogDetails.extendTest parameters.extensionDays currentDuration newDuration
          parameters.reason) store1
      (Except.ok (ActionResult.extendTest parameters.extensionDays currentDuration newDuration),
        { state with store := store2 })

/-- The method `executeAction(action, target, parameters, test, variationPerformance)`. -/
def executeAction (now : ℚ) (action : JSString) (parameters : Option Parameters)
    (test : TestRecord) (variationPerformance : List VariationPerformance) (state : RunState) :
    Except AutomationError ActionResult × RunState :=
  if action = js "adjust_price" then adjustPrice now parameters test variationPerformance state
  else if action = js "stop_variation" then stopVariation now parameters test state
  else if action = js "rebalance_traffic" then
    rebalanceTraffic now parameters test variationPerformance state
  else if action = js "extend_test" then extendTest now parameters test state
  else (Except.error (AutomationError.unknownAction action), state)

/-- The method `processAutomationRule(test, rule, variationPerformance)`: every error
thrown while the rule is evaluated or executed becomes a result entry. -/
def processAutomationRule (m : JSMath ℚ) (now : ℚ) (test : TestRecord) (rule : AutomationRule)
    (variationPerformance : List VariationPerformance) (state : RunState) :
    RuleResult × RunState :=
  match evaluateCondition m now rule.condition variationPerformance test with
  | Except.error e => (RuleResult.failed rule.id e, state)
  | Except.ok false => (RuleResult.notMet rule.id, state)
  | Except.ok true =>
    match executeAction now rule.action rule.parameters test variationPerformance state with
    | (Except.error e, state1) => (RuleResult.failed rule.id e, state1)
    | (Except.ok actionResult, state1) => (RuleResult.executed rule.id actionResult now, state1)

/-- The loop `for (const rule of automationSettings.rules || [])`. -/
def processRuleList (m : JSMath ℚ) (now : ℚ) (test : TestRecord)
    (variationPerformance : List VariationPerformance) :
    List AutomationRule → RunState → List RuleResult × RunState
  | [], state => ([], state)
  | rule :: rest, state =>
    let step := processAutomationRule m now test rule variationPerformance state
    let tail := processRuleList m now test variationPerformance rest step.2
    (step.1 :: tail.1, tail.2)

/-- The test configuration `processEventsToAnalytics` receives for a row. -/
def TestRecord.toTest (test : TestRecord) : Test :=
  { id := test.id, variations := test.variations, trafficSplit := test.trafficSplit,
    targeting := none, stoppedVariations := test.stoppedVariations.getD [] }

/-- The method `processAutomationRules(testId)`: `store` is the database, `events` the
events `getTestAnalytics` reads for the test. -/
def processAutomationRules (m : JSMath ℚ) (now : ℚ) (events : List Event) (store : Store) :
    RunOutcome × Store :=
  match store.test with
  | none => (RunOutcome.testNotRunning, store)
  | some test =>
    if test.status ≠ js "Running" then (RunOutcome.testNotRunning, store)
    else
      match processEventsToAnalytics events test.toTest with
      | Except.error e => (RunOutcome.thrown e, store)
      | Except.ok analytics =>
        let variationPerformance := analytics.variationPerformance
        if variationPerformance.length = 0 then (RunOutcome.noPerformanceData, store)
        else
          match test.automationSettings with
          | none => (RunOutcome.automationNotEnabled, store)
          | some automationSettings =>
            if automationSettings.enabled = false then (RunOutcome.automationNotEnabled, store)
            else
              let run := processRuleList m now test variationPerformance
                (automationSettings.rules.getD [])
                { stoppedVariations := test.stoppedVariations, store := store }
              (RunOutcome.processed run.1, run.2.store)

/-- Whether `executeAction` has a case for the action type. -/
def isKnownAction (action : JSString) : Bool :=
  action = js "adjust_price" ∨ action = js "stop_variation" ∨
    action = js "rebalance_traffic" ∨ action = js "extend_test"

/-- Whether `evaluateCondition` has a case for the condition type. -/
def isKnownConditionType (type : JSString) : Bool :=
  type = js "performance_threshold" ∨ type = js "statistical_significance" ∨
    type = js "time_based" ∨ type = js "traffic_volume"

/-- The entry of a rule whose action type is unknown, from the outcome of its condition. -/
def unknownActionEntry (rule : AutomationRule) (condition : Except AutomationError Bool) :
    RuleResult :=
  match condition with
  | Except.error e => RuleResult.failed rule.id e
  | Except.ok false => RuleResult.notMet rule.id
  | Except.ok true => RuleResult.failed rule.id (AutomationError.unknownAction rule.action)

/-- A `traffic_volume` condition on variation `A` with the given visitor floor. -/
def trafficCondition (minVisitors : ℚ) : Condition :=
  { type := js "traffic_volume", operator := js "", value := 0, metric := js "",
    timeWindow := none, variation := js "A", minConfidence := 0, minLift := 0,
    minVisitors := minVisitors }

/-- A condition of the unknown type `revenue_spike`. -/
def revenueSpikeCondition : Condition :=
  { type := js "revenue_spike", operator := js "", value := 0, metric := js "",
    timeWindow := none, variation := js "A", minConfidence := 0, minLift := 0,
    minVisitors := 0 }

/-- Parameters that name variation `B` and a reason. -/
def stopBParameters : Parameters :=
  { variation := js "B", adjustmentType := js "", adjustmentValue := 0, rounding := js "",
    reason := js "low performance", strategy := js "", parameters := none,
    extensionDays := 0 }

/-- Rule `r1`: the unknown action `send_email` under a `traffic_volume` condition. -/
def sendEmailRule (minVisitors : ℚ) : AutomationRule :=
  { id := js "r1", condition := some (trafficCondition minVisitors), action := js "send_email",
    parameters := some stopBParameters }

/-- Rule `r2`: stop variation `B` as soon as `A` has any traffic volume. -/
def stopBRule : AutomationRule :=
  { id := js "r2", condition := some (trafficCondition 0), action := js "stop_variation",
    parameters := some stopBParameters }

/-- Rule `r3`: stop variation `B` under a condition of the unknown type `revenue_spike`. -/
def revenueSpikeRule : AutomationRule :=
  { id := js "r3", condition := some revenueSpikeCondition, action := js "stop_variation",
    parameters := some stopBParameters }

/-- A running test with automation enabled and the given rules. -/
def automatedTest (rules : List AutomationRule) : TestRecord :=
  { id := js "t4", status := js "Running", variations := sampleVariations,
    trafficSplit := [50, 50], stoppedVariations := some [],
    automationSettings := some { enabled := true, rules := some rules },
    duration := some 14, startedAt := some 0, createdAt := 0, completedAt := none }

/-- A database that holds `automatedTest rules`, an empty audit log, and accepts writes. -/
def automatedStore (rules : List AutomationRule) : Store :=
  { test := some (automatedTest rules), automationLog := [], updateAccepts := true,
    logAccepts := true }

/-- One page view of variation `A`. -/
def pageViewA : Event :=
  { type := js "page_view", variation := js "A", path := some (js "/"), revenueCents := none }

/-! ## Cookies, lifetime, repeated actions and the detail-view analysis: definitions and
sample inputs -/

/-- The user agent of an iPad: it contains both `iPad` and `Mobile`. -/
def ipadUserAgent : JSString :=
  js "Mozilla/5.0 (iPad; CPU OS 13_2 like Mac OS X) AppleWebKit/605.1.15 (KHTML, like Gecko) Mobile/15E148"

/-- A first visit without cookie from address `10.0.0.1`. -/
def firstVisit : Request :=
  { productId := some (js "p1"), variantId := none, testPrice := none, preview := none,
    search := js "?product_id=p1", userAgent := some (js "UA1"), referer := none,
    referrer := none, cfIpCountry := none, xCountry := none,
    xForwardedFor := some (js "10.0.0.1"), xRealIp := none, cookie := none }

/-- The name and value of a `Set-Cookie` header: the text before the first `;`. -/
def cookiePair (setCookie : JSString) : JSString := setCookie.takeWhile (fun u => u != 59)

/-- The `Set-Cookie` header of a loader response, if it has one. -/
def Response.setCookie? : Response → Option JSString
  | Response.assigned _ _ _ _ setCookie => setCookie
  | _ => none

/-- The follow-up visit: the cookie the first response set, from address `10.0.0.2`. -/
def followUpVisit : Request :=
  { firstVisit with
    xForwardedFor := some (js "10.0.0.2"),
    cookie := some (js "pt_vid=visitor_1106694847") }

/-- The proxy environment with the single running test `plainTest`. -/
def plainEnv : Env := { proxyValid := true, activeTests := [plainTest], geoCountry := none }

/-- One purchase of variation `A` worth 10.00. -/
def purchaseA : Event :=
  { type := js "purchase", variation := js "A", path := none, revenueCents := some 1000 }

/-- The value of `newTrafficSplit` after the `switch (strategy)` of `rebalanceTraffic`,
or the error the switch throws. -/
def rebalancedSplit (parameters : Parameters)
    (variationPerformance : List VariationPerformance) : Except AutomationError (List ℚ) :=
  if parameters.strategy = js "winner_takes_more" then
    match parameters.parameters with
    | none => Except.error AutomationError.typeError
    | some rebalanceParams => calculateWinnerTakesMoreSplit variationPerformance rebalanceParams
  else if parameters.strategy = js "equal_split" then
    Except.ok (calculateEqualSplit variationPerformance)
  else if parameters.strategy = js "custom" then
    match parameters.parameters with
    | none => Except.error AutomationError.typeError
    | some rebalanceParams =>
      match rebalanceParams.customSplit with
      | none => Except.error AutomationError.typeError
      | some customSplit => Except.ok customSplit
  else Except.error (AutomationError.unknownStrategy parameters.strategy)

/-- Parameters of a `rebalance_traffic` rule with the given strategy and nested
parameters. -/
def rebalanceParameters (strategy : JSString) (parameters : Option RebalanceParams) :
    Parameters :=
  { variation := js "", adjustmentType := js "", adjustmentValue := 0, rounding := js "",
    reason := js "", strategy := strategy, parameters := parameters, extensionDays := 0 }

/-- Rollups of `A` (control) and `B` with 100 visitors each and 10 and 20 conversions. -/
def twoRollups : List VariationPerformance :=
  [performanceOf (js "A") true 100 10, performanceOf (js "B") false 100 20]

/-- The state at the start of a run on `automatedStore rules`. -/
def freshState (rules : List AutomationRule) : RunState :=
  { stoppedVariations := some [], store := automatedStore rules }

/-- The result object an action returns next to the `details` it logs: the fields the two
share. -/
def LogDetails.toActionResult : LogDetails → ActionResult
  | LogDetails.adjustPrice variation oldPrice newPrice _ _ =>
    ActionResult.adjustPrice variation oldPrice newPrice
  | LogDetails.stopVariation variation reason => ActionResult.stopVariation variation reason
  | LogDetails.rebalanceTraffic strategy oldSplit newSplit =>
    ActionResult.rebalanceTraffic strategy oldSplit newSplit
  | LogDetails.extendTest extensionDays oldDuration newDuration _ =>
    ActionResult.extendTest extensionDays oldDuration newDuration

/-- Rule `r4`: stop variation `B` once more. -/
def stopBAgainRule : AutomationRule :=
  { id := js "r4", condition := some (trafficCondition 0), action := js "stop_variation",
    parameters := some stopBParameters }

/-- The value of `durationInMs` in `checkCompletedTests` (`contexts/TestContext.jsx`)
after the `switch (test.durationUnit)`. -/
def durationInMs (duration : ℚ) (durationUnit : JSString) : ℚ :=
  if durationUnit = js "days" then duration * (24 * 60 * 60 * 1000)
  else if durationUnit = js "weeks" then duration * (7 * 24 * 60 * 60 * 1000)
  else if durationUnit = js "months" then duration * (30 * 24 * 60 * 60 * 1000)
  else duration * (24 * 60 * 60 * 1000)

/-- The scheduled lifetime of a test in milliseconds, as `checkCompletedTests` computes it;
`none` when the guard `test.duration && test.durationUnit` skips the test. -/
def scheduledLifetime (test : TestRecord) : Option ℚ :=
  match test.duration, test.durationUnit with
  | some duration, some durationUnit =>
    if duration = 0 ∨ durationUnit = [] then none
    else some (durationInMs duration durationUnit)
  | _, _ => none

/-- The check of `checkCompletedTests` for one test: whether it is marked `Completed` at
the time `now`. -/
def isDueForCompletion (now : ℚ) (test : TestRecord) : Bool :=
  test.status = js "Running" &&
    match scheduledLifetime test with
    | some lifetime => now ≥ test.createdAt + lifetime
    | none => false

/-- The number of milliseconds of one day. -/
def millisecondsPerDay : ℚ := 24 * 60 * 60 * 1000

/-- A running test that lasts 2 weeks. -/
def twoWeekTest : TestRecord :=
  { id := js "t5", status := js "Running", variations := sampleVariations,
    trafficSplit := [50, 50], stoppedVariations := some [],
    automationSettings := none,
    duration := some 2, startedAt := some 0, createdAt := 0, completedAt := none,
    durationUnit := some (js "weeks") }

/-- Parameters of an `extend_test` rule. -/
def extendParameters (extensionDays : ℚ) : Parameters :=
  { variation := js "", adjustmentType := js "", adjustmentValue := 0, rounding := js "",
    reason := js "more data", strategy := js "", parameters := none,
    extensionDays := extensionDays }

/-- The state of a run on a database that holds `test` and accepts writes. -/
def stateOf (test : TestRecord) : RunState :=
  { stoppedVariations := test.stoppedVariations,
    store := { test := some test, automationLog := [], updateAccepts := true,
               logAccepts := true } }

/-- Parameters of an `adjust_price` rule without rounding. -/
def priceParameters (variation adjustmentType : JSString) (adjustmentValue : ℚ) :
    Parameters :=
  { variation := variation, adjustmentType := adjustmentType,
    adjustmentValue := adjustmentValue, rounding := js "none", reason := js "",
    strategy := js "", parameters := none, extensionDays := 0 }

/-- An `adjust_price` rule that fires as soon as `A` has any traffic volume. -/
def adjustPriceRule (id variation adjustmentType : JSString) (adjustmentValue : ℚ) :
    AutomationRule :=
  { id := id, condition := some (trafficCondition 0), action := js "adjust_price",
    parameters := some (priceParameters variation adjustmentType adjustmentValue) }

/-- Rule `r5`: lower the price of `B` by 150 percent. -/
def discountBRule : AutomationRule := adjustPriceRule (js "r5") (js "B") (js "percentage") (-150)

/-- Rule `r6`: set the price of `A` to 11. -/
def setARule : AutomationRule := adjustPriceRule (js "r6") (js "A") (js "set_to") 11

/-- Rule `r7`: set the price of `B` to 13. -/
def setBRule : AutomationRule := adjustPriceRule (js "r7") (js "B") (js "set_to") 13

/-- The labels and prices of the stored test. -/
def storedPrices (store : Store) : Option (List (JSString × Option ℚ)) :=
  store.test.map (fun row => row.variations.map (fun v => (v.label, v.price)))

/-- Variant `B` with 45000 conversions of 100000 visitors. -/
def worseSampleB : VariationPerformance := performanceOf (js "B") false 100000 45000

/-- What the winner analysis of the test detail view (`routes/app.tests.$testId.jsx`)
reads besides the rollups: `test.status`, `test.selectedGoal` (`none` when missing),
`test.createdAt` and the clock `Date.now()`, both in milliseconds. -/
structure DetailContext where
  status : JSString
  selectedGoal : Option JSString
  createdAt : ℚ
  now : ℚ
  deriving DecidableEq

/-- One entry of `analyzedVariations`: the rollup (`...variant`) with the fields
`improvement`, `confidence`, `status` and `isWinner` the analysis adds. -/
structure AnalyzedVariation (α : Type) where
  variant : VariationPerformance
  improvement : α
  confidence : α
  status : JSString
  isWinner : Bool

/-- The fields `winner`, `variations`, `totalVisitors` and `testDuration` of the object the
detail-view analysis returns; `winner` is `none` when `reduce` of an empty array throws. -/
structure WinnerAnalysis (α : Type) where
  winner : Option (AnalyzedVariation α)
  variations : List (AnalyzedVariation α)
  totalVisitors : Nat
  testDuration : Int

section

variable {α : Type} [LinearOrderedField α] [FloorRing α]

/-- The value of `testDuration`: whole days since `test.createdAt`. -/
def DetailView.testDuration (ctx : DetailContext) : Int :=
  ⌊(ctx.now - ctx.createdAt) / (1000 * 60 * 60 * 24)⌋

/-- The closure `getGoalMetric(v)` for the goal `test?.selectedGoal || 'revenue_per_visitor'`. -/
def DetailView.getGoalMetric (ctx : DetailContext) (v : VariationPerformance) : α :=
  let goal := jsOr ctx.selectedGoal (js "revenue_per_visitor")
  if goal = js "conversion_rate" then (v.conversionRate : α)
  else if goal = js "average_order_value" then
    let orders := v.conversions
    if orders > 0 then (v.revenue : α) / (orders : α) else 0
  else if goal = js "add_to_cart_rate" then
    let visitors := v.visitors
    if visitors > 0 then (v.addToCart : α) / (visitors : α) else 0
  else
    let visitors := v.visitors
    if visitors > 0 then (v.revenue : α) / (visitors : α) else 0

/-- The value of `improvement` for a variant, from the metric of the control. -/
def DetailView.improvement (controlMetric variantMetric : α) : α :=
  let denom := if controlMetric = 0 then 1 else controlMetric
  ((variantMetric - controlMetric) / denom) * 100

/-- The value of `confidence` before it is rounded. -/
def DetailView.confidence (m : JSMath α) (testDuration : Int) (improvement : α)
    (sampleSize : Nat) : α :=
  min 95 (max 60 (m.sqrt (sampleSize : α) * 0.5 + |improvement| * 0.3 +
    (if testDuration > 7 then 10 else 0)))

/-- The value of `status` for a variant. -/
def DetailView.status (isStoppedTest : Bool) (confidence improvement : α) (sampleSize : Nat) :
    JSString :=
  let minConfidence : α := if isStoppedTest then 70 else 85
  let minImprovement : α := if isStoppedTest then 1 else 3
  let minSampleSize : Nat := if isStoppedTest then 15 else 30
  if confidence ≥ minConfidence ∧ improvement > minImprovement ∧ sampleSize ≥ minSampleSize then
    js "Winner"
  else if confidence ≥ (if isStoppedTest then 60 else 75) ∧
      improvement > (if isStoppedTest then 0.5 else 1) ∧
      sampleSize ≥ (if isStoppedTest then 10 else 20) then
    js "Significant"
  else js "Not Significant"

/-- The callback of `variations.map` that builds `analyzedVariations`. -/
def DetailView.analyzeVariation (m : JSMath α) (ctx : DetailContext) (controlMetric : α)
    (variant : VariationPerformance) : AnalyzedVariation α :=
  let variantMetric : α := DetailView.getGoalMetric ctx variant
  let improvement := DetailView.improvement controlMetric variantMetric
  let sampleSize := variant.visitors
  let confidence := DetailView.confidence m (DetailView.testDuration ctx) improvement sampleSize
  let isStoppedTest : Bool := ctx.status = js "Stopped"
  let status := DetailView.status isStoppedTest confidence improvement sampleSize
  { variant := variant, improvement := improvement, confidence := mathRound confidence,
    status := status, isWinner := status = js "Winner" }

/-- The value of `recommendedWinner`: the first entry with `isWinner`, else the entry that
the reduction by `conversionRate` keeps. -/
def DetailView.recommendedWinner (analyzedVariations : List (AnalyzedVariation α)) :
    Option (AnalyzedVariation α) :=
  match analyzedVariations.find? (fun v => v.isWinner) with
  | some winner => some winner
  | none =>
    match analyzedVariations with
    | [] => none
    | first :: rest =>
      some (rest.foldl
        (fun best current =>
          if current.variant.conversionRate > best.variant.conversionRate then current
          else best)
        first)

/-- The function `calculateStatisticalSignificance(variations, control)` of the test detail
view. -/
def DetailView.calculateStatisticalSignificance (m : JSMath α) (ctx : DetailContext)
    (variations : List VariationPerformance) (control : VariationPerformance) :
    WinnerAnalysis α :=
  let totalVisitors := variations.foldl (fun sum v => sum + v.visitors) 0
  let controlMetric : α := DetailView.getGoalMetric ctx control
  let analyzedVariations := variations.map (DetailView.analyzeVariation m ctx controlMetric)
  { winner := DetailView.recommendedWinner analyzedVariations,
    variations := analyzedVariations,
    totalVisitors := totalVisitors,
    testDuration := DetailView.testDuration ctx }

end

/-- The rollup of a variation with 40000 visitors and the given revenue. -/
def revenueRollup (variation : JSString) (isControl : Bool) (revenue : ℚ) :
    VariationPerformance :=
  { performanceOf variation isControl 40000 2000 with
    revenue := revenue, revenuePerVisitor := revenue / 40000 }

/-- A running test on its first day with the default goal. -/
def firstDayContext : DetailContext :=
  { status := js "Running", selectedGoal := none, createdAt := 0, now := 0 }

/-- Control `A` with revenue 40000, `B` with 44000 and `C` with 60000. -/
def revenueRollups : List VariationPerformance :=
  [revenueRollup (js "A") true 40000, revenueRollup (js "B") false 44000,
   revenueRollup (js "C") false 60000]

/-! ## Double-precision arithmetic, `NaN` and `undefined`.
The definitions above take JavaScript numbers as exact rationals. The definitions of this
section follow the code on doubles: `roundToDouble` is IEEE-754 binary64 rounding, the
functions whose names begin with `Num.` take their arithmetic from a `NumberOps`
(`binary64` on finite doubles, `exactArithmetic` without rounding), and `JSValue` adds
`undefined`, the infinities and `NaN` for the split computation of `rebalanceTraffic`. -/

/-- The power `2 ^ e` of an integer exponent. -/
def pow2 (e : Int) : ℚ :=
  if 0 ≤ e then ((2 ^ e.toNat : Nat) : ℚ) else 1 / ((2 ^ (-e).toNat : Nat) : ℚ)

/-- The position of the leading binary digit of `n`, by repeated halving (`fuel` bounds
the number of halvings). -/
def leadingBit : Nat → Nat → Nat
  | 0, _ => 0
  | fuel + 1, n => if n < 2 then 0 else leadingBit fuel (n / 2) + 1

/-- The binary exponent of a positive rational `x`: the integer `e` with
`2 ^ e ≤ x < 2 ^ (e + 1)`. -/
def binaryExponent (x : ℚ) : Int :=
  let e0 : Int :=
    (leadingBit x.num.natAbs x.num.natAbs : Int) - (leadingBit x.den x.den : Int)
  if x < pow2 e0 then e0 - 1 else e0

/-- The integer nearest to a rational, a tie going to the even one. -/
def roundHalfEven (q : ℚ) : Int :=
  let f := ⌊q⌋
  if q - f < 1 / 2 then f
  else if 1 / 2 < q - f then f + 1
  else if f % 2 = 0 then f else f + 1

/-- The IEEE-754 binary64 number nearest to a rational (round to nearest, ties to even):
a 53-bit significand at the binary exponent of the argument, and the fixed spacing
`2 ^ (-1074)` of the subnormal numbers below `2 ^ (-1022)`. A double is the rational
it denotes; overflow to `Infinity` (results of `2 ^ 1024` and more) is not modelled. -/
def roundToDouble (x : ℚ) : ℚ :=
  if x = 0 then 0
  else
    let e := max (binaryExponent |x|) (-1022)
    let ulp := pow2 (e - 52)
    let n := roundHalfEven (|x| / ulp)
    if x < 0 then -((n : ℚ) * ulp) else (n : ℚ) * ulp

/-- The operations on JavaScript numbers that the functions below apply, for a
carrier `N` of number values: the number of an integer, `+`, `*`, `/`, `<=` and
falsiness. -/
structure NumberOps (N : Type) where
  ofInt : Int → N
  add : N → N → N
  mul : N → N → N
  div : N → N → N
  le : N → N → Bool
  isFalsy : N → Bool

/-- Arithmetic on finite doubles, each double being the rational it denotes: every
operation returns the double nearest to the exact result. The integers that occur (0,
100, 10000 and a hash below 10000) are doubles. -/
def binary64 : NumberOps ℚ :=
  { ofInt := fun n => (n : ℚ)
    add := fun x y => roundToDouble (x + y)
    mul := fun x y => roundToDouble (x * y)
    div := fun x y => roundToDouble (x / y)
    le := fun x y => decide (x ≤ y)
    isFalsy := fun x => decide (x = 0) }

/-- Exact arithmetic on rationals, without rounding. -/
def exactArithmetic : NumberOps ℚ :=
  { ofInt := fun n => (n : ℚ)
    add := fun x y => x + y
    mul := fun x y => x * y
    div := fun x y => x / y
    le := fun x y => decide (x ≤ y)
    isFalsy := fun x => decide (x = 0) }

/-- The expression `trafficSplit[i] || 0`: a missing or falsy entry is 0. -/
def Num.percentage {N : Type} (ops : NumberOps N) (trafficSplit : List N) (i : Nat) : N :=
  match trafficSplit[i]? with
  | some x => if ops.isFalsy x then ops.ofInt 0 else x
  | none => ops.ofInt 0

/-- The value `random = (hash % 10000) / 10000` of `assignVisitorToVariant`, the division
being the one of `ops`. -/
def Num.bucket {N : Type} (ops : NumberOps N) (visitorId : JSString) : N :=
  ops.div (ops.ofInt (simpleHash visitorId % 10000)) (ops.ofInt 10000)

/-- The `for` loop of `assignVisitorToVariant` with the arithmetic of `ops`: `fuel`
iterations remain, `i` is the loop index and `cumulative` the running sum. `none` means
the loop ran to its end. -/
def Num.assignLoop {N V : Type} (ops : NumberOps N) (random : N) (variations : List V)
    (trafficSplit : List N) : Nat → Nat → N → Option V
  | 0, _, _ => none
  | fuel + 1, i, cumulative =>
    let percentage := Num.percentage ops trafficSplit i
    let cumulative1 := ops.add cumulative (ops.div percentage (ops.ofInt 100))
    if ops.le random cumulative1 then variations[i]?
    else Num.assignLoop ops random variations trafficSplit fuel (i + 1) cumulative1

/-- The function `assignVisitorToVariant(visitorId, variations, trafficSplit)` with the
arithmetic of `ops`; `none` is the `null` result. -/
def Num.assignVisitorToVariant {N V : Type} (ops : NumberOps N) (visitorId : JSString)
    (variations : List V) (trafficSplit : List N) : Option V :=
  if variations.length = 0 ∨ trafficSplit.length = 0 then none
  else
    let random := Num.bucket ops visitorId
    match Num.assignLoop ops random variations trafficSplit variations.length 0 (ops.ofInt 0) with
    | some v => some v
    | none => variations.getLast?

/-- The value of `cumulative` after the iteration with index `i`: the running sum
`(...((0 + s_0 / 100) + s_1 / 100) + ...) + s_i / 100` as the loop accumulates it. -/
def Num.cumulative {N : Type} (ops : NumberOps N) (trafficSplit : List N) : Nat → N
  | 0 => ops.add (ops.ofInt 0) (ops.div (Num.percentage ops trafficSplit 0) (ops.ofInt 100))
  | i + 1 =>
    ops.add (Num.cumulative ops trafficSplit i)
      (ops.div (Num.percentage ops trafficSplit (i + 1)) (ops.ofInt 100))

/-- The value of `cumulative` when the loop enters index `i`. -/
def Num.cumulativeBefore {N : Type} (ops : NumberOps N) (trafficSplit : List N) : Nat → N
  | 0 => ops.ofInt 0
  | i + 1 => Num.cumulative ops trafficSplit i

/-- The method `applyRounding(price, rounding)` with the arithmetic of `ops` for the
product and the quotient of `round_to_cent`; `Math.round`, `Math.ceil` and `Math.floor`
are exact on doubles. -/
def Num.applyRounding (ops : NumberOps ℚ) (price : ℚ) (rounding : JSString) : ℚ :=
  if rounding = js "round" then mathRound price
  else if rounding = js "round_up" then ((⌈price⌉ : Int) : ℚ)
  else if rounding = js "round_down" then ((⌊price⌋ : Int) : ℚ)
  else if rounding = js "round_to_cent" then
    ops.div (mathRound (ops.mul price (ops.ofInt 100))) (ops.ofInt 100)
  else if rounding = js "round_to_dollar" then mathRound price
  else price

/-- The price 43923586606979.375, a double. -/
def largePrice : ℚ := 351388692855835 / 8

/-- A value in the split computation of `rebalanceTraffic`: `undefined` (a missing
field), a finite double, an infinity, or `NaN`. -/
inductive JSValue where
  | undefined
  | number (value : ℚ)
  | infinity (negative : Bool)
  | nan
  deriving DecidableEq

/-- The double of an exact result: the nearest double, or an infinity when that is
`2 ^ 1024` or more in absolute value. -/
def JSValue.ofExact (q : ℚ) : JSValue :=
  if pow2 1024 ≤ |roundToDouble q| then JSValue.infinity (decide (q < 0))
  else JSValue.number (roundToDouble q)

/-- The conversion `ToNumber` on these values: `undefined` becomes `NaN`. -/
def JSValue.toNumber : JSValue → JSValue
  | JSValue.undefined => JSValue.nan
  | v => v

/-- The unary minus. -/
def JSValue.neg : JSValue → JSValue
  | JSValue.number x => JSValue.number (-x)
  | JSValue.infinity negative => JSValue.infinity (!negative)
  | _ => JSValue.nan

/-- The operator `+` on numbers and `undefined`. -/
def JSValue.add (a b : JSValue) : JSValue :=
  match a.toNumber, b.toNumber with
  | JSValue.number x, JSValue.number y => JSValue.ofExact (x + y)
  | JSValue.infinity s, JSValue.number _ => JSValue.infinity s
  | JSValue.number _, JSValue.infinity s => JSValue.infinity s
  | JSValue.infinity s, JSValue.infinity t => if s = t then JSValue.infinity s else JSValue.nan
  | _, _ => JSValue.nan

/-- The operator `-`. -/
def JSValue.sub (a b : JSValue) : JSValue := JSValue.add a (JSValue.neg b.toNumber)

/-- The operator `/`; a zero divisor is `+0` (the divisor that occurs is
`variationPerformance.length - 1` or `variationPerformance.length`). -/
def JSValue.div (a b : JSValue) : JSValue :=
  match a.toNumber, b.toNumber with
  | JSValue.number x, JSValue.number y =>
    if y = 0 then (if x = 0 then JSValue.nan else JSValue.infinity (decide (x < 0)))
    else JSValue.ofExact (x / y)
  | JSValue.infinity s, JSValue.number y => JSValue.infinity (if y < 0 then !s else s)
  | JSValue.number _, JSValue.infinity _ => JSValue.number 0
  | _, _ => JSValue.nan

/-- The call `Math.max(a, b)`: `NaN` when an argument converts to `NaN`. -/
def JSValue.max (a b : JSValue) : JSValue :=
  match a.toNumber, b.toNumber with
  | JSValue.number x, JSValue.number y => JSValue.number (Max.max x y)
  | JSValue.infinity false, JSValue.number _ => JSValue.infinity false
  | JSValue.number _, JSValue.infinity false => JSValue.infinity false
  | JSValue.infinity true, JSValue.number y => JSValue.number y
  | JSValue.number x, JSValue.infinity true => JSValue.number x
  | JSValue.infinity s, JSValue.infinity t => JSValue.infinity (s && t)
  | _, _ => JSValue.nan

/-- The call `Math.abs(a)`. -/
def JSValue.abs (a : JSValue) : JSValue :=
  match a.toNumber with
  | JSValue.number x => JSValue.number |x|
  | JSValue.infinity _ => JSValue.infinity false
  | _ => JSValue.nan

/-- The comparison `a > b`: false when an operand converts to `NaN`. -/
def JSValue.gt (a b : JSValue) : Bool :=
  match a.toNumber, b.toNumber with
  | JSValue.number x, JSValue.number y => decide (x > y)
  | JSValue.infinity false, JSValue.number _ => true
  | JSValue.number _, JSValue.infinity true => true
  | JSValue.infinity false, JSValue.infinity true => true
  | _, _ => false

deriving instance DecidableEq for Except

/-- The object `parameters.parameters` of a `rebalance_traffic` rule as it is received: a
missing `winnerBonus` or `minTraffic` is `undefined`, a missing `customSplit` is `none`. -/
structure Num.RebalanceParams where
  winnerBonus : JSValue
  minTraffic : JSValue
  customSplit : Option (List JSValue)
  deriving DecidableEq

/-- The method `calculateWinnerTakesMoreSplit(variationPerformance, params)` on values
that can be `undefined` or `NaN`; reducing an empty array throws. -/
def Num.calculateWinnerTakesMoreSplit (variationPerformance : List VariationPerformance)
    (params : Num.RebalanceParams) : Except AutomationError (List JSValue) :=
  let totalVariations := variationPerformance.length
  let baseTraffic :=
    JSValue.max params.minTraffic
      (JSValue.div (JSValue.sub (JSValue.number 100) params.winnerBonus)
        (JSValue.number ((totalVariations : ℚ) - 1)))
  match variationPerformance with
  | [] => Except.error AutomationError.typeError
  | first :: rest =>
    let winner := rest.foldl
      (fun best current => if current.conversionRate > best.conversionRate then current else best)
      first
    Except.ok (variationPerformance.map (fun v =>
      if v.variation = winner.variation then params.winnerBonus else baseTraffic))

/-- The method `calculateEqualSplit(variationPerformance)` in doubles. -/
def Num.calculateEqualSplit (variationPerformance : List VariationPerformance) :
    List JSValue :=
  let totalVariations := variationPerformance.length
  let equalShare := JSValue.div (JSValue.number 100) (JSValue.number (totalVariations : ℚ))
  List.replicate totalVariations equalShare

/-- The method `rebalanceTraffic` up to its call of `prisma.test.update`: the array that is
handed to the update as `trafficSplit` (and returned as `newSplit` with `success: true`),
or the error thrown before anything is written. A missing `parameters.parameters` is
`none`. -/
def Num.rebalanceTraffic (strategy : JSString) (rebalanceParams : Option Num.RebalanceParams)
    (variationPerformance : List VariationPerformance) :
    Except AutomationError (List JSValue) :=
  let newTrafficSplit : Except AutomationError (List JSValue) :=
    if strategy = js "winner_takes_more" then
      match rebalanceParams with
      | none => Except.error AutomationError.typeError
      | some params => Num.calculateWinnerTakesMoreSplit variationPerformance params
    else if strategy = js "equal_split" then
      Except.ok (Num.calculateEqualSplit variationPerformance)
    else if strategy = js "custom" then
      match rebalanceParams with
      | none => Except.error AutomationError.typeError
      | some params =>
        match params.customSplit with
        | none => Except.error AutomationError.typeError
        | some customSplit => Except.ok customSplit
    else Except.error (AutomationError.unknownStrategy strategy)
  match newTrafficSplit with
  | Except.error e => Except.error e
  | Except.ok newTrafficSplit =>
    let total := newTrafficSplit.foldl (fun sum val => JSValue.add sum val) (JSValue.number 0)
    if JSValue.gt (JSValue.abs (JSValue.sub total (JSValue.number 100)))
        (JSValue.number (roundToDouble (1 / 10))) then
      Except.error AutomationError.splitMustSumTo100
    else Except.ok newTrafficSplit

/-- The nested parameters `{ winnerBonus: 70 }`, without `minTraffic`. -/
def bonusOnlyParams : Num.RebalanceParams :=
  { winnerBonus := JSValue.number 70, minTraffic := JSValue.undefined, customSplit := none }

/-- The nested parameters `{ winnerBonus: 70, minTraffic: 40 }`. -/
def bonusAndFloorParams : Num.RebalanceParams :=
  { winnerBonus := JSValue.number 70, minTraffic := JSValue.number 40, customSplit := none }

/-- The custom split `[0.1, 68, 31.8]`, each entry the double of its literal. -/
def nearlyHundredSplit : List JSValue :=
  [JSValue.number (roundToDouble (1 / 10)), JSValue.number 68,
   JSValue.number (roundToDouble (318 / 10))]

/-! ## Theorems: hashing -/

theorem toInt32_modEq (x : Int) : toInt32 x ≡ x [ZMOD 4294967296] := by
  unfold toInt32
  simp only
  split
  · have h : x % 4294967296 - 4294967296 ≡ x % 4294967296 [ZMOD 4294967296] := by
      simp [Int.ModEq]
    exact h.trans (Int.mod_modEq x 4294967296)
  · exact Int.mod_modEq x 4294967296

theorem toInt32_range (x : Int) : -2147483648 ≤ toInt32 x ∧ toInt32 x < 2147483648 := by
  unfold toInt32
  simp only
  have h1 : 0 ≤ x % 4294967296 := Int.emod_nonneg x (by norm_num)
  have h2 : x % 4294967296 < 4294967296 := Int.emod_lt_of_pos x (by norm_num)
  split <;> constructor <;> omega

theorem toInt32_eq_wrapSigned32 (x : Int) : toInt32 x = wrapSigned32 x := by
  unfold toInt32 wrapSigned32
  simp only
  norm_num
  split <;> omega

theorem toInt32_idem (x : Int) : toInt32 (toInt32 x) = toInt32 x := by
  have h := toInt32_range x
  generalize toInt32 x = y at h
  unfold toInt32
  simp only
  split <;> omega

theorem land_self (x : Int) : Int.land x x = x := by
  cases x with
  | ofNat n => simp [Int.land]
  | negSucc n => simp [Int.land]

theorem jsAnd_self (x : Int) : jsAnd x x = toInt32 x := by
  unfold jsAnd
  exact land_self _

theorem toInt32_congr {a b : Int} (h : a ≡ b [ZMOD 4294967296]) : toInt32 a = toInt32 b := by
  unfold toInt32
  simp only
  rw [h]

theorem simpleHashStep_eq (hash : Int) (char : Nat) :
    simpleHashStep hash char = wrapSigned32 (31 * hash + (char : Int)) := by
  unfold simpleHashStep
  simp only
  rw [jsAnd_self, ← toInt32_eq_wrapSigned32]
  apply toInt32_congr
  unfold jsShl
  have h1 : toInt32 (toInt32 hash * 2 ^ (5 % 32)) ≡ hash * 32 [ZMOD 4294967296] := by
    refine (toInt32_modEq _).trans ?_
    have : (2 : Int) ^ (5 % 32) = 32 := by norm_num
    rw [this]
    exact (toInt32_modEq hash).mul_right 32
  have h2 : toInt32 (toInt32 hash * 2 ^ (5 % 32)) - hash + (char : Int)
      ≡ hash * 32 - hash + (char : Int) [ZMOD 4294967296] :=
    (h1.sub_right hash).add_right _
  have h3 : hash * 32 - hash + (char : Int) = 31 * hash + (char : Int) := by ring
  rw [h3] at h2
  exact h2

theorem simpleHashLoop_eq_foldl (s : JSString) (hash : Int) :
    simpleHashLoop hash s = s.foldl (fun (h : Int) (c : Nat) => wrapSigned32 (31 * h + (c : Int))) hash := by
  induction s generalizing hash with
  | nil => rfl
  | cons c rest ih =>
    simp only [simpleHashLoop, List.foldl_cons]
    rw [ih, simpleHashStep_eq]

/-- C2: `simpleHash(s)` is the absolute value of the 31-multiplier polynomial rolling
hash of the UTF-16 code units of `s`, each step reduced to a signed 32-bit integer. -/
theorem simpleHash_eq_abs_polyHash31 (s : JSString) : simpleHash s = |polyHash31 s| := by
  unfold simpleHash polyHash31
  rw [simpleHashLoop_eq_foldl]


theorem simpleHash_nonneg (s : JSString) : 0 ≤ simpleHash s := abs_nonneg _

theorem bucket_eq_natDiv (visitorId : JSString) :
    ∃ k : Nat, k ≤ 9999 ∧ bucket visitorId = (k : ℚ) / 10000 := by
  have h1 : 0 ≤ simpleHash visitorId % 10000 := Int.emod_nonneg _ (by norm_num)
  have h2 : simpleHash visitorId % 10000 < 10000 := Int.emod_lt_of_pos _ (by norm_num)
  refine ⟨(simpleHash visitorId % 10000).toNat, by omega, ?_⟩
  unfold bucket
  congr 1
  have h3 : ((simpleHash visitorId % 10000).toNat : Int) = simpleHash visitorId % 10000 :=
    Int.toNat_of_nonneg h1
  exact_mod_cast h3.symm

theorem bucket_nonneg (visitorId : JSString) : 0 ≤ bucket visitorId := by
  obtain ⟨k, _, hk⟩ := bucket_eq_natDiv visitorId
  rw [hk]
  positivity

theorem bucket_lt_one (visitorId : JSString) : bucket visitorId < 1 := by
  obtain ⟨k, hk1, hk⟩ := bucket_eq_natDiv visitorId
  rw [hk, div_lt_one (by norm_num)]
  have : k < 10000 := by omega
  exact_mod_cast this

/-- C3: for every visitor id the bucket value `(simpleHash(id) % 10000) / 10000` is
`k / 10000` for an integer `0 ≤ k ≤ 9999`, so it lies in `[0, 1)`; the string `Gye:e~`
drives the accumulator to `-2 ^ 31` and has bucket value `0.3648`; the empty string
hashes to 0 and has bucket value exactly 0. -/
theorem bucket_unit_interval :
    (∀ visitorId : JSString,
      (∃ k : Nat, k ≤ 9999 ∧ bucket visitorId = (k : ℚ) / 10000) ∧
      0 ≤ bucket visitorId ∧ bucket visitorId < 1) ∧
    (simpleHashLoop 0 (js "Gye:e~") = -2147483648 ∧ bucket (js "Gye:e~") = 3648 / 10000) ∧
    simpleHash [] = 0 ∧ bucket [] = 0 := by
  have hv : simpleHashLoop 0 (js "Gye:e~") = -2147483648 := by
    set_option maxRecDepth 100000 in decide
  refine ⟨fun v => ⟨bucket_eq_natDiv v, bucket_nonneg v, bucket_lt_one v⟩, ⟨hv, ?_⟩, ?_, ?_⟩
  · unfold bucket simpleHash
    rw [hv]
    norm_num
  · simp [simpleHash, simpleHashLoop]
  · simp [bucket, simpleHash, simpleHashLoop]

/-! ## Theorems: variant assignment -/

/-- The closed-form share at index `i + 1` is the one at index `i` plus the next entry
over 100. -/
theorem splitThreshold_succ (trafficSplit : List ℚ) (i : Nat) :
    splitThreshold trafficSplit (i + 1)
      = splitThreshold trafficSplit i + trafficSplit.getD (i + 1) 0 / 100 := by
  unfold splitThreshold
  rw [List.range_succ, List.map_append, List.sum_append]
  simp [add_div]

theorem splitThreshold_zero (trafficSplit : List ℚ) :
    splitThreshold trafficSplit 0 = 0 + trafficSplit.getD 0 0 / 100 := by
  simp [splitThreshold, List.range_succ]

theorem cumulativeBefore_step (trafficSplit : List ℚ) (i : Nat) :
    cumulativeBefore trafficSplit i + trafficSplit.getD i 0 / 100
      = splitThreshold trafficSplit i := by
  cases i with
  | zero => simp [cumulativeBefore, splitThreshold, List.range_succ]
  | succ n => simp [cumulativeBefore, splitThreshold_succ]

theorem assignLoop_spec {V : Type} (random : ℚ) (variations : List V) (trafficSplit : List ℚ)
    (fuel : Nat) : ∀ i : Nat,
    (∀ k, i ≤ k → k < i + fuel → random ≤ splitThreshold trafficSplit k →
      (∀ j, i ≤ j → j < k → ¬ random ≤ splitThreshold trafficSplit j) →
      assignLoop random variations trafficSplit fuel i (cumulativeBefore trafficSplit i)
        = variations[k]?) ∧
    ((∀ k, i ≤ k → k < i + fuel → ¬ random ≤ splitThreshold trafficSplit k) →
      assignLoop random variations trafficSplit fuel i (cumulativeBefore trafficSplit i)
        = none) := by
  induction fuel with
  | zero =>
    intro i
    refine ⟨fun k h1 h2 => by omega, fun _ => rfl⟩
  | succ n ih =>
    intro i
    have hstep := cumulativeBefore_step trafficSplit i
    constructor
    · intro k hik hk hle hmin
      simp only [assignLoop, hstep]
      by_cases hi : random ≤ splitThreshold trafficSplit i
      · have : k = i := by
          by_contra hne
          exact hmin i le_rfl (by omega) hi
        simp [hi, this]
      · have hki : i + 1 ≤ k := by
          rcases Nat.eq_or_lt_of_le hik with h | h
          · exact absurd (h ▸ hle) hi
          · exact h
        rw [if_neg hi]
        exact (ih (i + 1)).1 k hki (by omega) hle (fun j hj1 hj2 => hmin j (by omega) hj2)
    · intro hnone
      simp only [assignLoop, hstep]
      rw [if_neg (hnone i le_rfl (by omega))]
      exact (ih (i + 1)).2 (fun k hk1 hk2 => hnone k (by omega) (by omega))

theorem assignLoop_none_or_some {V : Type} (random : ℚ) (variations : List V)
    (trafficSplit : List ℚ) (fuel : Nat) : ∀ (i : Nat) (cumulative : ℚ),
    i + fuel ≤ variations.length →
    assignLoop random variations trafficSplit fuel i cumulative = none ∨
      ∃ v, v ∈ variations ∧
        assignLoop random variations trafficSplit fuel i cumulative = some v := by
  induction fuel with
  | zero => intro i c _; exact Or.inl rfl
  | succ n ih =>
    intro i c hi
    simp only [assignLoop]
    split
    · right
      have hlt : i < variations.length := by omega
      exact ⟨variations[i], List.getElem_mem _, by simp [hlt]⟩
    · exact ih (i + 1) _ (by omega)

theorem assignVisitorToVariant_eq {V : Type} (visitorId : JSString) (variations : List V)
    (trafficSplit : List ℚ) (hv : variations ≠ []) (ht : trafficSplit ≠ []) :
    assignVisitorToVariant visitorId variations trafficSplit =
      match assignLoop (bucket visitorId) variations trafficSplit variations.length 0 0 with
      | some v => some v
      | none => variations.getLast? := by
  unfold assignVisitorToVariant
  have h1 : ¬ (variations.length = 0 ∨ trafficSplit.length = 0) := by
    simp [List.length_eq_zero, hv, ht]
  rw [if_neg h1]

/-- The visitor id `visitor_28076` hashes to 1707093000, bucket value exactly 0.3. -/
theorem bucket_visitor_28076 : bucket (js "visitor_28076") = 3 / 10 := by
  have h : simpleHashLoop 0 (js "visitor_28076") = -1707093000 := by
    set_option maxRecDepth 100000 in decide
  unfold bucket simpleHash
  rw [h]
  norm_num

/-- In exact arithmetic (the running sum of `assignLoop` is a sum of rationals): for
non-empty `variations` and `trafficSplit`, `assignVisitorToVariant` returns
`variations[i]` for the least index `i` with
`r ≤ (trafficSplit[0] + ... + trafficSplit[i]) / 100` (a missing entry counting as 0),
where `r = (simpleHash(visitorId) % 10000) / 10000`, and the last variation when no
index of `variations` satisfies this. In doubles the running sum is rounded at every
step and can miss the closed form, see `assign_split_70_10_20_skips_B`. -/
theorem assignVisitorToVariant_least_index {V : Type} (visitorId : JSString)
    (variations : List V) (trafficSplit : List ℚ)
    (hv : variations ≠ []) (ht : trafficSplit ≠ []) :
    (∀ (i : Nat) (hi : i < variations.length),
      bucket visitorId ≤ splitThreshold trafficSplit i →
      (∀ j, j < i → ¬ bucket visitorId ≤ splitThreshold trafficSplit j) →
      assignVisitorToVariant visitorId variations trafficSplit = some variations[i]) ∧
    ((∀ i, i < variations.length → ¬ bucket visitorId ≤ splitThreshold trafficSplit i) →
      assignVisitorToVariant visitorId variations trafficSplit
        = some (variations.getLast hv)) := by
  have hspec := assignLoop_spec (bucket visitorId) variations trafficSplit variations.length 0
  simp only [cumulativeBefore, Nat.zero_add] at hspec
  rw [assignVisitorToVariant_eq visitorId variations trafficSplit hv ht]
  constructor
  · intro i hi hle hmin
    rw [hspec.1 i (Nat.zero_le _) hi hle (fun j _ hj => hmin j hj)]
    simp [hi]
  · intro hnone
    rw [hspec.2 (fun k _ hk => hnone k hk)]
    simp [List.getLast?_eq_getLast _ hv]

/-- An instance in exact arithmetic: with variations `[A, B]` and split `[30, 70]` the
visitor `visitor_28076` (bucket value 0.3) is assigned `A`, the variation at the least
index. -/
theorem assignVisitorToVariant_least_index_witness :
    assignVisitorToVariant (js "visitor_28076") ["A", "B"] [30, 70] = some "A" := by
  have hb := bucket_visitor_28076
  exact (assignVisitorToVariant_least_index (js "visitor_28076") ["A", "B"] [30, 70]
    (by simp) (by simp)).1 0 (by simp)
    (by rw [hb]; norm_num [splitThreshold, List.range_succ])
    (fun j hj => absurd hj (Nat.not_lt_zero j))

/-- C4 (as amended): `assignVisitorToVariant` returns `null` exactly when `variations`
is empty or `trafficSplit` is empty; two non-empty arrays of different lengths are not
a failure, a variation is returned. -/
theorem assignVisitorToVariant_null_iff {V : Type} (visitorId : JSString)
    (variations : List V) (trafficSplit : List ℚ) :
    assignVisitorToVariant visitorId variations trafficSplit = none ↔
      variations = [] ∨ trafficSplit = [] := by
  constructor
  · intro h
    by_contra hne
    push_neg at hne
    rw [assignVisitorToVariant_eq visitorId variations trafficSplit hne.1 hne.2] at h
    rcases assignLoop_none_or_some (bucket visitorId) variations trafficSplit
      variations.length 0 0 (by omega) with h0 | ⟨v, _, h1⟩
    · rw [h0] at h
      simp [List.getLast?_eq_getLast _ hne.1] at h
    · rw [h1] at h
      simp at h
  · intro h
    unfold assignVisitorToVariant
    rw [if_pos]
    rcases h with h | h
    · left; simp [h]
    · right; simp [h]

/-- C4, the claim as stated fails: variations `[A, B]` with the one-entry split `[100]`
have different lengths, yet the visitor `x` is assigned `A`, not `null`. -/
theorem assignVisitorToVariant_length_mismatch_not_null :
    (["A", "B"] : List String).length ≠ ([100] : List ℚ).length ∧
    assignVisitorToVariant (js "x") ["A", "B"] [100] = some "A" := by
  refine ⟨by decide, ?_⟩
  have hb : bucket (js "x") = 3 / 250 := by
    have h : simpleHashLoop 0 (js "x") = 120 := by decide
    unfold bucket simpleHash
    rw [h]
    norm_num
  simp [assignVisitorToVariant, assignLoop, hb]
  norm_num

/-- C5 (as amended): for variations `[A, B]` with split `[30, 70]` the visitor is
assigned `A` exactly when its bucket value `r` lies in `[0, 0.30]` and `B` exactly when
`r` lies in `(0.30, 1)`; the boundary value `r = 0.30` belongs to `A`. -/
theorem assign_split_30_70 {V : Type} (A B : V) (hAB : A ≠ B) (visitorId : JSString) :
    (assignVisitorToVariant visitorId [A, B] [30, 70] = some A ↔
      (0 ≤ bucket visitorId ∧ bucket visitorId ≤ 3 / 10)) ∧
    (assignVisitorToVariant visitorId [A, B] [30, 70] = some B ↔
      (3 / 10 < bucket visitorId ∧ bucket visitorId < 1)) := by
  have h0 := bucket_nonneg visitorId
  have h1 := bucket_lt_one visitorId
  have e1 : (0 : ℚ) + 30 / 100 = 3 / 10 := by norm_num
  have e2 : (3 : ℚ) / 10 + 70 / 100 = 1 := by norm_num
  by_cases h : bucket visitorId ≤ 3 / 10
  · have hr : assignVisitorToVariant visitorId [A, B] [30, 70] = some A := by
      simp [assignVisitorToVariant, assignLoop, e1, h]
    rw [hr]
    constructor
    · simp [h0, h]
    · constructor
      · intro hc
        exact absurd (Option.some.inj hc) hAB
      · intro hc
        exact absurd h (not_le.mpr hc.1)
  · have hr : assignVisitorToVariant visitorId [A, B] [30, 70] = some B := by
      simp [assignVisitorToVariant, assignLoop, e1, e2, h, h1.le]
    rw [hr]
    constructor
    · constructor
      · intro hc
        exact absurd (Option.some.inj hc).symm hAB
      · intro hc
        exact absurd hc.2 h
    · simp [h1, not_le.mp h]

/-- Witness for C5 (as amended), at the labels `A`, `B` and the visitor `visitor_28076`. -/
theorem assign_split_30_70_witness :
    "A" ≠ "B" ∧
    ((assignVisitorToVariant (js "visitor_28076") ["A", "B"] [30, 70] = some "A" ↔
      (0 ≤ bucket (js "visitor_28076") ∧ bucket (js "visitor_28076") ≤ 3 / 10)) ∧
    (assignVisitorToVariant (js "visitor_28076") ["A", "B"] [30, 70] = some "B" ↔
      (3 / 10 < bucket (js "visitor_28076") ∧ bucket (js "visitor_28076") < 1))) :=
  ⟨by decide, assign_split_30_70 "A" "B" (by decide) (js "visitor_28076")⟩

/-- C5, the claim as stated fails: the visitor `visitor_28076` has bucket value exactly
0.30 and is assigned `A`, not `B`; so `A` is not assigned exactly on `[0, 0.30)`. -/
theorem assign_split_30_70_boundary_goes_to_A :
    bucket (js "visitor_28076") = 3 / 10 ∧
    assignVisitorToVariant (js "visitor_28076") ["A", "B"] [30, 70] = some "A" ∧
    assignVisitorToVariant (js "visitor_28076") ["A", "B"] [30, 70] ≠ some "B" ∧
    ¬ (assignVisitorToVariant (js "visitor_28076") ["A", "B"] [30, 70] = some "A" ↔
      (0 ≤ bucket (js "visitor_28076") ∧ bucket (js "visitor_28076") < 3 / 10)) := by
  have hb := bucket_visitor_28076
  have e1 : (0 : ℚ) + 30 / 100 = 3 / 10 := by norm_num
  have hr : assignVisitorToVariant (js "visitor_28076") ["A", "B"] [30, 70] = some "A" := by
    simp [assignVisitorToVariant, assignLoop, e1, hb]
  refine ⟨hb, hr, ?_, ?_⟩
  · rw [hr]; decide
  · rw [hr, hb]; norm_num

/-! ## Theorems: the proxy loader -/

theorem isEligible_stopped (req : Request) (country : JSString) (t : Test)
    (stopped : List JSString) :
    isEligible req country { t with stoppedVariations := stopped } = isEligible req country t :=
  rfl

theorem loaderAfterQuery_cons_eligible (req : Request) (activeTests : List Test)
    (geoCountry : Option JSString) (test : Test) (rest : List Test)
    (h : activeTests.filter (isEligible req (resolveCountry req geoCountry)) = test :: rest) :
    loaderAfterQuery req activeTests geoCountry =
      match assignVisitorToVariant (getVisitorId req) test.variations test.trafficSplit with
      | none =>
        match test.variations.find? (fun v => v.isControl) with
        | some controlVariation =>
          Response.fallback test.id (jsOr (some controlVariation.label) (js "A"))
            (priceOrNull controlVariation.price)
        | none => Response.fallback test.id (js "A") none
      | some assignment =>
        Response.assigned test.id assignment.label assignment.price assignment.isControl
          (if getVisitorId req ≠ [] then
            some (js "pt_vid=" ++ getVisitorId req ++
              js "; Path=/; Max-Age=31536000; Secure; SameSite=Lax")
          else none) := by
  have hne : activeTests ≠ [] := by
    intro h0
    rw [h0] at h
    simp at h
  unfold loaderAfterQuery
  rw [if_neg (by simpa [List.length_eq_zero] using hne)]
  simp only [h]
  simp

theorem loaderAfterQuery_no_eligible (req : Request) (activeTests : List Test)
    (geoCountry : Option JSString)
    (h : activeTests.filter (isEligible req (resolveCountry req geoCountry)) = []) :
    loaderAfterQuery req activeTests geoCountry = Response.noTest := by
  unfold loaderAfterQuery
  split
  · rfl
  · simp only [h]
    simp

/-- When the first eligible test has no variations or no traffic split, the assignment
fails and the loader answers with the control variation of that test (label `A` and no
price when the test has no control). -/
theorem loaderAfterQuery_fallback (req : Request) (activeTests : List Test)
    (geoCountry : Option JSString) (test : Test) (rest : List Test)
    (h : activeTests.filter (isEligible req (resolveCountry req geoCountry)) = test :: rest)
    (hempty : test.variations = [] ∨ test.trafficSplit = []) :
    loaderAfterQuery req activeTests geoCountry =
      match test.variations.find? (fun v => v.isControl) with
      | some controlVariation =>
        Response.fallback test.id (jsOr (some controlVariation.label) (js "A"))
          (priceOrNull controlVariation.price)
      | none => Response.fallback test.id (js "A") none := by
  have hnull : assignVisitorToVariant (getVisitorId req) test.variations test.trafficSplit
      = none := by
    unfold assignVisitorToVariant
    rw [if_pos]
    rcases hempty with h1 | h1
    · left; simp [h1]
    · right; simp [h1]
  rw [loaderAfterQuery_cons_eligible req activeTests geoCountry test rest h, hnull]

theorem loaderAfterQuery_testId (req : Request) (activeTests : List Test)
    (geoCountry : Option JSString) (test : Test) (rest : List Test)
    (h : activeTests.filter (isEligible req (resolveCountry req geoCountry)) = test :: rest) :
    (loaderAfterQuery req activeTests geoCountry).testId? = some test.id := by
  rw [loaderAfterQuery_cons_eligible req activeTests geoCountry test rest h]
  cases assignVisitorToVariant (getVisitorId req) test.variations test.trafficSplit with
  | none =>
    cases test.variations.find? (fun v => v.isControl) <;> rfl
  | some a => rfl

theorem loader_testId_cases (req : Request) (env : Env) :
    (loader req env).testId? = none ∨
      loader req env = loaderAfterQuery req env.activeTests env.geoCountry := by
  unfold loader
  split
  · exact Or.inl rfl
  · exact Or.inl rfl
  · simp only
    split
    · exact Or.inl rfl
    · split
      · exact Or.inr rfl
      · exact Or.inl rfl

/-- C7: for every list of running tests and every request, a test named by the loader's
response is one of the running tests and satisfies `matchesDevice`,
`matchesTrafficSource` and `matchesCountry` for this request; when no running test
satisfies all three, the assignment stage answers `hasTest = false` and the loader's
response names no test. -/
theorem loader_uses_only_eligible_tests (req : Request) (env : Env) :
    (∀ testId, (loader req env).testId? = some testId →
      ∃ t, t ∈ env.activeTests ∧ t.id = testId ∧
        matchesDevice (jsOr req.userAgent []) (t.targeting.bind (fun g => g.deviceType)) = true ∧
        matchesTrafficSource (jsOr req.referer (jsOr req.referrer [])) req.search
          (t.targeting.bind (fun g => g.trafficSources)) = true ∧
        matchesCountry (resolveCountry req env.geoCountry)
          (t.targeting.bind (fun g => g.countries)) = true) ∧
    ((∀ t, t ∈ env.activeTests →
        ¬ (matchesDevice (jsOr req.userAgent [])
            (t.targeting.bind (fun g => g.deviceType)) = true ∧
          matchesTrafficSource (jsOr req.referer (jsOr req.referrer [])) req.search
            (t.targeting.bind (fun g => g.trafficSources)) = true ∧
          matchesCountry (resolveCountry req env.geoCountry)
            (t.targeting.bind (fun g => g.countries)) = true)) →
      loaderAfterQuery req env.activeTests env.geoCountry = Response.noTest ∧
      (loader req env).testId? = none) := by
  constructor
  · intro testId h
    rcases loader_testId_cases req env with h0 | h1
    · rw [h0] at h
      exact absurd h (by simp)
    · rw [h1] at h
      cases hf : env.activeTests.filter (isEligible req (resolveCountry req env.geoCountry)) with
      | nil =>
        rw [loaderAfterQuery_no_eligible req _ _ hf] at h
        exact absurd h (by simp [Response.testId?])
      | cons test rest =>
        rw [loaderAfterQuery_testId req _ _ test rest hf] at h
        have hmem : test ∈ env.activeTests.filter
            (isEligible req (resolveCountry req env.geoCountry)) := by
          rw [hf]
          exact List.mem_cons_self _ _
        rw [List.mem_filter] at hmem
        have he := hmem.2
        simp only [isEligible, Bool.and_eq_true] at he
        exact ⟨test, hmem.1, Option.some.inj h, he.1.1, he.1.2, he.2⟩
  · intro hnone
    have hf : env.activeTests.filter (isEligible req (resolveCountry req env.geoCountry)) = [] := by
      rw [List.filter_eq_nil_iff]
      intro t ht he
      simp only [isEligible, Bool.and_eq_true] at he
      exact hnone t ht ⟨he.1.1, he.1.2, he.2⟩
    have hq := loaderAfterQuery_no_eligible req env.activeTests env.geoCountry hf
    refine ⟨hq, ?_⟩
    rcases loader_testId_cases req env with h0 | h1
    · exact h0
    · rw [h1, hq]
      rfl

theorem filter_isEligible_map_stopped (req : Request) (country : JSString)
    (stopped : Test → List JSString) (tests : List Test) :
    (tests.map (fun t => { t with stoppedVariations := stopped t })).filter
        (isEligible req country) =
      (tests.filter (isEligible req country)).map
        (fun t => { t with stoppedVariations := stopped t }) := by
  induction tests with
  | nil => rfl
  | cons t rest ih =>
    simp only [List.map_cons, List.filter_cons, isEligible_stopped, ih]
    split <;> rfl

theorem loaderAfterQuery_ignores_stopped (req : Request) (activeTests : List Test)
    (geoCountry : Option JSString) (stopped : Test → List JSString) :
    loaderAfterQuery req (activeTests.map (fun t => { t with stoppedVariations := stopped t }))
        geoCountry =
      loaderAfterQuery req activeTests geoCountry := by
  cases hf : activeTests.filter (isEligible req (resolveCountry req geoCountry)) with
  | nil =>
    rw [loaderAfterQuery_no_eligible req activeTests geoCountry hf]
    apply loaderAfterQuery_no_eligible
    rw [filter_isEligible_map_stopped, hf]
    rfl
  | cons test rest =>
    rw [loaderAfterQuery_cons_eligible req activeTests geoCountry test rest hf]
    rw [loaderAfterQuery_cons_eligible req _ geoCountry
      { test with stoppedVariations := stopped test }
      (rest.map (fun t => { t with stoppedVariations := stopped t }))
      (by rw [filter_isEligible_map_stopped, hf]; rfl)]

/-- C6 (as amended): the loader's response does not depend on `stoppedVariations`;
replacing the stopped set of every running test by any other set leaves the response,
and so the assigned variation, unchanged. -/
theorem loader_ignores_stoppedVariations (req : Request) (env : Env)
    (stopped : Test → List JSString) :
    loader req { env with
        activeTests := env.activeTests.map (fun t => { t with stoppedVariations := stopped t }) }
      = loader req env := by
  unfold loader
  simp only [loaderAfterQuery_ignores_stopped]

theorem getVisitorId_sampleRequest : getVisitorId sampleRequest = js "visitor_4553" := by
  decide

theorem bucket_visitor_4553 : bucket (js "visitor_4553") = 4 / 5 := by
  have h : simpleHashLoop 0 (js "visitor_4553") = -193558000 := by
    set_option maxRecDepth 100000 in decide
  unfold bucket simpleHash
  rw [h]
  norm_num

theorem assign_sampleVariations_visitor_4553 :
    assignVisitorToVariant (js "visitor_4553") sampleVariations [50, 50]
      = some { label := js "B", price := some 12, prices := none, isControl := false } := by
  have hb := bucket_visitor_4553
  simp [assignVisitorToVariant, assignLoop, sampleVariations, hb]
  norm_num

/-- C6, the claim as stated fails: the running test `t1` has `B` in `stoppedVariations`,
and the loader still assigns `B` to the visitor `visitor_4553` (bucket value 0.8). -/
theorem loader_assigns_stopped_variation :
    js "B" ∈ stoppedBTest.stoppedVariations ∧
    (loader sampleRequest
      { proxyValid := true, activeTests := [stoppedBTest], geoCountry := none }).variation?
      = some (js "B") := by
  refine ⟨by simp [stoppedBTest], ?_⟩
  have hl : loader sampleRequest
      { proxyValid := true, activeTests := [stoppedBTest], geoCountry := none }
      = loaderAfterQuery sampleRequest [stoppedBTest] none := by
    rfl
  have hf : [stoppedBTest].filter (isEligible sampleRequest (resolveCountry sampleRequest none))
      = [stoppedBTest] := by
    decide
  rw [hl, loaderAfterQuery_cons_eligible sampleRequest [stoppedBTest] none stoppedBTest [] hf,
    getVisitorId_sampleRequest]
  have ha : assignVisitorToVariant (js "visitor_4553") stoppedBTest.variations
      stoppedBTest.trafficSplit
      = some { label := js "B", price := some 12, prices := none, isControl := false } :=
    assign_sampleVariations_visitor_4553
  rw [ha]
  rfl

/-- C8 (as amended): when the country is unknown (the empty string), `matchesCountry`
returns true only for a missing or empty target-country list; for every non-empty list it
returns false, so a test that targets countries is not eligible. -/
theorem matchesCountry_unknown_country (allowed : Option (List JSString)) :
    matchesCountry [] allowed = true ↔ (allowed = none ∨ allowed = some []) := by
  cases allowed with
  | none => simp [matchesCountry]
  | some l =>
    cases l with
    | nil => simp [matchesCountry]
    | cons c rest => simp [matchesCountry]

/-- C8, the claim as stated fails: with no geo header and a failed GeoIP lookup the
country is the empty string, `matchesCountry` rejects the target list `[US]`, and the
loader answers `hasTest = false` for the test that targets it. -/
theorem matchesCountry_unknown_country_rejects :
    resolveCountry sampleRequest none = [] ∧
    matchesCountry (resolveCountry sampleRequest none) (some [js "US"]) = false ∧
    loader sampleRequest { proxyValid := true, activeTests := [usOnlyTest], geoCountry := none }
      = Response.noTest := by
  refine ⟨by decide, by decide, ?_⟩
  have hl : loader sampleRequest
      { proxyValid := true, activeTests := [usOnlyTest], geoCountry := none }
      = loaderAfterQuery sampleRequest [usOnlyTest] none := by
    rfl
  rw [hl]
  apply loaderAfterQuery_no_eligible
  decide

/-! ## Theorems: event aggregation -/

theorem getOwn_setOwn (o : EventsByVariation) (key key1 : JSString) (value : List Event) :
    getOwn (setOwn o key value) key1 = if key1 = key then some value else getOwn o key1 := by
  induction o with
  | nil =>
    by_cases h : key1 = key
    · simp [setOwn, getOwn, h]
    · simp [setOwn, getOwn, h, Ne.symm h]
  | cons kv rest ih =>
    obtain ⟨k, v⟩ := kv
    by_cases hk : k = key
    · by_cases h : key1 = key
      · simp [setOwn, getOwn, hk, h]
      · simp [setOwn, getOwn, hk, h, Ne.symm h]
    · by_cases h1 : k = key1
      · have h2 : key1 ≠ key := fun h => hk (h1.trans h)
        simp [setOwn, getOwn, hk, h1, h2]
      · simp [setOwn, getOwn, hk, h1, ih]

theorem initEventsByVariation_ok (variations : List Variation)
    (hproto : ∀ v, v ∈ variations → v.label ≠ js "__proto__") :
    ∀ o : EventsByVariation, ∃ o1, initEventsByVariation variations o = Except.ok o1 ∧
      ∀ key, getOwn o1 key =
        if key ∈ variations.map (fun v => v.label) then some [] else getOwn o key := by
  induction variations with
  | nil => intro o; exact ⟨o, rfl, fun key => by simp⟩
  | cons v rest ih =>
    intro o
    have hv : v.label ≠ js "__proto__" := hproto v (List.mem_cons_self _ _)
    obtain ⟨o1, h1, h2⟩ := ih (fun w hw => hproto w (List.mem_cons_of_mem _ hw))
      (setOwn o v.label [])
    refine ⟨o1, ?_, ?_⟩
    · simp only [initEventsByVariation, if_neg hv, h1]
    · intro key
      rw [h2 key, getOwn_setOwn]
      by_cases hr : key ∈ rest.map (fun v => v.label)
      · simp [hr]
      · by_cases hk : key = v.label
        · simp [hk]
        · have : ¬ key ∈ (v :: rest).map (fun v => v.label) := by
            simp only [List.map_cons, List.mem_cons, not_or]
            exact ⟨hk, hr⟩
          rw [if_neg hr, if_neg hk, if_neg this]

theorem groupEvents_ok (events : List Event) :
    ∀ o : EventsByVariation,
    (∀ e, e ∈ events → e.variation ∈ objectPrototypeKeys → (getOwn o e.variation).isSome) →
    ∃ o1, groupEvents events o = Except.ok o1 ∧
      ∀ key, getOwn o1 key =
        (getOwn o key).map (fun l => l ++ events.filter (fun e => e.variation = key)) := by
  induction events with
  | nil => intro o _; exact ⟨o, rfl, fun key => by simp⟩
  | cons e rest ih =>
    intro o hsafe
    cases hown : getOwn o e.variation with
    | some l =>
      have hsafe1 : ∀ e1, e1 ∈ rest → e1.variation ∈ objectPrototypeKeys →
          (getOwn (setOwn o e.variation (l ++ [e])) e1.variation).isSome := by
        intro e1 he1 hk
        rw [getOwn_setOwn]
        split
        · rfl
        · exact hsafe e1 (List.mem_cons_of_mem _ he1) hk
      obtain ⟨o1, h1, h2⟩ := ih (setOwn o e.variation (l ++ [e])) hsafe1
      refine ⟨o1, ?_, ?_⟩
      · simp only [groupEvents, getProperty, hown, h1]
      · intro key
        rw [h2 key, getOwn_setOwn]
        by_cases hk : key = e.variation
        · subst hk
          simp [hown, List.filter_cons]
        · have hk1 : ¬ e.variation = key := fun h => hk h.symm
          simp [hk, hk1, List.filter_cons]
    | none =>
      have hnot : ¬ e.variation ∈ objectPrototypeKeys := by
        intro hk
        have := hsafe e (List.mem_cons_self _ _) hk
        rw [hown] at this
        exact absurd this (by simp)
      obtain ⟨o1, h1, h2⟩ := ih o
        (fun e1 he1 hk => hsafe e1 (List.mem_cons_of_mem _ he1) hk)
      refine ⟨o1, ?_, ?_⟩
      · simp only [groupEvents, getProperty, hown, if_neg hnot, h1]
      · intro key
        rw [h2 key]
        by_cases hk : e.variation = key
        · subst hk
          simp [hown]
        · simp [List.filter_cons, hk]

theorem fillAll_ok (o : EventsByVariation) (events : List Event)
    (perfs : List VariationPerformance)
    (hown : ∀ p, p ∈ perfs →
      getOwn o p.variation = some (events.filter (fun e => e.variation = p.variation))) :
    fillAll o perfs = Except.ok
      (perfs.map (fun p =>
        fillPerformance p (events.filter (fun e => e.variation = p.variation)))) := by
  induction perfs with
  | nil => rfl
  | cons p rest ih =>
    have h1 := hown p (List.mem_cons_self _ _)
    have h2 := ih (fun q hq => hown q (List.mem_cons_of_mem _ hq))
    simp only [fillAll, eventsOfVariation, getProperty, h1, h2, List.map_cons]

theorem foldl_revenue (l : List Event) (init : Int) :
    l.foldl (fun (sum : Int) e => sum + e.revenueCents.getD 0) init
      = init + (l.map (fun e => e.revenueCents.getD 0)).sum := by
  induction l generalizing init with
  | nil => simp
  | cons e rest ih => simp [List.foldl_cons, ih, add_assoc]

/-- The counters of one rollup, in the words of the specification: distinct paths of the
page views, number of purchases, number of add-to-cart events, revenue in currency
units, and the two rates, 0 when there are no visitors. -/
theorem fillPerformance_fields (perf : VariationPerformance) (variationEvents : List Event) :
    (fillPerformance perf variationEvents).variation = perf.variation ∧
    (fillPerformance perf variationEvents).visitors =
      ((variationEvents.filter (fun e => e.type = js "page_view")).map
        (fun e => e.path)).toFinset.card ∧
    (fillPerformance perf variationEvents).conversions =
      variationEvents.countP (fun e => e.type = js "purchase") ∧
    (fillPerformance perf variationEvents).addToCart =
      variationEvents.countP (fun e => e.type = js "add_to_cart") ∧
    (fillPerformance perf variationEvents).revenue =
      ((((variationEvents.filter (fun e => e.type = js "purchase")).map
        (fun e => e.revenueCents.getD 0)).sum : Int) : ℚ) / 100 ∧
    (fillPerformance perf variationEvents).conversionRate =
      (if (fillPerformance perf variationEvents).visitors = 0 then 0
       else ((fillPerformance perf variationEvents).conversions : ℚ) /
         ((fillPerformance perf variationEvents).visitors : ℚ) * 100) ∧
    (fillPerformance perf variationEvents).revenuePerVisitor =
      (if (fillPerformance perf variationEvents).visitors = 0 then 0
       else (fillPerformance perf variationEvents).revenue /
         ((fillPerformance perf variationEvents).visitors : ℚ)) := by
  refine ⟨rfl, ?_, ?_, ?_, ?_, ?_, ?_⟩
  · simp only [fillPerformance]
    rw [List.card_toFinset]
  · simp only [fillPerformance, List.countP_eq_length_filter]
  · simp only [fillPerformance, List.countP_eq_length_filter]
  · simp only [fillPerformance, foldl_revenue, zero_add]
  · simp only [fillPerformance]
    split <;> rename_i h
    · rw [if_neg (by omega)]
    · rw [if_pos (by omega)]
  · simp only [fillPerformance]
    split <;> rename_i h
    · rw [if_neg (by omega)]
    · rw [if_pos (by omega)]

/-- When no configured label is `__proto__` and no event carries the name of an inherited
property as an unconfigured label, `processEventsToAnalytics` returns one rollup per
variation in configuration order, computed from exactly the events that carry the label
of that variation. -/
theorem processEventsToAnalytics_rollups (events : List Event) (test : Test)
    (hproto : ∀ v, v ∈ test.variations → v.label ≠ js "__proto__")
    (hsafe : ∀ e, e ∈ events → e.variation ∈ objectPrototypeKeys →
      e.variation ∈ test.variations.map (fun v => v.label)) :
    ∃ a, processEventsToAnalytics events test = Except.ok a ∧
      a.variationPerformance =
        (test.variations.zip (List.range test.variations.length)).map (fun vi =>
          fillPerformance (initialPerformance test.trafficSplit vi.1 vi.2)
            (events.filter (fun e => e.variation = vi.1.label))) := by
  obtain ⟨o0, h0, hget0⟩ := initEventsByVariation_ok test.variations hproto []
  have hsafe0 : ∀ e, e ∈ events → e.variation ∈ objectPrototypeKeys →
      (getOwn o0 e.variation).isSome := by
    intro e he hk
    rw [hget0, if_pos (hsafe e he hk)]
    rfl
  obtain ⟨o1, h1, hget1⟩ := groupEvents_ok events o0 hsafe0
  have hfill := fillAll_ok o1 events
    ((test.variations.zip (List.range test.variations.length)).map
      (fun vi => initialPerformance test.trafficSplit vi.1 vi.2))
    (by
      intro p hp
      rw [List.mem_map] at hp
      obtain ⟨vi, hvi, rfl⟩ := hp
      have hmem : vi.1.label ∈ test.variations.map (fun v => v.label) :=
        List.mem_map.mpr ⟨vi.1, (List.of_mem_zip hvi).1, rfl⟩
      simp only [initialPerformance]
      rw [hget1, hget0, if_pos hmem]
      simp)
  simp only [processEventsToAnalytics, h0, h1, hfill]
  refine ⟨_, rfl, ?_⟩
  simp only [List.map_map]
  rfl

/-- C9, evaluated at the failing input: the test has the distinct labels `A` and `B`, the
single event carries the unconfigured label `constructor`, and the run ends in
`TypeError: variation.push is not a function` instead of returning rollups. -/
theorem processEventsToAnalytics_constructor_label_throws :
    (plainTest.variations.map (fun v => v.label)).Nodup ∧
    constructorEvent.variation ∉ plainTest.variations.map (fun v => v.label) ∧
    processEventsToAnalytics [constructorEvent] plainTest
      = Except.error AnalyticsError.typeError := by
  refine ⟨by decide, by decide, rfl⟩

/-! ## Theorems: significance engine -/

section SignificanceTheorems

variable {α : Type} [LinearOrderedField α] [FloorRing α]

theorem variationResult_variation (m : JSMath α) (control variation : VariationPerformance) :
    (variationResult m control variation).variation = variation.variation := by
  unfold variationResult
  simp only
  split <;> rfl

theorem variationResult_of_zero_visitors (m : JSMath α)
    (control variation : VariationPerformance)
    (hz : control.visitors = 0 ∨ variation.visitors = 0) :
    variationResult m control variation =
      { variation := variation.variation, confidence := 0, pValue := 1, lift := 0,
        isSignificant := false, method := Method.insufficient_data,
        confidenceInterval := Option.none, sampleSize := Option.none,
        power := Option.none } := by
  unfold variationResult
  simp only
  rw [if_pos hz]

omit [FloorRing α] in
theorem foldl_betterOf (results : List (StatisticalResult α)) :
    ∀ first : StatisticalResult α,
      results.foldl betterOf first = first ∨
        (results.foldl betterOf first ∈ results ∧
          (results.foldl betterOf first).isSignificant = true) := by
  induction results with
  | nil => intro first; exact Or.inl rfl
  | cons r rest ih =>
    intro first
    simp only [List.foldl_cons]
    rcases ih (betterOf first r) with h | ⟨h1, h2⟩
    · rw [h]
      unfold betterOf
      split
      · rename_i hc
        exact Or.inr ⟨List.mem_cons_self _ _, hc.1⟩
      · exact Or.inl rfl
    · exact Or.inr ⟨List.mem_cons_of_mem _ h1, h2⟩

omit [FloorRing α] in
theorem winnerResult_significant (results : List (StatisticalResult α))
    (w : StatisticalResult α) (h : winnerResult results = some w) :
    w ∈ results ∧ w.isSignificant = true := by
  unfold winnerResult bestVariation at h
  cases results with
  | nil => simp at h
  | cons first rest =>
    simp only at h
    split at h
    · rename_i hs
      have hw := Option.some.inj h
      rw [← hw]
      refine ⟨?_, hs⟩
      rcases foldl_betterOf (first :: rest) first with h0 | ⟨h1, _⟩
      · rw [h0]
        exact List.mem_cons_self _ _
      · exact h1
    · simp at h

theorem winner_label_cases (m : JSMath α) (perfs : List VariationPerformance)
    (c : JSString) (control : VariationPerformance) (hne : c ≠ [])
    (hc : perfs.find? (fun p => p.variation = c) = some control)
    (ht : perfs.filter (fun p => p.variation ≠ c) ≠ []) :
    (calculateStatisticalSignificance m perfs (some c)).allResults =
        some ((perfs.filter (fun p => p.variation ≠ c)).map (variationResult m control)) ∧
    (calculateStatisticalSignificance m perfs (some c)).winner =
      (winnerResult ((perfs.filter (fun p => p.variation ≠ c)).map
        (variationResult m control))).map (fun w => w.variation) := by
  cases c with
  | nil => exact absurd rfl hne
  | cons u us =>
    have hlen : ¬ (perfs.filter (fun p => p.variation ≠ u :: us)).length = 0 := by
      simpa [List.length_eq_zero] using ht
    simp only [calculateStatisticalSignificance, hc, if_neg hlen]
    cases winnerResult ((perfs.filter (fun p => p.variation ≠ u :: us)).map
        (variationResult m control)) <;> exact ⟨rfl, rfl⟩

theorem winner_is_significant_test_variation (m : JSMath α)
    (perfs : List VariationPerformance) (c label : JSString)
    (h : (calculateStatisticalSignificance m perfs (some c)).winner = some label) :
    ∃ control u, perfs.find? (fun p => p.variation = c) = some control ∧
      u ∈ perfs ∧ u.variation ≠ c ∧ u.variation = label ∧
      (variationResult m control u).isSignificant = true := by
  cases c with
  | nil => simp [calculateStatisticalSignificance, neutralResult] at h
  | cons x xs =>
    cases hc : perfs.find? (fun p => p.variation = x :: xs) with
    | none => simp [calculateStatisticalSignificance, hc, neutralResult] at h
    | some control =>
      by_cases ht : perfs.filter (fun p => p.variation ≠ x :: xs) = []
      · have hlen : (perfs.filter (fun p => p.variation ≠ x :: xs)).length = 0 := by
          rw [ht]
          rfl
        simp only [calculateStatisticalSignificance, hc, if_pos hlen, neutralResult] at h
        exact absurd h (by simp)
      · have hw := (winner_label_cases m perfs (x :: xs) control (by simp) hc ht).2
        rw [hw] at h
        cases hr : winnerResult ((perfs.filter (fun p => p.variation ≠ x :: xs)).map
            (variationResult m control)) with
        | none => rw [hr] at h; simp at h
        | some w =>
          rw [hr] at h
          have hl : w.variation = label := by simpa using h
          obtain ⟨hmem, hsig⟩ := winnerResult_significant _ w hr
          rw [List.mem_map] at hmem
          obtain ⟨u, hu, rfl⟩ := hmem
          rw [List.mem_filter] at hu
          refine ⟨control, u, rfl, hu.1, by simpa using hu.2, ?_, hsig⟩
          rw [← hl, variationResult_variation]

/-- C10: in a performance list with a control (labels pairwise distinct), a non-control
variation compared while it or the control has zero visitors gets the result
`method = insufficient_data`, confidence 0, pValue 1, `isSignificant = false`; that
result is among `allResults`, and neither that variation nor the control is the
top-level winner. -/
theorem zero_visitors_insufficient_data (m : JSMath α) (perfs : List VariationPerformance)
    (c : JSString) (control v : VariationPerformance) (hne : c ≠ [])
    (hc : perfs.find? (fun p => p.variation = c) = some control)
    (hnd : (perfs.map (fun p => p.variation)).Nodup)
    (hv : v ∈ perfs) (hvc : v.variation ≠ c)
    (hz : control.visitors = 0 ∨ v.visitors = 0) :
    (variationResult m control v).method = Method.insufficient_data ∧
    (variationResult m control v).confidence = 0 ∧
    (variationResult m control v).pValue = 1 ∧
    (variationResult m control v).isSignificant = false ∧
    (∃ results, (calculateStatisticalSignificance m perfs (some c)).allResults = some results ∧
      variationResult m control v ∈ results) ∧
    (calculateStatisticalSignificance m perfs (some c)).winner ≠ some v.variation ∧
    (calculateStatisticalSignificance m perfs (some c)).winner ≠ some c := by
  have hres := variationResult_of_zero_visitors m control v hz
  have hvt : v ∈ perfs.filter (fun p => p.variation ≠ c) := by
    rw [List.mem_filter]
    exact ⟨hv, by simpa using hvc⟩
  have ht : perfs.filter (fun p => p.variation ≠ c) ≠ [] := List.ne_nil_of_mem hvt
  refine ⟨by rw [hres], by rw [hres], by rw [hres], by rw [hres], ?_, ?_, ?_⟩
  · exact ⟨_, (winner_label_cases m perfs c control hne hc ht).1,
      List.mem_map.mpr ⟨v, hvt, rfl⟩⟩
  · intro hw
    obtain ⟨control1, u, hc1, hu, _, hlabel, hsig⟩ :=
      winner_is_significant_test_variation m perfs c v.variation hw
    have hcc : control1 = control := by
      rw [hc] at hc1
      exact (Option.some.inj hc1).symm
    have huv : u = v := List.inj_on_of_nodup_map hnd hu hv hlabel
    rw [hcc, huv, hres] at hsig
    exact absurd hsig (by simp)
  · intro hw
    obtain ⟨_, u, _, _, huc, hlabel, _⟩ :=
      winner_is_significant_test_variation m perfs c c hw
    exact huc hlabel

end SignificanceTheorems

/-- Witness for C10: control `A` has no visitors, variant `B` has 10 visitors and 5
conversions; the result for `B` is `insufficient_data` and there is no winner `B`. -/
theorem zero_visitors_insufficient_data_witness :
    (variationResult unusedMath (performanceOf (js "A") true 0 0)
      (performanceOf (js "B") false 10 5)).method = Method.insufficient_data ∧
    (calculateStatisticalSignificance unusedMath
      [performanceOf (js "A") true 0 0, performanceOf (js "B") false 10 5]
      (some (js "A"))).winner ≠ some (js "B") := by
  have h := zero_visitors_insufficient_data unusedMath
    [performanceOf (js "A") true 0 0, performanceOf (js "B") false 10 5] (js "A")
    (performanceOf (js "A") true 0 0) (performanceOf (js "B") false 10 5)
    (by decide) (by decide) (by decide) (by simp) (by decide) (Or.inl rfl)
  exact ⟨h.1, h.2.2.2.2.2.1⟩

/-! ## Theorems: significance tests, rounding, automation rules -/

section

variable {α : Type} [LinearOrderedField α]

theorem erf_of_nonneg (m : JSMath α) (x : α) (hx : 0 ≤ x) :
    erf m x = 1 - erfcPoly (1 / (1 + 0.3275911 * x)) * m.exp (-x * x) := by
  unfold erf erfcPoly
  simp only [ge_iff_le, hx, if_true, abs_of_nonneg hx, one_mul]

theorem two_sided_tail (m : JSMath α) (u : α) (hu : 0 ≤ u) (hs : 0 ≤ m.sqrt 2) :
    2 * (1 - normalCDF m u) =
      erfcPoly (1 / (1 + 0.3275911 * (u / m.sqrt 2))) *
        m.exp (-(u / m.sqrt 2) * (u / m.sqrt 2)) := by
  unfold normalCDF
  rw [erf_of_nonneg m _ (div_nonneg hu hs)]
  norm_num
  ring

theorem erfcPoly_nonneg (t : α) (ht : 0 ≤ t) : 0 ≤ erfcPoly t := by
  unfold erfcPoly
  apply mul_nonneg _ ht
  norm_num
  nlinarith [sq_nonneg (t * (t - 0.6845)), sq_nonneg (t - 0.154), sq_nonneg t]

theorem erfcPoly_le_one (t : α) (ht : 0 ≤ t) (ht1 : t ≤ 1) : erfcPoly t ≤ 1 := by
  unfold erfcPoly
  norm_num
  nlinarith [sq_nonneg (t * (t - 0.1845)), sq_nonneg t, mul_nonneg ht (sub_nonneg.mpr ht1),
    mul_nonneg (mul_nonneg ht ht) (sub_nonneg.mpr ht1)]

theorem chiSquareTest_pValue (m : JSMath α) (cc cv tc tv : α) :
    (chiSquareTest m cc cv tc tv).pValue =
      2 * (1 - normalCDF m (m.sqrt (chiSquareStatistic cc cv tc tv))) := by
  simp [chiSquareTest, chiSquarePValue, chiSquareStatistic]

theorem chiSquareTest_confidence (m : JSMath α) (cc cv tc tv : α) :
    (chiSquareTest m cc cv tc tv).confidence =
      (1 - (chiSquareTest m cc cv tc tv).pValue) * 100 := rfl

theorem fishersExactTest_pValue (m : JSMath α) (cc cv tc tv : α) :
    (fishersExactTest m cc cv tc tv).pValue =
      max 0 (min 1 (2 * (1 - normalCDF m |zScore m cc cv tc tv|))) := rfl

theorem fishersExactTest_confidence (m : JSMath α) (cc cv tc tv : α) :
    (fishersExactTest m cc cv tc tv).confidence =
      (1 - (fishersExactTest m cc cv tc tv).pValue) * 100 := rfl

theorem chiSquareStatistic_closed_form (cc cv tc tv : α) (hcv : 0 < cv) (htv : 0 < tv)
    (hT : cc + tc ≠ 0) (hN : cv + tv - (cc + tc) ≠ 0) :
    chiSquareStatistic cc cv tc tv =
      (tc / tv - cc / cv) ^ 2 /
        ((cc + tc) / (cv + tv) * (1 - (cc + tc) / (cv + tv)) * (1 / cv + 1 / tv)) := by
  have h1 : cv ≠ 0 := ne_of_gt hcv
  have h2 : tv ≠ 0 := ne_of_gt htv
  have h3 : cv + tv ≠ 0 := ne_of_gt (add_pos hcv htv)
  have h4 : cv - cc + (tv - tc) ≠ 0 := by
    intro h
    apply hN
    linear_combination h
  have h5 : cv + tv - (cc + tc) ≠ 0 := hN
  unfold chiSquareStatistic
  simp only
  field_simp
  ring

theorem sqrt_sq_eq_abs (m : JSMath α) (hnn : ∀ y, 0 ≤ m.sqrt y)
    (hsq : ∀ y, 0 ≤ y → m.sqrt y * m.sqrt y = y) (z : α) : m.sqrt (z ^ 2) = |z| := by
  have h1 := hsq (z ^ 2) (sq_nonneg z)
  have h2 : m.sqrt (z ^ 2) ^ 2 = z ^ 2 := by rw [sq]; exact h1
  have h3 := (sq_eq_sq_iff_abs_eq_abs _ _).mp h2
  rw [abs_of_nonneg (hnn _)] at h3
  exact h3

theorem two_sided_tail_mem_unit (m : JSMath α) (hnn : ∀ y, 0 ≤ m.sqrt y)
    (hexp : ∀ y, y ≤ 0 → 0 ≤ m.exp y ∧ m.exp y ≤ 1) (u : α) (hu : 0 ≤ u) :
    0 ≤ 2 * (1 - normalCDF m u) ∧ 2 * (1 - normalCDF m u) ≤ 1 := by
  rw [two_sided_tail m u hu (hnn 2)]
  have hx : 0 ≤ u / m.sqrt 2 := div_nonneg hu (hnn 2)
  have hd : (0 : α) < 1 + 0.3275911 * (u / m.sqrt 2) := by
    have : (0 : α) ≤ 0.3275911 * (u / m.sqrt 2) := mul_nonneg (by norm_num) hx
    linarith
  have ht0 : 0 ≤ 1 / (1 + 0.3275911 * (u / m.sqrt 2)) := le_of_lt (one_div_pos.mpr hd)
  have ht1 : 1 / (1 + 0.3275911 * (u / m.sqrt 2)) ≤ 1 := by
    rw [div_le_one hd]
    have : (0 : α) ≤ 0.3275911 * (u / m.sqrt 2) := mul_nonneg (by norm_num) hx
    linarith
  have he := hexp (-(u / m.sqrt 2) * (u / m.sqrt 2)) (by nlinarith [mul_nonneg hx hx])
  have hp0 := erfcPoly_nonneg _ ht0
  have hp1 := erfcPoly_le_one _ ht0 ht1
  constructor
  · exact mul_nonneg hp0 he.1
  · calc erfcPoly _ * m.exp _ ≤ 1 * 1 := mul_le_mul hp1 he.2 he.1 (by norm_num)
      _ = 1 := by norm_num

theorem pooledStandardError_pos (m : JSMath α) (hnn : ∀ y, 0 ≤ m.sqrt y)
    (hsq : ∀ y, 0 ≤ y → m.sqrt y * m.sqrt y = y) (cc cv tc tv : α)
    (hcv : 0 < cv) (htv : 0 < tv)
    (hp0 : 0 < (cc + tc) / (cv + tv)) (hp1 : (cc + tc) / (cv + tv) < 1) :
    0 < pooledStandardError m cc cv tc tv ∧
    pooledStandardError m cc cv tc tv * pooledStandardError m cc cv tc tv =
      (cc + tc) / (cv + tv) * (1 - (cc + tc) / (cv + tv)) * (1 / cv + 1 / tv) := by
  have hV : 0 < (cc + tc) / (cv + tv) * (1 - (cc + tc) / (cv + tv)) * (1 / cv + 1 / tv) := by
    apply mul_pos (mul_pos hp0 (by linarith))
    exact add_pos (one_div_pos.mpr hcv) (one_div_pos.mpr htv)
  have h1 := hsq _ (le_of_lt hV)
  have h2 := hnn ((cc + tc) / (cv + tv) * (1 - (cc + tc) / (cv + tv)) * (1 / cv + 1 / tv))
  unfold pooledStandardError
  simp only
  refine ⟨?_, h1⟩
  rcases eq_or_lt_of_le h2 with h0 | h0
  · rw [← h0, mul_zero] at h1
    exact absurd h1 (ne_of_lt hV)
  · exact h0

/-- C13: with exact square root and an exponential that maps non-positive arguments into
`[0, 1]`, for positive visitor counts and a pooled conversion rate strictly between 0 and
1 the chi-square statistic of `chiSquareTest` is the square of the pooled z-score of
`fishersExactTest`; both tests return the p-value `2 * (1 - normalCDF(|z|))` and the same
confidence. -/
theorem chiSquare_eq_zScore_sq (m : JSMath α) (hnn : ∀ y, 0 ≤ m.sqrt y)
    (hsq : ∀ y, 0 ≤ y → m.sqrt y * m.sqrt y = y)
    (hexp : ∀ y, y ≤ 0 → 0 ≤ m.exp y ∧ m.exp y ≤ 1)
    (cc cv tc tv : α) (hcv : 0 < cv) (htv : 0 < tv)
    (hp0 : 0 < pooledRate cc cv tc tv) (hp1 : pooledRate cc cv tc tv < 1) :
    chiSquareStatistic cc cv tc tv = zScore m cc cv tc tv ^ 2 ∧
    (chiSquareTest m cc cv tc tv).pValue = 2 * (1 - normalCDF m |zScore m cc cv tc tv|) ∧
    (fishersExactTest m cc cv tc tv).pValue = 2 * (1 - normalCDF m |zScore m cc cv tc tv|) ∧
    (chiSquareTest m cc cv tc tv).confidence = (fishersExactTest m cc cv tc tv).confidence := by
  unfold pooledRate at hp0 hp1
  have hN : 0 < cv + tv := add_pos hcv htv
  have hT : cc + tc ≠ 0 := by
    intro h
    rw [h] at hp0
    simp at hp0
  have hNT : cv + tv - (cc + tc) ≠ 0 := by
    intro h
    have : cc + tc = cv + tv := by linear_combination -h
    rw [this, div_self (ne_of_gt hN)] at hp1
    exact lt_irrefl _ hp1
  obtain ⟨hse, hse2⟩ := pooledStandardError_pos m hnn hsq cc cv tc tv hcv htv hp0 hp1
  have hz : zScore m cc cv tc tv = (tc / tv - cc / cv) / pooledStandardError m cc cv tc tv := by
    unfold zScore
    simp only [gt_iff_lt, hse, if_true]
  have hchi : chiSquareStatistic cc cv tc tv = zScore m cc cv tc tv ^ 2 := by
    rw [chiSquareStatistic_closed_form cc cv tc tv hcv htv hT hNT, hz, div_pow, sq
      (pooledStandardError m cc cv tc tv), hse2]
  have hs : m.sqrt (chiSquareStatistic cc cv tc tv) = |zScore m cc cv tc tv| := by
    rw [hchi]
    exact sqrt_sq_eq_abs m hnn hsq _
  have hunit := two_sided_tail_mem_unit m hnn hexp |zScore m cc cv tc tv| (abs_nonneg _)
  have hc : (chiSquareTest m cc cv tc tv).pValue =
      2 * (1 - normalCDF m |zScore m cc cv tc tv|) := by
    rw [chiSquareTest_pValue, hs]
  have hf : (fishersExactTest m cc cv tc tv).pValue =
      2 * (1 - normalCDF m |zScore m cc cv tc tv|) := by
    rw [fishersExactTest_pValue, min_eq_right hunit.2, max_eq_right hunit.1]
  refine ⟨hchi, hc, hf, ?_⟩
  rw [chiSquareTest_confidence, fishersExactTest_confidence, hc, hf]

end

theorem realMath_sqrt_nonneg (y : ℝ) : 0 ≤ realMath.sqrt y := Real.sqrt_nonneg y

theorem realMath_sqrt_mul_self (y : ℝ) (hy : 0 ≤ y) : realMath.sqrt y * realMath.sqrt y = y :=
  Real.mul_self_sqrt hy

theorem realMath_exp_unit (y : ℝ) (hy : y ≤ 0) : 0 ≤ realMath.exp y ∧ realMath.exp y ≤ 1 :=
  ⟨le_of_lt (Real.exp_pos y), Real.exp_le_one_iff.mpr hy⟩

/-- Witness for C13: over the reals, for 50 of 1000 against 80 of 1000. -/
theorem chiSquare_eq_zScore_sq_witness :
    chiSquareStatistic (50 : ℝ) 1000 80 1000 = zScore realMath 50 1000 80 1000 ^ 2 ∧
    (chiSquareTest realMath 50 1000 80 1000).pValue =
      (fishersExactTest realMath 50 1000 80 1000).pValue := by
  have h := chiSquare_eq_zScore_sq realMath realMath_sqrt_nonneg realMath_sqrt_mul_self
    realMath_exp_unit 50 1000 80 1000 (by norm_num) (by norm_num)
    (by norm_num [pooledRate]) (by norm_num [pooledRate])
  exact ⟨h.1, h.2.1.trans h.2.2.1.symm⟩

section

variable {α : Type} [LinearOrderedField α] [FloorRing α]

theorem variationResult_of_pos_visitors (m : JSMath α) (control variation : VariationPerformance)
    (hcv : 0 < control.visitors) (htv : 0 < variation.visitors) :
    variationResult m control variation =
      { variation := variation.variation
        confidence := mathRound (selectedOutcome m control variation).confidence
        pValue := mathRound ((selectedOutcome m control variation).pValue * 1000) / 1000
        lift := mathRound (rawLift control variation * 10) / 10
        isSignificant :=
          decide ((selectedOutcome m control variation).pValue < 0.05 ∧
            |rawLift control variation| ≥ (5 : α))
        method := if useFisher control variation then Method.fishers_exact else Method.chi_square
        confidenceInterval := some (calculateConfidenceInterval m
          ((control.conversions : α) / (control.visitors : α))
          ((variation.conversions : α) / (variation.visitors : α))
          control.visitors variation.visitors)
        sampleSize := some (control.visitors + variation.visitors)
        power := some (calculateStatisticalPower m
          ((control.conversions : α) / (control.visitors : α))
          ((variation.conversions : α) / (variation.visitors : α))
          control.visitors variation.visitors) } := by
  have h : ¬ (control.visitors = 0 ∨ variation.visitors = 0) := by omega
  unfold variationResult
  simp only [if_neg h]
  rfl

/-- C12 (as amended): for a pair with positive visitor counts the method is
`fishers_exact` exactly when some group has fewer than 30 visitors and some group (not
necessarily the same one) has fewer than 5 conversions, and `chi_square` otherwise. -/
theorem method_selection (m : JSMath α) (control variation : VariationPerformance)
    (hcv : 0 < control.visitors) (htv : 0 < variation.visitors) :
    ((variationResult m control variation).method = Method.fishers_exact ↔
      ((control.visitors < 30 ∨ variation.visitors < 30) ∧
        (control.conversions < 5 ∨ variation.conversions < 5))) ∧
    ((variationResult m control variation).method = Method.chi_square ↔
      ¬ ((control.visitors < 30 ∨ variation.visitors < 30) ∧
        (control.conversions < 5 ∨ variation.conversions < 5))) := by
  rw [variationResult_of_pos_visitors m control variation hcv htv]
  simp only
  by_cases h : (control.visitors < 30 ∨ variation.visitors < 30) ∧
      (control.conversions < 5 ∨ variation.conversions < 5)
  · have hu : useFisher control variation = true := by
      unfold useFisher
      exact decide_eq_true h
    simp [hu, h]
  · have hu : useFisher control variation = false := by
      unfold useFisher
      exact decide_eq_false h
    simp [hu, h]

/-- C15 (as amended): for a pair with positive visitor counts `isSignificant` is true
exactly when the unrounded p-value of the selected test is below 0.05 and the absolute
value of the unrounded lift is at least 5; the `pValue` and `lift` fields hold these two
values rounded to 3 and to 1 decimals. -/
theorem isSignificant_iff_unrounded (m : JSMath α) (control variation : VariationPerformance)
    (hcv : 0 < control.visitors) (htv : 0 < variation.visitors) :
    ((variationResult m control variation).isSignificant = true ↔
      ((selectedOutcome m control variation).pValue < 0.05 ∧
        |rawLift control variation| ≥ (5 : α))) ∧
    (variationResult m control variation).pValue =
      mathRound ((selectedOutcome m control variation).pValue * 1000) / 1000 ∧
    (variationResult m control variation).lift =
      mathRound (rawLift control variation * 10) / 10 := by
  rw [variationResult_of_pos_visitors m control variation hcv htv]
  exact ⟨by simp only [decide_eq_true_eq], rfl, rfl⟩

end

section

variable {α : Type} [LinearOrderedField α]

/-- C14 (as amended): for positive visitor counts the standard error used by
`calculateStatisticalPower` is `sqrt(p * (1 - p) * (1/controlVisitors + 1/testVisitors))`
with `p` the unweighted mean `(controlRate + testRate) / 2` of the two rates; when both
groups have the same number of visitors this `p` is the pooled rate and the standard
error is the one of the normal-approximation test. -/
theorem power_standard_error (m : JSMath α) (cc cv tc tv : α) (hcv : 0 < cv) (htv : 0 < tv) :
    calculateStatisticalPower m (cc / cv) (tc / tv) cv tv =
      max 0 (min 1 (normalCDF m
        (|tc / tv - cc / cv| / powerStandardError m (cc / cv) (tc / tv) cv tv - 1.96))) ∧
    powerStandardError m (cc / cv) (tc / tv) cv tv =
      m.sqrt ((cc / cv + tc / tv) / 2 * (1 - (cc / cv + tc / tv) / 2) * (1 / cv + 1 / tv)) ∧
    (cv = tv →
      (cc / cv + tc / tv) / 2 = pooledRate cc cv tc tv ∧
      powerStandardError m (cc / cv) (tc / tv) cv tv = pooledStandardError m cc cv tc tv) := by
  refine ⟨rfl, rfl, ?_⟩
  intro h
  subst h
  have h1 : cv ≠ 0 := ne_of_gt hcv
  have hp : (cc / cv + tc / cv) / 2 = (cc + tc) / (cv + cv) := by
    rw [div_add_div_same, div_div, mul_two]
  refine ⟨hp, ?_⟩
  unfold powerStandardError pooledStandardError
  simp only
  rw [hp]

end

/-- Witness for C12 (as amended): control 20 visitors with 10 conversions, variant 100
visitors with 2 conversions. -/
theorem method_selection_witness :
    (variationResult realMath (performanceOf (js "A") true 20 10)
      (performanceOf (js "B") false 100 2)).method = Method.fishers_exact :=
  (method_selection realMath (performanceOf (js "A") true 20 10)
    (performanceOf (js "B") false 100 2) (by decide) (by decide)).1.mpr (by decide)

/-- C12, the claim as stated fails: the control has 20 visitors and 10 conversions, the
variant 100 visitors and 2 conversions; neither group has both fewer than 30 visitors
and fewer than 5 conversions, yet the method is `fishers_exact`. -/
theorem method_fishers_without_small_group :
    ¬ (((performanceOf (js "A") true 20 10).visitors < 30 ∧
        (performanceOf (js "A") true 20 10).conversions < 5) ∨
      ((performanceOf (js "B") false 100 2).visitors < 30 ∧
        (performanceOf (js "B") false 100 2).conversions < 5)) ∧
    (variationResult realMath (performanceOf (js "A") true 20 10)
      (performanceOf (js "B") false 100 2)).method = Method.fishers_exact := by
  refine ⟨by decide, ?_⟩
  rw [variationResult_of_pos_visitors realMath _ _ (by decide) (by decide)]
  rfl

/-- Witness for C14 (as amended): 10 of 100 against 30 of 100. -/
theorem power_standard_error_witness :
    powerStandardError realMath ((10 : ℝ) / 100) (30 / 100) 100 100 =
      pooledStandardError realMath 10 100 30 100 :=
  ((power_standard_error realMath 10 100 30 100 (by norm_num) (by norm_num)).2.2 rfl).2

/-- C14, the claim as stated fails: for 10 of 100 against 90 of 300 the power computation
uses the rate 0.2 where the pooled rate is 0.25, and its standard error differs from
`sqrt(p * (1 - p) * (1/100 + 1/300))` with the pooled `p`. -/
theorem power_standard_error_not_pooled :
    (((10 : ℝ) / 100 + 90 / 300) / 2 = 1 / 5 ∧ pooledRate (10 : ℝ) 100 90 300 = 1 / 4) ∧
    powerStandardError realMath ((10 : ℝ) / 100) (90 / 300) 100 300 ≠
      Real.sqrt (pooledRate (10 : ℝ) 100 90 300 * (1 - pooledRate (10 : ℝ) 100 90 300) *
        (1 / 100 + 1 / 300)) := by
  refine ⟨⟨by norm_num, by norm_num [pooledRate]⟩, ?_⟩
  unfold powerStandardError pooledRate realMath
  simp only
  intro h
  rw [Real.sqrt_inj (by norm_num) (by norm_num)] at h
  norm_num at h

/-- Witness for C15 (as amended): 50 of 1000 against 80 of 1000. -/
theorem isSignificant_iff_unrounded_witness :
    (variationResult realMath (performanceOf (js "A") true 1000 50)
      (performanceOf (js "B") false 1000 80)).lift =
      mathRound (rawLift (performanceOf (js "A") true 1000 50)
        (performanceOf (js "B") false 1000 80) * 10) / (10 : ℝ) :=
  (isSignificant_iff_unrounded realMath (performanceOf (js "A") true 1000 50)
    (performanceOf (js "B") false 1000 80) (by decide) (by decide)).2.2

theorem erfcPoly_ge (t : ℝ) (ht : 0 ≤ t) : 0.2 * t ≤ erfcPoly t := by
  unfold erfcPoly
  have h : (0.2 : ℝ) ≤ (((1.061405429 * t + -1.453152027) * t + 1.421413741) * t +
      -0.284496736) * t + 0.254829592 := by
    norm_num
    nlinarith [sq_nonneg (t * (t - 0.6845)), sq_nonneg (t - 0.154), sq_nonneg t]
  exact mul_le_mul_of_nonneg_right h ht

/-- Over the reals the p-value of the chi-square path is the polynomial factor times
`exp(-chiSquare / 2)`. -/
theorem real_chiSquare_pValue (cc cv tc tv : ℝ) (h : 0 ≤ chiSquareStatistic cc cv tc tv) :
    (chiSquareTest realMath cc cv tc tv).pValue =
      erfcPoly (1 / (1 + 0.3275911 * Real.sqrt (chiSquareStatistic cc cv tc tv / 2))) *
        Real.exp (-(chiSquareStatistic cc cv tc tv / 2)) := by
  rw [chiSquareTest_pValue,
    two_sided_tail realMath _ (realMath_sqrt_nonneg _) (realMath_sqrt_nonneg 2)]
  have h1 : realMath.sqrt (chiSquareStatistic cc cv tc tv) / realMath.sqrt 2 =
      Real.sqrt (chiSquareStatistic cc cv tc tv / 2) := by
    show Real.sqrt _ / Real.sqrt 2 = _
    rw [Real.sqrt_div h]
  rw [h1]
  have h2 : -Real.sqrt (chiSquareStatistic cc cv tc tv / 2) *
      Real.sqrt (chiSquareStatistic cc cv tc tv / 2) = -(chiSquareStatistic cc cv tc tv / 2) := by
    rw [neg_mul, Real.mul_self_sqrt (by linarith)]
  rw [h2]
  rfl

theorem real_chiSquare_pValue_bounds (cc cv tc tv : ℝ)
    (h : 0 ≤ chiSquareStatistic cc cv tc tv) :
    0 ≤ (chiSquareTest realMath cc cv tc tv).pValue ∧
    (chiSquareTest realMath cc cv tc tv).pValue ≤
      1 / (1 + chiSquareStatistic cc cv tc tv / 2) := by
  rw [real_chiSquare_pValue cc cv tc tv h]
  set y := chiSquareStatistic cc cv tc tv / 2 with hy
  have hy0 : 0 ≤ y := by rw [hy]; linarith
  have hx : 0 ≤ Real.sqrt y := Real.sqrt_nonneg y
  have hd : (0 : ℝ) < 1 + 0.3275911 * Real.sqrt y := by
    have : (0 : ℝ) ≤ 0.3275911 * Real.sqrt y := mul_nonneg (by norm_num) hx
    linarith
  have ht0 : 0 ≤ 1 / (1 + 0.3275911 * Real.sqrt y) := le_of_lt (one_div_pos.mpr hd)
  have ht1 : 1 / (1 + 0.3275911 * Real.sqrt y) ≤ 1 := by
    rw [div_le_one hd]
    have : (0 : ℝ) ≤ 0.3275911 * Real.sqrt y := mul_nonneg (by norm_num) hx
    linarith
  have hp0 := erfcPoly_nonneg _ ht0
  have hp1 := erfcPoly_le_one _ ht0 ht1
  have he0 : 0 < Real.exp (-y) := Real.exp_pos _
  have he : Real.exp (-y) ≤ 1 / (1 + y) := by
    rw [Real.exp_neg, ← one_div]
    apply one_div_le_one_div_of_le (by linarith)
    linarith [Real.add_one_le_exp y]
  constructor
  · exact mul_nonneg hp0 (le_of_lt he0)
  · calc erfcPoly _ * Real.exp (-y) ≤ 1 * Real.exp (-y) :=
        mul_le_mul_of_nonneg_right hp1 (le_of_lt he0)
      _ = Real.exp (-y) := one_mul _
      _ ≤ 1 / (1 + y) := he

/-- For a chi-square statistic of at most 1 the p-value of the chi-square path is at
least 0.075. -/
theorem real_chiSquare_pValue_ge (cc cv tc tv : ℝ)
    (h : 0 ≤ chiSquareStatistic cc cv tc tv) (h1 : chiSquareStatistic cc cv tc tv ≤ 1) :
    0.075 ≤ (chiSquareTest realMath cc cv tc tv).pValue := by
  rw [real_chiSquare_pValue cc cv tc tv h]
  set y := chiSquareStatistic cc cv tc tv / 2 with hy
  have hy0 : 0 ≤ y := by rw [hy]; linarith
  have hy1 : y ≤ 1 / 2 := by rw [hy]; linarith
  have hx : 0 ≤ Real.sqrt y := Real.sqrt_nonneg y
  have hx1 : Real.sqrt y ≤ 1 := by
    exact Real.sqrt_le_iff.mpr ⟨by norm_num, by linarith⟩
  have hd : (0 : ℝ) < 1 + 0.3275911 * Real.sqrt y := by
    have : (0 : ℝ) ≤ 0.3275911 * Real.sqrt y := mul_nonneg (by norm_num) hx
    linarith
  have ht : (0.75 : ℝ) ≤ 1 / (1 + 0.3275911 * Real.sqrt y) := by
    rw [le_div_iff₀ hd]
    nlinarith
  have hp := erfcPoly_ge (1 / (1 + 0.3275911 * Real.sqrt y)) (by linarith)
  have he : (1 / 2 : ℝ) ≤ Real.exp (-y) := by
    linarith [Real.add_one_le_exp (-y)]
  have hp2 : (0.15 : ℝ) ≤ erfcPoly (1 / (1 + 0.3275911 * Real.sqrt y)) := by linarith
  calc (0.075 : ℝ) = 0.15 * (1 / 2) := by norm_num
    _ ≤ erfcPoly (1 / (1 + 0.3275911 * Real.sqrt y)) * Real.exp (-y) :=
        mul_le_mul hp2 he (by norm_num) (by linarith)

section

variable {α : Type} [LinearOrderedField α] [FloorRing α]

theorem mathRound_eq_of (x : α) (n : Int) (h1 : (n : α) ≤ x + 1 / 2) (h2 : x + 1 / 2 < n + 1) :
    mathRound x = n := by
  unfold mathRound
  have : ⌊x + 1 / 2⌋ = n := Int.floor_eq_iff.mpr ⟨h1, h2⟩
  rw [this]

theorem mathRound_lt_of (x : α) (n : Int) (h : x + 1 / 2 < n) : mathRound x < n := by
  unfold mathRound
  have : ⌊x + 1 / 2⌋ < n := Int.floor_lt.mpr h
  exact_mod_cast this

end

theorem selectedOutcome_of_large (m : JSMath ℝ) (control variation : VariationPerformance)
    (h : useFisher control variation = false) :
    selectedOutcome m control variation =
      chiSquareTest m control.conversions control.visitors variation.conversions
        variation.visitors := by
  unfold selectedOutcome
  rw [h]
  rfl

/-- C15, the claim as stated fails: for 200000 of 1000000 against 209920 of 1000000 the
unrounded lift is 4.96, so `isSignificant` is false, while the `lift` field holds 5 and the
`pValue` field is below 0.05. -/
theorem isSignificant_false_with_passing_fields :
    rawLift (performanceOf (js "A") true 1000000 200000)
      (performanceOf (js "B") false 1000000 209920) = (124 / 25 : ℝ) ∧
    (variationResult realMath (performanceOf (js "A") true 1000000 200000)
      (performanceOf (js "B") false 1000000 209920)).isSignificant = false ∧
    (variationResult realMath (performanceOf (js "A") true 1000000 200000)
      (performanceOf (js "B") false 1000000 209920)).pValue < 0.05 ∧
    |(variationResult realMath (performanceOf (js "A") true 1000000 200000)
      (performanceOf (js "B") false 1000000 209920)).lift| ≥ 5 := by
  have hl : rawLift (performanceOf (js "A") true 1000000 200000)
      (performanceOf (js "B") false 1000000 209920) = (124 / 25 : ℝ) := by
    norm_num [rawLift, performanceOf]
  have hu : useFisher (performanceOf (js "A") true 1000000 200000)
      (performanceOf (js "B") false 1000000 209920) = false := by decide
  have hχ : chiSquareStatistic (200000 : ℝ) 1000000 209920 1000000 = 1922000000 / 6365289 := by
    norm_num [chiSquareStatistic]
  have hs : selectedOutcome realMath (performanceOf (js "A") true 1000000 200000)
      (performanceOf (js "B") false 1000000 209920) =
      chiSquareTest realMath 200000 1000000 209920 1000000 := by
    rw [selectedOutcome_of_large _ _ _ hu]
    norm_num [performanceOf]
  have hp := real_chiSquare_pValue_bounds 200000 1000000 209920 1000000 (by rw [hχ]; norm_num)
  rw [hχ] at hp
  have hp2 : (chiSquareTest realMath 200000 1000000 209920 1000000).pValue < 0.0495 := by
    refine lt_of_le_of_lt hp.2 ?_
    norm_num
  rw [variationResult_of_pos_visitors realMath _ _ (by decide) (by decide)]
  simp only [hl, hs]
  refine ⟨trivial, ?_, ?_, ?_⟩
  · rw [decide_eq_false_iff_not]
    intro h
    have h2 := h.2
    norm_num at h2
    rw [abs_of_nonneg (by norm_num)] at h2
    norm_num at h2
  · have h1 := mathRound_lt_of
      ((chiSquareTest realMath 200000 1000000 209920 1000000).pValue * 1000) 50
      (by push_cast; linarith)
    push_cast at h1
    linarith
  · have h1 : mathRound ((124 / 25 : ℝ) * 10) = ((50 : Int) : ℝ) :=
      mathRound_eq_of _ 50 (by norm_num) (by norm_num)
    rw [h1]
    norm_num

section

variable {α : Type} [LinearOrderedField α]

theorem betterOf_of_not_significant (best current : StatisticalResult α)
    (h : current.isSignificant = false) : betterOf best current = best := by
  unfold betterOf
  rw [if_neg]
  rw [h]
  simp

theorem betterOf_of_not_greater (best current : StatisticalResult α)
    (h : ¬ current.lift > orZero best.lift) : betterOf best current = best := by
  unfold betterOf
  rw [if_neg]
  exact fun hc => h hc.2

end

theorem smallSampleB_result :
    (variationResult realMath controlHalf smallSampleB).isSignificant = false ∧
    (variationResult realMath controlHalf smallSampleB).lift = 20 := by
  have hl : rawLift controlHalf smallSampleB = (20 : ℝ) := by
    norm_num [rawLift, performanceOf, controlHalf, smallSampleB]
  have hu : useFisher controlHalf smallSampleB = false := by decide
  have hχ : chiSquareStatistic (50000 : ℝ) 100000 6 10 = 125012500 / 312562503 := by
    norm_num [chiSquareStatistic]
  have hs : selectedOutcome realMath controlHalf smallSampleB =
      chiSquareTest realMath 50000 100000 6 10 := by
    rw [selectedOutcome_of_large _ _ _ hu]
    norm_num [performanceOf, controlHalf, smallSampleB]
  have hp := real_chiSquare_pValue_ge 50000 100000 6 10 (by rw [hχ]; norm_num)
    (by rw [hχ]; norm_num)
  rw [variationResult_of_pos_visitors realMath _ _ (by decide) (by decide)]
  simp only [hl, hs]
  constructor
  · rw [decide_eq_false_iff_not]
    intro h
    have h1 := h.1
    norm_num at h1 hp
    linarith
  · have h1 : mathRound ((20 : ℝ) * 10) = ((200 : Int) : ℝ) :=
      mathRound_eq_of _ 200 (by norm_num) (by norm_num)
    rw [h1]
    norm_num

theorem largeSampleC_result :
    (variationResult realMath controlHalf largeSampleC).isSignificant = true ∧
    (variationResult realMath controlHalf largeSampleC).lift = 10 := by
  have hl : rawLift controlHalf largeSampleC = (10 : ℝ) := by
    norm_num [rawLift, performanceOf, controlHalf, largeSampleC]
  have hu : useFisher controlHalf largeSampleC = false := by decide
  have hχ : chiSquareStatistic (50000 : ℝ) 100000 55000 100000 = 200000 / 399 := by
    norm_num [chiSquareStatistic]
  have hs : selectedOutcome realMath controlHalf largeSampleC =
      chiSquareTest realMath 50000 100000 55000 100000 := by
    rw [selectedOutcome_of_large _ _ _ hu]
    norm_num [performanceOf, controlHalf, largeSampleC]
  have hp := real_chiSquare_pValue_bounds 50000 100000 55000 100000 (by rw [hχ]; norm_num)
  rw [hχ] at hp
  rw [variationResult_of_pos_visitors realMath _ _ (by decide) (by decide)]
  simp only [hl, hs]
  constructor
  · rw [decide_eq_true_eq]
    constructor
    · refine lt_of_le_of_lt hp.2 ?_
      norm_num
    · rw [abs_of_nonneg (by norm_num)]
      norm_num
  · have h1 : mathRound ((10 : ℝ) * 10) = ((100 : Int) : ℝ) :=
      mathRound_eq_of _ 100 (by norm_num) (by norm_num)
    rw [h1]
    norm_num

/-- C16, evaluated at the failing input: against control `A` (50000 of 100000) the first
variant `B` (6 of 10) has lift 20 and is not significant, the second variant `C` (55000
of 100000) has lift 10 and is significant; the reduction keeps `B` because 10 is not
above 20, and the top-level winner is `null` although `C` is significant. -/
theorem winner_null_despite_significant_result :
    (calculateStatisticalSignificance realMath [controlHalf, smallSampleB, largeSampleC]
        (some (js "A"))).allResults =
      some [variationResult realMath controlHalf smallSampleB,
        variationResult realMath controlHalf largeSampleC] ∧
    (variationResult realMath controlHalf largeSampleC).isSignificant = true ∧
    (calculateStatisticalSignificance realMath [controlHalf, smallSampleB, largeSampleC]
        (some (js "A"))).winner = none := by
  have hB := smallSampleB_result
  have hC := largeSampleC_result
  have hfind : [controlHalf, smallSampleB, largeSampleC].find? (fun p => p.variation = js "A")
      = some controlHalf := by
    rfl
  have hfilter : [controlHalf, smallSampleB, largeSampleC].filter
      (fun p => p.variation ≠ js "A") = [smallSampleB, largeSampleC] := by
    rfl
  have h := winner_label_cases realMath [controlHalf, smallSampleB, largeSampleC] (js "A")
    controlHalf (by decide) hfind (by rw [hfilter]; simp)
  rw [hfilter] at h
  refine ⟨h.1, hC.1, ?_⟩
  rw [h.2]
  have hw : winnerResult [variationResult realMath controlHalf smallSampleB,
      variationResult realMath controlHalf largeSampleC] = none := by
    unfold winnerResult bestVariation
    simp only [List.map, List.foldl]
    rw [betterOf_of_not_significant _ _ hB.1,
      betterOf_of_not_greater _ _ (by rw [hC.2, hB.2]; norm_num [orZero])]
    simp [hB.1]
  simp only [List.map] at hw ⊢
  rw [hw]
  rfl

theorem erfcPoly_bounds_scenario (t : ℝ) (hlo : 0.6133 ≤ t) (hhi : t ≤ 0.6134) :
    0.2635 ≤ erfcPoly t ∧ erfcPoly t ≤ 0.264 := by
  have h0 : (0 : ℝ) ≤ 0.6133 := by norm_num
  have ht : (0 : ℝ) ≤ t := le_trans h0 hlo
  have e : erfcPoly t = 0.254829592 * t - 0.284496736 * t ^ 2 + 1.421413741 * t ^ 3
      - 1.453152027 * t ^ 4 + 1.061405429 * t ^ 5 := by
    unfold erfcPoly
    ring
  have l2 : (0.6133 : ℝ) ^ 2 ≤ t ^ 2 := pow_le_pow_left₀ h0 hlo 2
  have l3 : (0.6133 : ℝ) ^ 3 ≤ t ^ 3 := pow_le_pow_left₀ h0 hlo 3
  have l4 : (0.6133 : ℝ) ^ 4 ≤ t ^ 4 := pow_le_pow_left₀ h0 hlo 4
  have l5 : (0.6133 : ℝ) ^ 5 ≤ t ^ 5 := pow_le_pow_left₀ h0 hlo 5
  have u2 : t ^ 2 ≤ (0.6134 : ℝ) ^ 2 := pow_le_pow_left₀ ht hhi 2
  have u3 : t ^ 3 ≤ (0.6134 : ℝ) ^ 3 := pow_le_pow_left₀ ht hhi 3
  have u4 : t ^ 4 ≤ (0.6134 : ℝ) ^ 4 := pow_le_pow_left₀ ht hhi 4
  have u5 : t ^ 5 ≤ (0.6134 : ℝ) ^ 5 := pow_le_pow_left₀ ht hhi 5
  norm_num at l2 l3 l4 l5 u2 u3 u4 u5
  rw [e]
  constructor <;> linarith

theorem exp_bounds_scenario :
    0.02458 ≤ Real.exp (-(9000 / 2431 : ℝ)) ∧ Real.exp (-(9000 / 2431 : ℝ)) ≤ 0.02609 := by
  have hsplit : Real.exp (-(9000 / 2431 : ℝ)) = Real.exp (724 / 2431) / Real.exp 1 ^ 4 := by
    rw [← Real.exp_nat_mul, ← Real.exp_sub]
    congr 1
    norm_num
  have he1 := Real.exp_one_gt_d9
  have he2 := Real.exp_one_lt_d9
  have hepos : (0 : ℝ) < Real.exp 1 := Real.exp_pos 1
  have h4lo : (2.7182818283 : ℝ) ^ 4 ≤ Real.exp 1 ^ 4 :=
    pow_le_pow_left₀ (by norm_num) he1.le 4
  have h4hi : Real.exp 1 ^ 4 ≤ (2.7182818286 : ℝ) ^ 4 := pow_le_pow_left₀ hepos.le he2.le 4
  have h4pos : (0 : ℝ) < Real.exp 1 ^ 4 := pow_pos hepos 4
  have hylo : (1 : ℝ) + 724 / 2431 + (724 / 2431) ^ 2 / 2 ≤ Real.exp (724 / 2431) :=
    Real.quadratic_le_exp_of_nonneg (by norm_num)
  have hyhi : Real.exp (724 / 2431 : ℝ) ≤ 1 / (1 - 724 / 2431) := by
    have h1 : (1 : ℝ) - 724 / 2431 ≤ Real.exp (-(724 / 2431)) := by
      linarith [Real.add_one_le_exp (-(724 / 2431 : ℝ))]
    have h2 : Real.exp (724 / 2431 : ℝ) = 1 / Real.exp (-(724 / 2431)) := by
      rw [Real.exp_neg, one_div, inv_inv]
    rw [h2]
    exact one_div_le_one_div_of_le (by norm_num) h1
  rw [hsplit]
  constructor
  · rw [le_div_iff₀ h4pos]
    calc (0.02458 : ℝ) * Real.exp 1 ^ 4 ≤ 0.02458 * (2.7182818286 : ℝ) ^ 4 :=
        mul_le_mul_of_nonneg_left h4hi (by norm_num)
      _ ≤ 1 + 724 / 2431 + (724 / 2431) ^ 2 / 2 := by norm_num
      _ ≤ Real.exp (724 / 2431) := hylo
  · rw [div_le_iff₀ h4pos]
    calc Real.exp (724 / 2431 : ℝ) ≤ 1 / (1 - 724 / 2431) := hyhi
      _ ≤ 0.02609 * (2.7182818283 : ℝ) ^ 4 := by norm_num
      _ ≤ 0.02609 * Real.exp 1 ^ 4 := mul_le_mul_of_nonneg_left h4lo (by norm_num)

theorem scenario_pValue_bounds :
    0.006 < (chiSquareTest realMath 50 1000 80 1000).pValue ∧
    (chiSquareTest realMath 50 1000 80 1000).pValue < 0.007 := by
  have hχ : chiSquareStatistic (50 : ℝ) 1000 80 1000 = 18000 / 2431 := by
    norm_num [chiSquareStatistic]
  rw [real_chiSquare_pValue 50 1000 80 1000 (by rw [hχ]; norm_num), hχ]
  have hhalf : (18000 / 2431 : ℝ) / 2 = 9000 / 2431 := by norm_num
  rw [hhalf]
  have hx1 : (1.924 : ℝ) < Real.sqrt (9000 / 2431) := by
    rw [Real.lt_sqrt (by norm_num)]
    norm_num
  have hx2 : Real.sqrt (9000 / 2431 : ℝ) < 1.9245 := by
    rw [Real.sqrt_lt' (by norm_num)]
    norm_num
  have hd : (0 : ℝ) < 1 + 0.3275911 * Real.sqrt (9000 / 2431) := by nlinarith
  have ht1 : (0.6133 : ℝ) ≤ 1 / (1 + 0.3275911 * Real.sqrt (9000 / 2431)) := by
    rw [le_div_iff₀ hd]
    nlinarith
  have ht2 : 1 / (1 + 0.3275911 * Real.sqrt (9000 / 2431 : ℝ)) ≤ 0.6134 := by
    rw [div_le_iff₀ hd]
    nlinarith
  obtain ⟨hq1, hq2⟩ := erfcPoly_bounds_scenario _ ht1 ht2
  obtain ⟨he1, he2⟩ := exp_bounds_scenario
  constructor
  · calc (0.006 : ℝ) < 0.2635 * 0.02458 := by norm_num
      _ ≤ erfcPoly _ * Real.exp (-(9000 / 2431 : ℝ)) :=
          mul_le_mul hq1 he1 (by norm_num) (by linarith)
  · calc erfcPoly _ * Real.exp (-(9000 / 2431 : ℝ)) ≤ 0.264 * 0.02609 :=
          mul_le_mul hq2 he2 (by linarith) (by norm_num)
      _ < 0.007 := by norm_num

/-- C17: for control `A` with 50 conversions of 1000 visitors and variant `B` with 80 of
1000, over the reals, the result for `B` has lift 60, an unrounded p-value between 0.006
and 0.007 (so below 0.05), confidence 99 and `isSignificant = true`; the top-level result
names `B` as winner with lift 60, confidence 99, a `pValue` field below 0.05 and method
`chi_square`. -/
theorem scenario_50_of_1000_vs_80_of_1000 :
    (variationResult realMath scenarioControl scenarioVariant).lift = 60 ∧
    (0.006 < (selectedOutcome realMath scenarioControl scenarioVariant).pValue ∧
      (selectedOutcome realMath scenarioControl scenarioVariant).pValue < 0.007) ∧
    (variationResult realMath scenarioControl scenarioVariant).pValue < 0.05 ∧
    (variationResult realMath scenarioControl scenarioVariant).confidence = 99 ∧
    (variationResult realMath scenarioControl scenarioVariant).isSignificant = true ∧
    (variationResult realMath scenarioControl scenarioVariant).method = Method.chi_square ∧
    (calculateStatisticalSignificance realMath [scenarioControl, scenarioVariant]
      (some (js "A"))).winner = some (js "B") ∧
    (calculateStatisticalSignificance realMath [scenarioControl, scenarioVariant]
      (some (js "A"))).lift = 60 ∧
    (calculateStatisticalSignificance realMath [scenarioControl, scenarioVariant]
      (some (js "A"))).confidence = 99 := by
  have hl : rawLift scenarioControl scenarioVariant = (60 : ℝ) := by
    norm_num [rawLift, performanceOf, scenarioControl, scenarioVariant]
  have hu : useFisher scenarioControl scenarioVariant = false := by decide
  have hs : selectedOutcome realMath scenarioControl scenarioVariant =
      chiSquareTest realMath 50 1000 80 1000 := by
    rw [selectedOutcome_of_large _ _ _ hu]
    norm_num [performanceOf, scenarioControl, scenarioVariant]
  obtain ⟨hp1, hp2⟩ := scenario_pValue_bounds
  have hres := variationResult_of_pos_visitors realMath scenarioControl scenarioVariant
    (by decide) (by decide)
  have hlift : (variationResult realMath scenarioControl scenarioVariant).lift = 60 := by
    rw [hres]
    simp only [hl]
    have h1 : mathRound ((60 : ℝ) * 10) = ((600 : Int) : ℝ) :=
      mathRound_eq_of _ 600 (by norm_num) (by norm_num)
    rw [h1]
    norm_num
  have hpv : (variationResult realMath scenarioControl scenarioVariant).pValue < 0.05 := by
    rw [hres]
    simp only [hs]
    have h1 := mathRound_lt_of ((chiSquareTest realMath 50 1000 80 1000).pValue * 1000) 50
      (by push_cast; linarith)
    push_cast at h1
    linarith
  have hconf : (variationResult realMath scenarioControl scenarioVariant).confidence = 99 := by
    rw [hres]
    simp only [hs, chiSquareTest_confidence]
    have h1 := mathRound_eq_of ((1 - (chiSquareTest realMath 50 1000 80 1000).pValue) * 100) 99
      (by push_cast; linarith) (by push_cast; linarith)
    rw [h1]
    norm_num
  have hsig : (variationResult realMath scenarioControl scenarioVariant).isSignificant = true := by
    rw [hres]
    simp only [hl, hs, decide_eq_true_eq]
    constructor
    · linarith
    · rw [abs_of_nonneg (by norm_num)]
      norm_num
  have hmeth : (variationResult realMath scenarioControl scenarioVariant).method =
      Method.chi_square := by
    rw [hres]
    simp only [hu]
    rfl
  have hw : winnerResult [variationResult realMath scenarioControl scenarioVariant] =
      some (variationResult realMath scenarioControl scenarioVariant) := by
    unfold winnerResult bestVariation
    simp only [List.foldl]
    rw [betterOf_of_not_greater _ _ (by simp [orZero, hlift])]
    simp [hsig]
  have hfind : [scenarioControl, scenarioVariant].find? (fun p => p.variation = js "A")
      = some scenarioControl := by
    rfl
  have hfilter : [scenarioControl, scenarioVariant].filter
      (fun p => p.variation ≠ js "A") = [scenarioVariant] := by
    rfl
  have hcalc : calculateStatisticalSignificance realMath [scenarioControl, scenarioVariant]
      (some (js "A")) =
      { confidence := (variationResult realMath scenarioControl scenarioVariant).confidence
        pValue := (variationResult realMath scenarioControl scenarioVariant).pValue
        winner := some (variationResult realMath scenarioControl scenarioVariant).variation
        lift := (variationResult realMath scenarioControl scenarioVariant).lift
        recommendation := Recommendation.winner
          (variationResult realMath scenarioControl scenarioVariant).variation
          (variationResult realMath scenarioControl scenarioVariant).lift
          (variationResult realMath scenarioControl scenarioVariant).confidence
        allResults := some [variationResult realMath scenarioControl scenarioVariant]
        overallPower := some (mathRound
          (([variationResult realMath scenarioControl scenarioVariant].foldl
            (fun sum r => sum + orZero (r.power.getD 0)) 0 /
              (([variationResult realMath scenarioControl scenarioVariant].length : ℕ) : ℝ))
            * 100))
        method := (variationResult realMath scenarioControl scenarioVariant).method } := by
    have hjs : js "A" = [65] := by decide
    rw [hjs] at hfind hfilter ⊢
    simp only [calculateStatisticalSignificance, hfind, hfilter, List.map, hw]
    rfl
  refine ⟨hlift, ?_, hpv, hconf, hsig, hmeth, ?_, ?_, ?_⟩
  · rw [hs]
    exact ⟨hp1, hp2⟩
  · rw [hcalc]
    simp only [variationResult_variation]
    rfl
  · rw [hcalc]
    exact hlift
  · rw [hcalc]
    exact hconf

section

variable {α : Type} [LinearOrderedField α]

theorem chiSquareStatistic_eq_sum (cc cv tc tv : α) :
    chiSquareStatistic cc cv tc tv =
      (cc - (chiSquareExpected cc cv tc tv).getD 0 0) ^ 2 /
          (chiSquareExpected cc cv tc tv).getD 0 0 +
        (tc - (chiSquareExpected cc cv tc tv).getD 1 0) ^ 2 /
          (chiSquareExpected cc cv tc tv).getD 1 0 +
        (cv - cc - (chiSquareExpected cc cv tc tv).getD 2 0) ^ 2 /
          (chiSquareExpected cc cv tc tv).getD 2 0 +
        (tv - tc - (chiSquareExpected cc cv tc tv).getD 3 0) ^ 2 /
          (chiSquareExpected cc cv tc tv).getD 3 0 := rfl

/-- The expected counts are non-zero when both groups have visitors and the pooled
conversion count lies strictly between 0 and the total visitor count. -/
theorem chiSquareExpected_ne_zero (cc cv tc tv : α) (hcv : 0 < cv) (htv : 0 < tv)
    (hT : 0 < cc + tc) (hN : cc + tc < cv + tv) :
    ∀ d, d ∈ chiSquareExpected cc cv tc tv → d ≠ 0 := by
  have hV : 0 < cv + tv := add_pos hcv htv
  have hNT : 0 < cv - cc + (tv - tc) := by linarith
  intro d hd
  simp only [chiSquareExpected, List.mem_cons, List.mem_singleton, List.not_mem_nil,
    or_false] at hd
  rcases hd with h | h | h | h <;> rw [h] <;> apply ne_of_gt <;> positivity

end

/-- C11, evaluated at the failing input: control and variant both have 100 visitors and
no conversion (non-negative counts, conversions at most visitors, no zero-visitor
guard); the expected conversion counts by which `chiSquareTest` divides are 0, the
standard error by which `calculateStatisticalPower` divides is 0, so 0 is among the
divisors. -/
theorem significance_divides_by_zero :
    idleControl.conversions ≤ idleControl.visitors ∧
    idleVariant.conversions ≤ idleVariant.visitors ∧
    0 < idleControl.visitors ∧ 0 < idleVariant.visitors ∧
    chiSquareExpected ((idleControl.conversions : ℕ) : ℝ) idleControl.visitors
        idleVariant.conversions idleVariant.visitors = [0, 0, 100, 100] ∧
    powerStandardError realMath
        (((idleControl.conversions : ℕ) : ℝ) / idleControl.visitors)
        (((idleVariant.conversions : ℕ) : ℝ) / idleVariant.visitors)
        idleControl.visitors idleVariant.visitors = 0 ∧
    (0 : ℝ) ∈ significanceDivisors realMath idleControl idleVariant := by
  have he : chiSquareExpected ((idleControl.conversions : ℕ) : ℝ) idleControl.visitors
      idleVariant.conversions idleVariant.visitors = [0, 0, 100, 100] := by
    norm_num [chiSquareExpected, idleControl, idleVariant, performanceOf]
  refine ⟨by decide, by decide, by decide, by decide, he, ?_, ?_⟩
  · norm_num [powerStandardError, realMath, idleControl, idleVariant, performanceOf]
  · unfold significanceDivisors
    simp only [he]
    simp

theorem mathRound_intCast {α : Type} [LinearOrderedField α] [FloorRing α] (n : Int) :
    mathRound (n : α) = n :=
  mathRound_eq_of _ n (by linarith) (by linarith)

/-- In exact arithmetic `applyRounding` is idempotent for every price and every rounding
mode, recognised or not. In doubles this fails for `round_to_cent` at large prices, see
`applyRounding_cent_not_idempotent`. -/
theorem applyRounding_idempotent (price : ℚ) (rounding : JSString) :
    applyRounding (applyRounding price rounding) rounding = applyRounding price rounding := by
  unfold applyRounding
  split
  · unfold mathRound
    exact mathRound_intCast _
  · split
    · simp
    · split
      · simp
      · split
        · have h : mathRound (price * 100) / 100 * 100 = mathRound (price * 100) := by
            field_simp
          rw [h]
          congr 1
          unfold mathRound
          exact mathRound_intCast _
        · split
          · unfold mathRound
            exact mathRound_intCast _
          · rfl

theorem executeAction_unknown (now : ℚ) (action : JSString) (parameters : Option Parameters)
    (test : TestRecord) (perf : List VariationPerformance) (state : RunState)
    (h : isKnownAction action = false) :
    executeAction now action parameters test perf state =
      (Except.error (AutomationError.unknownAction action), state) := by
  unfold isKnownAction at h
  simp only [decide_eq_false_iff_not, not_or] at h
  unfold executeAction
  rw [if_neg h.1, if_neg h.2.1, if_neg h.2.2.1, if_neg h.2.2.2]

theorem processAutomationRule_unknown_action (m : JSMath ℚ) (now : ℚ) (test : TestRecord)
    (rule : AutomationRule) (perf : List VariationPerformance) (state : RunState)
    (h : isKnownAction rule.action = false) :
    processAutomationRule m now test rule perf state =
      (unknownActionEntry rule (evaluateCondition m now rule.condition perf test), state) := by
  unfold processAutomationRule unknownActionEntry
  cases hc : evaluateCondition m now rule.condition perf test with
  | error e => rfl
  | ok b =>
    cases b with
    | false => rfl
    | true =>
      simp only [executeAction_unknown now rule.action rule.parameters test perf state h]

theorem processAutomationRule_ruleId (m : JSMath ℚ) (now : ℚ) (test : TestRecord)
    (rule : AutomationRule) (perf : List VariationPerformance) (state : RunState) :
    (processAutomationRule m now test rule perf state).1.ruleId = rule.id := by
  unfold processAutomationRule
  cases evaluateCondition m now rule.condition perf test with
  | error e => rfl
  | ok b =>
    cases b with
    | false => rfl
    | true =>
      simp only
      cases executeAction now rule.action rule.parameters test perf state with
      | mk r s => cases r <;> rfl

theorem processAutomationRule_condition_error (m : JSMath ℚ) (now : ℚ) (test : TestRecord)
    (rule : AutomationRule) (perf : List VariationPerformance) (state : RunState)
    (e : AutomationError) (h : evaluateCondition m now rule.condition perf test = Except.error e) :
    processAutomationRule m now test rule perf state = (RuleResult.failed rule.id e, state) := by
  unfold processAutomationRule
  rw [h]

theorem processRuleList_entries (m : JSMath ℚ) (now : ℚ) (test : TestRecord)
    (perf : List VariationPerformance) (rules : List AutomationRule) :
    ∀ state : RunState,
      List.Forall₂
        (fun rule r =>
          r.ruleId = rule.id ∧
          (isKnownAction rule.action = false →
            r = unknownActionEntry rule (evaluateCondition m now rule.condition perf test)) ∧
          (∀ e, evaluateCondition m now rule.condition perf test = Except.error e →
            r = RuleResult.failed rule.id e))
        rules (processRuleList m now test perf rules state).1 := by
  induction rules with
  | nil => intro state; exact List.Forall₂.nil
  | cons rule rest ih =>
    intro state
    simp only [processRuleList]
    refine List.Forall₂.cons ⟨?_, ?_, ?_⟩ (ih _)
    · exact processAutomationRule_ruleId m now test rule perf state
    · intro h
      rw [processAutomationRule_unknown_action m now test rule perf state h]
    · intro e h
      rw [processAutomationRule_condition_error m now test rule perf state e h]

theorem processAutomationRules_processed (m : JSMath ℚ) (now : ℚ) (events : List Event)
    (store : Store) (test : TestRecord) (analytics : Analytics) (settings : AutomationSettings)
    (hfound : store.test = some test) (hrun : test.status = js "Running")
    (hperf : processEventsToAnalytics events test.toTest = Except.ok analytics)
    (hne : analytics.variationPerformance ≠ [])
    (hset : test.automationSettings = some settings) (hen : settings.enabled = true) :
    (processAutomationRules m now events store).1 =
      RunOutcome.processed
        (processRuleList m now test analytics.variationPerformance (settings.rules.getD [])
          { stoppedVariations := test.stoppedVariations, store := store }).1 := by
  have hlen : ¬ analytics.variationPerformance.length = 0 := by
    simpa [List.length_eq_zero] using hne
  unfold processAutomationRules
  simp only [hfound, hrun, hperf, hset, hen, ne_eq, not_true_eq_false, if_false, hlen,
    Bool.true_eq_false]

/-- C19 (as amended): for a running test with automation enabled and performance data,
`processAutomationRules` returns one result entry per configured rule, in rule order.
The entry of a rule whose action type is unknown is `executed = false` with the error
`Unknown action` when its condition is met, `executed = false` with the reason
`Condition not met` (and no error) when its condition is not met; a rule whose condition
cannot be evaluated yields `executed = false` with the error. Later rules are evaluated
and reported all the same. -/
theorem processAutomationRules_one_entry_per_rule (m : JSMath ℚ) (now : ℚ)
    (events : List Event) (store : Store) (test : TestRecord) (analytics : Analytics)
    (settings : AutomationSettings)
    (hfound : store.test = some test) (hrun : test.status = js "Running")
    (hperf : processEventsToAnalytics events test.toTest = Except.ok analytics)
    (hne : analytics.variationPerformance ≠ [])
    (hset : test.automationSettings = some settings) (hen : settings.enabled = true) :
    ∃ results, (processAutomationRules m now events store).1 = RunOutcome.processed results ∧
      List.Forall₂
        (fun rule r =>
          r.ruleId = rule.id ∧
          (isKnownAction rule.action = false →
            r = unknownActionEntry rule
              (evaluateCondition m now rule.condition analytics.variationPerformance test)) ∧
          (∀ e, evaluateCondition m now rule.condition analytics.variationPerformance test
              = Except.error e → r = RuleResult.failed rule.id e))
        (settings.rules.getD []) results :=
  ⟨_, processAutomationRules_processed m now events store test analytics settings hfound hrun
      hperf hne hset hen,
    processRuleList_entries m now test analytics.variationPerformance _ _⟩

/-- C20 (as amended): a rule whose condition type is none of `performance_threshold`,
`statistical_significance`, `time_based`, `traffic_volume` gets the entry
`executed = false` with the reason `Condition not met` and no error, the same entry as a
recognised condition that evaluated to false; nothing is executed or stored. -/
theorem unknown_condition_type_not_met (m : JSMath ℚ) (now : ℚ) (test : TestRecord)
    (rule : AutomationRule) (perf : List VariationPerformance) (state : RunState)
    (condition : Condition) (hc : rule.condition = some condition)
    (hunknown : isKnownConditionType condition.type = false) :
    processAutomationRule m now test rule perf state = (RuleResult.notMet rule.id, state) ∧
    (processAutomationRule m now test rule perf state).1.error? = none ∧
    (processAutomationRule m now test rule perf state).1.isExecuted = false := by
  unfold isKnownConditionType at hunknown
  simp only [decide_eq_false_iff_not, not_or] at hunknown
  have h : evaluateCondition m now rule.condition perf test = Except.ok false := by
    rw [hc]
    unfold evaluateCondition
    simp only
    rw [if_neg hunknown.1, if_neg hunknown.2.1, if_neg hunknown.2.2.1, if_neg hunknown.2.2.2]
  have hr : processAutomationRule m now test rule perf state =
      (RuleResult.notMet rule.id, state) := by
    unfold processAutomationRule
    rw [h]
  rw [hr]
  exact ⟨rfl, rfl, rfl⟩

/-- C19, the claim as stated fails: rule `r1` has the unknown action `send_email` and a
condition that is not met (variation `A` has 1 visitor, the floor is 100); its entry is
`executed = false` with the reason `Condition not met` and carries no error. The later
rule `r2` is executed. -/
theorem unknown_action_without_error_entry :
    isKnownAction (sendEmailRule 100).action = false ∧
    (processAutomationRules unusedMath 0 [pageViewA]
        (automatedStore [sendEmailRule 100, stopBRule])).1 =
      RunOutcome.processed
        [RuleResult.notMet (js "r1"),
         RuleResult.executed (js "r2")
           (ActionResult.stopVariation (js "B") (js "low performance")) 0] ∧
    (RuleResult.notMet (js "r1")).error? = none := by
  refine ⟨by decide, ?_, rfl⟩
  rfl

theorem ruleIds_of_forall2 {P : AutomationRule → RuleResult → Prop}
    (rules : List AutomationRule) (results : List RuleResult)
    (h : List.Forall₂ (fun rule r => r.ruleId = rule.id ∧ P rule r) rules results) :
    results.map RuleResult.ruleId = rules.map (fun rule => rule.id) := by
  induction h with
  | nil => rfl
  | cons hd _ ih => simp only [List.map_cons, hd.1, ih]

/-- Witness for C19 (as amended): rule `r1` with the unknown action `send_email` and a met
condition, followed by rule `r2`; the run reports both rules in order. -/
theorem processAutomationRules_one_entry_per_rule_witness :
    ∃ results,
      (processAutomationRules unusedMath 0 [pageViewA]
        (automatedStore [sendEmailRule 0, stopBRule])).1 = RunOutcome.processed results ∧
      results.map RuleResult.ruleId = [js "r1", js "r2"] := by
  have hperf : ∃ a, processEventsToAnalytics [pageViewA]
      (automatedTest [sendEmailRule 0, stopBRule]).toTest = Except.ok a ∧
      a.variationPerformance ≠ [] := ⟨_, rfl, List.cons_ne_nil _ _⟩
  obtain ⟨a, ha, hne⟩ := hperf
  obtain ⟨results, h1, h2⟩ := processAutomationRules_one_entry_per_rule unusedMath 0
    [pageViewA] (automatedStore [sendEmailRule 0, stopBRule])
    (automatedTest [sendEmailRule 0, stopBRule]) a
    { enabled := true, rules := some [sendEmailRule 0, stopBRule] } rfl rfl ha hne rfl rfl
  exact ⟨results, h1, ruleIds_of_forall2 _ _ h2⟩

/-- The entries of the run with rule `r1` (unknown action, met condition) and rule `r2`:
an error entry for `r1`, an executed entry for `r2`. -/
theorem unknown_action_with_met_condition_run :
    (processAutomationRules unusedMath 0 [pageViewA]
        (automatedStore [sendEmailRule 0, stopBRule])).1 =
      RunOutcome.processed
        [RuleResult.failed (js "r1") (AutomationError.unknownAction (js "send_email")),
         RuleResult.executed (js "r2")
           (ActionResult.stopVariation (js "B") (js "low performance")) 0] := by
  rfl

/-- Witness for C20 (as amended): rule `r3` with the condition type `revenue_spike`. -/
theorem unknown_condition_type_not_met_witness :
    processAutomationRule unusedMath 0 (automatedTest [revenueSpikeRule]) revenueSpikeRule []
        { stoppedVariations := some [], store := automatedStore [revenueSpikeRule] } =
      (RuleResult.notMet (js "r3"),
        { stoppedVariations := some [], store := automatedStore [revenueSpikeRule] }) :=
  (unknown_condition_type_not_met unusedMath 0 (automatedTest [revenueSpikeRule])
    revenueSpikeRule []
    { stoppedVariations := some [], store := automatedStore [revenueSpikeRule] }
    revenueSpikeCondition rfl (by decide)).1

/-- C20, the claim as stated fails: rule `r3` has the unknown condition type
`revenue_spike`; the run reports it as `executed = false` with the reason
`Condition not met`, an entry without error, exactly like rule `r1` whose recognised
condition is false. -/
theorem unknown_condition_type_without_error_entry :
    isKnownConditionType revenueSpikeCondition.type = false ∧
    isKnownConditionType (trafficCondition 100).type = true ∧
    (processAutomationRules unusedMath 0 [pageViewA]
        (automatedStore [revenueSpikeRule, sendEmailRule 100])).1 =
      RunOutcome.processed [RuleResult.notMet (js "r3"), RuleResult.notMet (js "r1")] ∧
    (RuleResult.notMet (js "r3")).error? = none := by
  refine ⟨by decide, by decide, ?_, rfl⟩
  rfl

/-! ## Theorems: rebalancing, audit log, lifetime, devices, cookies, prices, winners -/

theorem matchesDevice_mobile (userAgent : JSString) :
    matchesDevice userAgent (some (js "mobile")) = isMobileUA (toLowerCase userAgent) := by
  rfl

theorem matchesDevice_tablet (userAgent : JSString) :
    matchesDevice userAgent (some (js "tablet")) = isTabletUA (toLowerCase userAgent) := by
  rfl

theorem matchesDevice_desktop (userAgent : JSString) :
    matchesDevice userAgent (some (js "desktop")) =
      (!isMobileUA (toLowerCase userAgent) && !isTabletUA (toLowerCase userAgent)) := by
  rfl

/-- C24 (as amended): for every user agent at least one of `matchesDevice('mobile')`,
`matchesDevice('tablet')`, `matchesDevice('desktop')` is true, and `desktop` is true
exactly when `mobile` and `tablet` are both false; `mobile` and `tablet` are tested
independently and can both be true. -/
theorem matchesDevice_cover (userAgent : JSString) :
    (matchesDevice userAgent (some (js "mobile")) = true ∨
      matchesDevice userAgent (some (js "tablet")) = true ∨
      matchesDevice userAgent (some (js "desktop")) = true) ∧
    (matchesDevice userAgent (some (js "desktop")) = true ↔
      (matchesDevice userAgent (some (js "mobile")) = false ∧
        matchesDevice userAgent (some (js "tablet")) = false)) := by
  rw [matchesDevice_mobile, matchesDevice_tablet, matchesDevice_desktop]
  cases isMobileUA (toLowerCase userAgent) <;> cases isTabletUA (toLowerCase userAgent) <;> simp

/-- C24, the claim as stated fails: the user agent of an iPad contains `ipad` and `mobile`,
so `matchesDevice('mobile')` and `matchesDevice('tablet')` are both true. -/
theorem matchesDevice_ipad_mobile_and_tablet :
    matchesDevice ipadUserAgent (some (js "mobile")) = true ∧
    matchesDevice ipadUserAgent (some (js "tablet")) = true ∧
    matchesDevice ipadUserAgent (some (js "desktop")) = false := by
  set_option maxRecDepth 100000 in decide

theorem getVisitorId_firstVisit : getVisitorId firstVisit = js "visitor_1106694847" := by
  have h : simpleHashLoop 0 (js "10.0.0.1UA1") = 1106694847 := by
    set_option maxRecDepth 100000 in decide
  have hc : matchVisitorId (jsOr firstVisit.cookie []) = none := by decide
  have hs : jsOr firstVisit.xForwardedFor (jsOr firstVisit.xRealIp (js "unknown")) ++
      jsOr firstVisit.userAgent (js "unknown") = js "10.0.0.1UA1" := by decide
  simp only [getVisitorId, hc, hs, simpleHash, h]
  decide

theorem getVisitorId_followUpVisit : getVisitorId followUpVisit = js "visitor_1106724638" := by
  have h : simpleHashLoop 0 (js "10.0.0.2UA1") = 1106724638 := by
    set_option maxRecDepth 100000 in decide
  have hc : matchVisitorId (jsOr followUpVisit.cookie []) = none := by decide
  have hs : jsOr followUpVisit.xForwardedFor (jsOr followUpVisit.xRealIp (js "unknown")) ++
      jsOr followUpVisit.userAgent (js "unknown") = js "10.0.0.2UA1" := by decide
  simp only [getVisitorId, hc, hs, simpleHash, h]
  decide

theorem bucket_visitor_1106694847 : bucket (js "visitor_1106694847") = 3809 / 10000 := by
  have h : simpleHashLoop 0 (js "visitor_1106694847") = 1997203809 := by
    set_option maxRecDepth 100000 in decide
  unfold bucket simpleHash
  rw [h]
  norm_num

theorem bucket_visitor_1106724638 : bucket (js "visitor_1106724638") = 6361 / 10000 := by
  have h : simpleHashLoop 0 (js "visitor_1106724638") = 2019366361 := by
    set_option maxRecDepth 100000 in decide
  unfold bucket simpleHash
  rw [h]
  norm_num

theorem assign_sampleVariations_first :
    assignVisitorToVariant (js "visitor_1106694847") sampleVariations [50, 50]
      = some { label := js "A", price := some 10, prices := none, isControl := true } := by
  have hb := bucket_visitor_1106694847
  simp [assignVisitorToVariant, assignLoop, sampleVariations, hb]
  norm_num

theorem assign_sampleVariations_followUp :
    assignVisitorToVariant (js "visitor_1106724638") sampleVariations [50, 50]
      = some { label := js "B", price := some 12, prices := none, isControl := false } := by
  have hb := bucket_visitor_1106724638
  simp [assignVisitorToVariant, assignLoop, sampleVariations, hb]
  norm_num

theorem loader_firstVisit :
    loader firstVisit plainEnv = Response.assigned (js "t3") (js "A") (some 10) true
      (some (js "pt_vid=visitor_1106694847; Path=/; Max-Age=31536000; Secure; SameSite=Lax")) := by
  have hl : loader firstVisit plainEnv = loaderAfterQuery firstVisit [plainTest] none := by
    rfl
  have hf : [plainTest].filter (isEligible firstVisit (resolveCountry firstVisit none))
      = [plainTest] := by
    decide
  rw [hl, loaderAfterQuery_cons_eligible firstVisit [plainTest] none plainTest [] hf,
    getVisitorId_firstVisit]
  have ha : assignVisitorToVariant (js "visitor_1106694847") plainTest.variations
      plainTest.trafficSplit
      = some { label := js "A", price := some 10, prices := none, isControl := true } :=
    assign_sampleVariations_first
  rw [ha]
  rfl

theorem loader_followUpVisit :
    loader followUpVisit plainEnv = Response.assigned (js "t3") (js "B") (some 12) false
      (some (js "pt_vid=visitor_1106724638; Path=/; Max-Age=31536000; Secure; SameSite=Lax")) := by
  have hl : loader followUpVisit plainEnv = loaderAfterQuery followUpVisit [plainTest] none := by
    rfl
  have hf : [plainTest].filter (isEligible followUpVisit (resolveCountry followUpVisit none))
      = [plainTest] := by
    decide
  rw [hl, loaderAfterQuery_cons_eligible followUpVisit [plainTest] none plainTest [] hf,
    getVisitorId_followUpVisit]
  have ha : assignVisitorToVariant (js "visitor_1106724638") plainTest.variations
      plainTest.trafficSplit
      = some { label := js "B", price := some 12, prices := none, isControl := false } :=
    assign_sampleVariations_followUp
  rw [ha]
  rfl

/-- C25, failing input: the first visit (no cookie, address `10.0.0.1`) is identified as
`visitor_1106694847`, assigned `A`, and answered with the cookie
`pt_vid=visitor_1106694847`. The follow-up visit carries exactly that pair as its
`Cookie` header and comes from address `10.0.0.2`: `getVisitorId` does not read the
cookie (it looks for `visitor_id=`), derives `visitor_1106724638` from the address, and
the loader assigns `B`. -/
theorem visitor_cookie_not_read_back :
    (loader firstVisit plainEnv).setCookie?.map cookiePair = followUpVisit.cookie ∧
    getVisitorId firstVisit = js "visitor_1106694847" ∧
    getVisitorId followUpVisit = js "visitor_1106724638" ∧
    getVisitorId followUpVisit ≠ getVisitorId firstVisit ∧
    (loader firstVisit plainEnv).variation? = some (js "A") ∧
    (loader followUpVisit plainEnv).variation? = some (js "B") := by
  rw [loader_firstVisit, loader_followUpVisit, getVisitorId_firstVisit,
    getVisitorId_followUpVisit]
  refine ⟨by decide, rfl, rfl, by decide, rfl, rfl⟩

theorem fillAll_mem (o : EventsByVariation) (perfs filled : List VariationPerformance)
    (h : fillAll o perfs = Except.ok filled) :
    ∀ p, p ∈ filled → ∃ perf variationEvents, p = fillPerformance perf variationEvents := by
  induction perfs generalizing filled with
  | nil =>
    simp only [fillAll, Except.ok.injEq] at h
    subst h
    intro p hp
    cases hp
  | cons perf rest ih =>
    simp only [fillAll] at h
    split at h
    · cases h
    · rename_i variationEvents _
      split at h
      · cases h
      · rename_i filledRest hrest
        simp only [Except.ok.injEq] at h
        subst h
        intro p hp
        rcases List.mem_cons.mp hp with rfl | hp
        · exact ⟨perf, variationEvents, rfl⟩
        · exact ih filledRest hrest p hp

theorem processEventsToAnalytics_mem (events : List Event) (test : Test) (a : Analytics)
    (h : processEventsToAnalytics events test = Except.ok a) :
    ∀ p, p ∈ a.variationPerformance →
      ∃ perf variationEvents, p = fillPerformance perf variationEvents := by
  simp only [processEventsToAnalytics] at h
  split at h
  · cases h
  · split at h
    · cases h
    · split at h
      · cases h
      · rename_i filled hfill
        simp only [Except.ok.injEq] at h
        subst h
        exact fillAll_mem _ _ _ hfill

theorem fillPerformance_conversionRate (perf : VariationPerformance)
    (variationEvents : List Event) :
    0 ≤ (fillPerformance perf variationEvents).conversionRate ∧
    ((fillPerformance perf variationEvents).visitors = 0 →
      (fillPerformance perf variationEvents).conversionRate = 0) ∧
    (0 < (fillPerformance perf variationEvents).visitors →
      ((fillPerformance perf variationEvents).conversionRate ≤ 100 ↔
        (fillPerformance perf variationEvents).conversions ≤
          (fillPerformance perf variationEvents).visitors)) := by
  obtain ⟨-, -, -, -, -, hrate, -⟩ := fillPerformance_fields perf variationEvents
  rw [hrate]
  generalize (fillPerformance perf variationEvents).visitors = v
  generalize (fillPerformance perf variationEvents).conversions = c
  refine ⟨?_, ?_, ?_⟩
  · split
    · exact le_refl 0
    · positivity
  · intro hv
    rw [if_pos hv]
  · intro hv
    rw [if_neg (by omega)]
    have hq : (0 : ℚ) < (v : ℚ) := by exact_mod_cast hv
    rw [div_mul_eq_mul_div, div_le_iff₀ hq]
    constructor
    · intro h
      have h2 : (c : ℚ) ≤ (v : ℚ) := by linarith
      exact_mod_cast h2
    · intro h
      have h2 : (c : ℚ) ≤ (v : ℚ) := by exact_mod_cast h
      linarith

/-- C29 (as amended): every rollup that `processEventsToAnalytics` returns has a
conversion rate that is at least 0, is 0 when the rollup has no visitors, and with
visitors is at most 100 exactly when its conversions do not exceed its visitors. -/
theorem conversionRate_bounds (events : List Event) (test : Test) (a : Analytics)
    (h : processEventsToAnalytics events test = Except.ok a) :
    ∀ p, p ∈ a.variationPerformance →
      0 ≤ p.conversionRate ∧
      (p.visitors = 0 → p.conversionRate = 0) ∧
      (0 < p.visitors → (p.conversionRate ≤ 100 ↔ p.conversions ≤ p.visitors)) := by
  intro p hp
  obtain ⟨perf, variationEvents, rfl⟩ := processEventsToAnalytics_mem events test a h p hp
  exact fillPerformance_conversionRate perf variationEvents

/-- C29, the claim as stated fails: one page view and two purchases of variation `A` give
the rollup of `A` 1 visitor, 2 conversions and the conversion rate 200, so visitors minus
conversions is -1. -/
theorem conversions_exceed_visitors :
    ∃ a, processEventsToAnalytics [pageViewA, purchaseA, purchaseA] plainTest = Except.ok a ∧
      a.variationPerformance.map
          (fun p => (p.variation, p.visitors, p.conversions, p.conversionRate))
        = [(js "A", 1, 2, 200), (js "B", 0, 0, 0)] ∧
      a.variationPerformance.map (fun p => (p.visitors : Int) - (p.conversions : Int))
        = [-1, 0] := by
  refine ⟨_, rfl, ?_, ?_⟩
  · have hA : [pageViewA, purchaseA, purchaseA].filter (fun e => e.type = js "page_view")
        = [pageViewA] := by decide
    have hP : [pageViewA, purchaseA, purchaseA].filter (fun e => e.type = js "purchase")
        = [purchaseA, purchaseA] := by decide
    simp [fillPerformance, initialPerformance, hA, hP]
    norm_num
  · rfl

theorem conversionRate_bounds_witness :
    ∃ a, processEventsToAnalytics [pageViewA, purchaseA, purchaseA] plainTest = Except.ok a ∧
      ∀ p, p ∈ a.variationPerformance →
        0 ≤ p.conversionRate ∧
        (p.visitors = 0 → p.conversionRate = 0) ∧
        (0 < p.visitors → (p.conversionRate ≤ 100 ↔ p.conversions ≤ p.visitors)) :=
  ⟨_, rfl, conversionRate_bounds [pageViewA, purchaseA, purchaseA] plainTest _ rfl⟩

theorem foldl_add_eq_sum (l : List ℚ) (init : ℚ) :
    l.foldl (fun sum val => sum + val) init = init + l.sum := by
  induction l generalizing init with
  | nil => simp
  | cons x rest ih => simp [List.foldl_cons, ih, add_assoc]

theorem rebalanceTraffic_eq (now : ℚ) (parameters : Parameters) (test : TestRecord)
    (variationPerformance : List VariationPerformance) (state : RunState) :
    rebalanceTraffic now (some parameters) test variationPerformance state =
      match rebalancedSplit parameters variationPerformance with
      | Except.error e => (Except.error e, state)
      | Except.ok newTrafficSplit =>
        if |newTrafficSplit.sum - 100| > 0.1 then
          (Except.error AutomationError.splitMustSumTo100, state)
        else
          match updateTest state.store
              (fun row => { row with trafficSplit := newTrafficSplit }) with
          | Except.error e => (Except.error e, state)
          | Except.ok store1 =>
            (Except.ok (ActionResult.rebalanceTraffic parameters.strategy test.trafficSplit
              newTrafficSplit),
              { state with
                store := logAutomationAction now test.id (js "rebalance_traffic")
                  (LogDetails.rebalanceTraffic parameters.strategy test.trafficSplit
                    newTrafficSplit) store1 }) := by
  simp only [rebalanceTraffic, rebalancedSplit, foldl_add_eq_sum, zero_add]

/-- With every numeric field of the parameters present and the sum taken exactly:
`rebalanceTraffic` returns a result only when the new split sums to within 0.1 of
100, and then the stored `trafficSplit` is the new split; whenever it throws, the
database (stored test and audit log) and the loaded test are as before; and for every
strategy whose split is computed, a sum further than 0.1 from 100 makes it throw
`Traffic split must sum to 100%`. A missing field makes the sum `NaN`, which passes
the check, see `rebalanceTraffic_accepts_nan_split`. -/
theorem rebalanceTraffic_sum_contract (now : ℚ) (parameters : Option Parameters)
    (test : TestRecord) (variationPerformance : List VariationPerformance) (state : RunState) :
    (∀ r s, rebalanceTraffic now parameters test variationPerformance state = (Except.ok r, s) →
      ∃ p newSplit, parameters = some p ∧
        rebalancedSplit p variationPerformance = Except.ok newSplit ∧
        r = ActionResult.rebalanceTraffic p.strategy test.trafficSplit newSplit ∧
        |newSplit.sum - 100| ≤ 0.1 ∧
        s.store.test =
          state.store.test.map (fun row => { row with trafficSplit := newSplit })) ∧
    (∀ e s, rebalanceTraffic now parameters test variationPerformance state
        = (Except.error e, s) → s = state) ∧
    (∀ p newSplit, parameters = some p →
      rebalancedSplit p variationPerformance = Except.ok newSplit →
      |newSplit.sum - 100| > 0.1 →
      rebalanceTraffic now parameters test variationPerformance state
        = (Except.error AutomationError.splitMustSumTo100, state)) := by
  cases parameters with
  | none =>
    refine ⟨?_, ?_, ?_⟩
    · intro r s h
      simp [rebalanceTraffic] at h
    · intro e s h
      simp only [rebalanceTraffic, Prod.mk.injEq] at h
      exact h.2.symm
    · intro p newSplit hp
      cases hp
  | some p =>
    rw [rebalanceTraffic_eq]
    cases hsplit : rebalancedSplit p variationPerformance with
    | error e0 =>
      refine ⟨?_, ?_, ?_⟩
      · intro r s h
        simp at h
      · intro e s h
        simp only [Prod.mk.injEq] at h
        exact h.2.symm
      · intro p1 newSplit hp h
        cases hp
        rw [hsplit] at h
        cases h
    | ok split =>
      by_cases hsum : |split.sum - 100| > 0.1
      · simp only [if_pos hsum]
        refine ⟨?_, ?_, ?_⟩
        · intro r s h
          simp at h
        · intro e s h
          simp only [Prod.mk.injEq] at h
          exact h.2.symm
        · intro p1 newSplit _ _ _
          trivial
      · simp only [if_neg hsum]
        refine ⟨?_, ?_, ?_⟩
        · intro r s h
          by_cases hu : state.store.updateAccepts = true
          · simp only [updateTest, if_pos hu, Prod.mk.injEq, Except.ok.injEq] at h
            obtain ⟨hr, hs⟩ := h
            refine ⟨p, split, rfl, hsplit, hr.symm, not_lt.mp hsum, ?_⟩
            subst hs
            simp only [logAutomationAction]
            split <;> rfl
          · simp [updateTest, hu] at h
        · intro e s h
          by_cases hu : state.store.updateAccepts = true
          · simp [updateTest, hu] at h
          · simp only [updateTest, if_neg hu, Prod.mk.injEq] at h
            exact h.2.symm
        · intro p1 newSplit hp h hgt
          cases hp
          rw [hsplit] at h
          cases h
          exact absurd hgt hsum

/-- Instances with numeric fields present: on two variations `equal_split` gives
`[50, 50]` and is stored and logged; the custom split `[60, 50]` and `winner_takes_more`
with bonus 70 and floor 40 (sum 110 each) throw and leave the state as it was. -/
theorem rebalanceTraffic_sum_contract_witness :
    (∃ s, rebalanceTraffic 0 (some (rebalanceParameters (js "equal_split") none))
        (automatedTest []) twoRollups (freshState []) =
          (Except.ok (ActionResult.rebalanceTraffic (js "equal_split") [50, 50] [50, 50]), s) ∧
        s.store.test.map (fun row => row.trafficSplit) = some [50, 50]) ∧
    rebalanceTraffic 0
        (some (rebalanceParameters (js "custom")
          (some { winnerBonus := 0, minTraffic := 0, customSplit := some [60, 50] })))
        (automatedTest []) twoRollups (freshState []) =
      (Except.error AutomationError.splitMustSumTo100, freshState []) ∧
    rebalanceTraffic 0
        (some (rebalanceParameters (js "winner_takes_more")
          (some { winnerBonus := 70, minTraffic := 40, customSplit := none })))
        (automatedTest []) twoRollups (freshState []) =
      (Except.error AutomationError.splitMustSumTo100, freshState []) := by
  have hcustom : rebalancedSplit (rebalanceParameters (js "custom")
      (some { winnerBonus := 0, minTraffic := 0, customSplit := some [60, 50] })) twoRollups
      = Except.ok [60, 50] := by rfl
  have hwinner : rebalancedSplit (rebalanceParameters (js "winner_takes_more")
      (some { winnerBonus := 70, minTraffic := 40, customSplit := none })) twoRollups
      = Except.ok [40, 70] := by
    with_unfolding_all rfl
  have hequal : ∃ s, rebalanceTraffic 0 (some (rebalanceParameters (js "equal_split") none))
      (automatedTest []) twoRollups (freshState []) =
        (Except.ok (ActionResult.rebalanceTraffic (js "equal_split") [50, 50] [50, 50]), s) := by
    have hsplit : rebalancedSplit (rebalanceParameters (js "equal_split") none) twoRollups
        = Except.ok [50, 50] := by
      with_unfolding_all rfl
    rw [rebalanceTraffic_eq, hsplit]
    simp only
    rw [if_neg (by norm_num)]
    exact ⟨_, rfl⟩
  obtain ⟨s, hs⟩ := hequal
  refine ⟨⟨s, hs, ?_⟩, ?_, ?_⟩
  · obtain ⟨p, newSplit, hp, hsplit, hr, -, hstore⟩ :=
      (rebalanceTraffic_sum_contract 0 _ (automatedTest []) twoRollups (freshState [])).1 _ _ hs
    simp only [ActionResult.rebalanceTraffic.injEq] at hr
    rw [hstore, ← hr.2.2]
    rfl
  · exact (rebalanceTraffic_sum_contract 0 _ (automatedTest []) twoRollups (freshState [])).2.2
      _ _ rfl hcustom (by norm_num)
  · exact (rebalanceTraffic_sum_contract 0 _ (automatedTest []) twoRollups (freshState [])).2.2
      _ _ rfl hwinner (by norm_num)

theorem updateTest_ok (store store1 : Store) (data : TestRecord → TestRecord)
    (h : updateTest store data = Except.ok store1) :
    store1.test = store.test.map data ∧ store1.automationLog = store.automationLog ∧
    store1.logAccepts = store.logAccepts ∧ store1.updateAccepts = store.updateAccepts := by
  unfold updateTest at h
  split at h
  · simp only [Except.ok.injEq] at h
    subst h
    exact ⟨rfl, rfl, rfl, rfl⟩
  · cases h

theorem logAutomationAction_accepted (now : ℚ) (testId action : JSString) (details : LogDetails)
    (store : Store) (h : store.logAccepts = true) :
    (logAutomationAction now testId action details store).automationLog =
      store.automationLog ++
        [{ testId := testId, action := action, details := details, timestamp := now }] ∧
    (logAutomationAction now testId action details store).test = store.test := by
  simp only [logAutomationAction, if_pos h, and_self]

theorem adjustPrice_logged (now : ℚ) (parameters : Option Parameters) (test : TestRecord)
    (variationPerformance : List VariationPerformance) (state s : RunState) (r : ActionResult)
    (hlog : state.store.logAccepts = true)
    (h : adjustPrice now parameters test variationPerformance state = (Except.ok r, s)) :
    ∃ details, details.toActionResult = r ∧
      s.store.automationLog = state.store.automationLog ++
        [{ testId := test.id, action := js "adjust_price", details := details,
           timestamp := now }] := by
  unfold adjustPrice at h
  split at h
  · simp at h
  · rename_i p
    split at h
    · simp at h
    · rename_i targetVariation _
      simp only at h
      split at h
      · simp at h
      · rename_i unroundedPrice _
        split at h
        · simp at h
        · rename_i store1 hupdate
          obtain ⟨-, hl, ha, -⟩ := updateTest_ok _ _ _ hupdate
          simp only [Prod.mk.injEq, Except.ok.injEq] at h
          obtain ⟨hr, hs⟩ := h
          subst hs hr
          refine ⟨LogDetails.adjustPrice p.variation targetVariation.price
            (applyRounding unroundedPrice p.rounding) p.adjustmentType p.adjustmentValue,
            rfl, ?_⟩
          rw [← hl]
          exact (logAutomationAction_accepted _ _ _ _ _ (ha.trans hlog)).1

theorem rebalanceTraffic_logged (now : ℚ) (parameters : Option Parameters) (test : TestRecord)
    (variationPerformance : List VariationPerformance) (state s : RunState) (r : ActionResult)
    (hlog : state.store.logAccepts = true)
    (h : rebalanceTraffic now parameters test variationPerformance state = (Except.ok r, s)) :
    ∃ details, details.toActionResult = r ∧
      s.store.automationLog = state.store.automationLog ++
        [{ testId := test.id, action := js "rebalance_traffic", details := details,
           timestamp := now }] := by
  unfold rebalanceTraffic at h
  split at h
  · simp at h
  · rename_i p
    simp only at h
    split at h
    · simp at h
    · rename_i newTrafficSplit _
      split at h
      · simp at h
      · split at h
        · simp at h
        · rename_i store1 hupdate
          obtain ⟨-, hl, ha, -⟩ := updateTest_ok _ _ _ hupdate
          simp only [Prod.mk.injEq, Except.ok.injEq] at h
          obtain ⟨hr, hs⟩ := h
          subst hs hr
          refine ⟨LogDetails.rebalanceTraffic p.strategy test.trafficSplit newTrafficSplit,
            rfl, ?_⟩
          rw [← hl]
          exact (logAutomationAction_accepted _ _ _ _ _ (ha.trans hlog)).1

theorem extendTest_logged (now : ℚ) (parameters : Option Parameters) (test : TestRecord)
    (state s : RunState) (r : ActionResult)
    (hlog : state.store.logAccepts = true)
    (h : extendTest now parameters test state = (Except.ok r, s)) :
    ∃ details, details.toActionResult = r ∧
      s.store.automationLog = state.store.automationLog ++
        [{ testId := test.id, action := js "extend_test", details := details,
           timestamp := now }] := by
  unfold extendTest at h
  split at h
  · simp at h
  · rename_i p
    simp only at h
    split at h
    · simp at h
    · rename_i store1 hupdate
      obtain ⟨-, hl, ha, -⟩ := updateTest_ok _ _ _ hupdate
      simp only [Prod.mk.injEq, Except.ok.injEq] at h
      obtain ⟨hr, hs⟩ := h
      subst hs hr
      refine ⟨LogDetails.extendTest p.extensionDays _ _ p.reason, rfl, ?_⟩
      rw [← hl]
      exact (logAutomationAction_accepted _ _ _ _ _ (ha.trans hlog)).1

theorem stopVariation_logged (now : ℚ) (parameters : Option Parameters) (test : TestRecord)
    (state s : RunState) (r : ActionResult)
    (hlog : state.store.logAccepts = true)
    (h : stopVariation now parameters test state = (Except.ok r, s)) :
    (∃ details, details.toActionResult = r ∧
      s.store.automationLog = state.store.automationLog ++
        [{ testId := test.id, action := js "stop_variation", details := details,
           timestamp := now }]) ∨
    (∃ p, parameters = some p ∧ p.variation ∈ state.stoppedVariations.getD [] ∧
      r = ActionResult.stopVariation p.variation p.reason ∧ s = state) := by
  unfold stopVariation at h
  split at h
  · simp at h
  · rename_i p
    simp only at h
    split at h
    · rename_i hmem
      simp only [Prod.mk.injEq, Except.ok.injEq] at h
      right
      refine ⟨p, rfl, ?_, h.1.symm, h.2.symm⟩
      simpa using hmem
    · split at h
      · simp at h
      · rename_i store1 hupdate
        obtain ⟨-, hl, ha, -⟩ := updateTest_ok _ _ _ hupdate
        simp only [Prod.mk.injEq, Except.ok.injEq] at h
        obtain ⟨hr, hs⟩ := h
        subst hs hr
        left
        refine ⟨LogDetails.stopVariation p.variation p.reason, rfl, ?_⟩
        rw [← hl]
        exact (logAutomationAction_accepted _ _ _ _ _ (ha.trans hlog)).1

/-- C22 (as amended): when the log store accepts writes and `processAutomationRule` reports
a rule as executed, the entry names the rule and the time of the run, and either exactly
one audit-log entry `{testId, action, details, timestamp}` for the action of the rule was
appended to the automation log, or the action is `stop_variation` of a variation that is
already in `stoppedVariations` of the loaded test, in which case nothing was written. -/
theorem executed_logged_unless_already_stopped (m : JSMath ℚ) (now : ℚ) (test : TestRecord)
    (rule : AutomationRule) (variationPerformance : List VariationPerformance)
    (state s : RunState) (ruleId : JSString) (actionResult : ActionResult) (timestamp : ℚ)
    (hlog : state.store.logAccepts = true)
    (h : processAutomationRule m now test rule variationPerformance state
      = (RuleResult.executed ruleId actionResult timestamp, s)) :
    ruleId = rule.id ∧ timestamp = now ∧
    ((∃ details, details.toActionResult = actionResult ∧
        s.store.automationLog = state.store.automationLog ++
          [{ testId := test.id, action := rule.action, details := details,
             timestamp := now }]) ∨
     (rule.action = js "stop_variation" ∧
      ∃ p, rule.parameters = some p ∧ p.variation ∈ state.stoppedVariations.getD [] ∧
        actionResult = ActionResult.stopVariation p.variation p.reason ∧ s = state)) := by
  unfold processAutomationRule at h
  split at h
  · simp at h
  · simp at h
  · split at h
    · simp at h
    · rename_i r0 s0 hexec
      simp only [Prod.mk.injEq, RuleResult.executed.injEq] at h
      obtain ⟨⟨hid, hr, ht⟩, hs⟩ := h
      subst hr hs
      refine ⟨hid.symm, ht.symm, ?_⟩
      unfold executeAction at hexec
      split at hexec
      · rename_i ha
        rw [ha]
        exact Or.inl (adjustPrice_logged _ _ _ _ _ _ _ hlog hexec)
      · split at hexec
        · rename_i ha
          rw [ha]
          rcases stopVariation_logged _ _ _ _ _ _ hlog hexec with hl | hr
          · exact Or.inl hl
          · exact Or.inr ⟨rfl, hr⟩
        · split at hexec
          · rename_i ha
            rw [ha]
            exact Or.inl (rebalanceTraffic_logged _ _ _ _ _ _ _ hlog hexec)
          · split at hexec
            · rename_i ha
              rw [ha]
              exact Or.inl (extendTest_logged _ _ _ _ _ _ hlog hexec)
            · simp at hexec

/-- Witness for C22 (as amended): rule `r2` stops `B` on a fresh run and the entry is
appended to the empty log. -/
theorem executed_logged_unless_already_stopped_witness :
    (freshState [stopBRule]).store.logAccepts = true ∧
    ∃ s, processAutomationRule unusedMath 0 (automatedTest [stopBRule]) stopBRule
        [performanceOf (js "A") true 1 0] (freshState [stopBRule]) =
      (RuleResult.executed (js "r2")
        (ActionResult.stopVariation (js "B") (js "low performance")) 0, s) ∧
      js "r2" = stopBRule.id ∧ (0 : ℚ) = 0 ∧
      ((∃ details,
          details.toActionResult = ActionResult.stopVariation (js "B") (js "low performance") ∧
          s.store.automationLog = (freshState [stopBRule]).store.automationLog ++
            [{ testId := (automatedTest [stopBRule]).id, action := stopBRule.action,
               details := details, timestamp := 0 }]) ∨
       (stopBRule.action = js "stop_variation" ∧
        ∃ p, stopBRule.parameters = some p ∧
          p.variation ∈ (freshState [stopBRule]).stoppedVariations.getD [] ∧
          ActionResult.stopVariation (js "B") (js "low performance")
            = ActionResult.stopVariation p.variation p.reason ∧
          s = freshState [stopBRule])) :=
  ⟨rfl, _, rfl,
    executed_logged_unless_already_stopped unusedMath 0 (automatedTest [stopBRule])
      stopBRule [performanceOf (js "A") true 1 0] (freshState [stopBRule]) _ (js "r2")
      (ActionResult.stopVariation (js "B") (js "low performance")) 0 rfl rfl⟩

/-- C22, the claim as stated fails: rules `r2` and `r4` both stop `B` in one run on a
store that accepts every write. Both are reported with `executed = true`, and the audit
log holds a single entry: the second `stopVariation` finds `B` already in
`stoppedVariations` and returns success without logging. -/
theorem executed_without_log_entry :
    (automatedStore [stopBRule, stopBAgainRule]).logAccepts = true ∧
    (processAutomationRules unusedMath 0 [pageViewA]
        (automatedStore [stopBRule, stopBAgainRule])).1 =
      RunOutcome.processed
        [RuleResult.executed (js "r2")
           (ActionResult.stopVariation (js "B") (js "low performance")) 0,
         RuleResult.executed (js "r4")
           (ActionResult.stopVariation (js "B") (js "low performance")) 0] ∧
    (processAutomationRules unusedMath 0 [pageViewA]
        (automatedStore [stopBRule, stopBAgainRule])).2.automationLog =
      [{ testId := js "t4", action := js "stop_variation",
         details := LogDetails.stopVariation (js "B") (js "low performance"),
         timestamp := 0 }] := by
  refine ⟨rfl, ?_, ?_⟩
  · with_unfolding_all rfl
  · with_unfolding_all rfl

theorem durationInMs_add (duration extension : ℚ) (durationUnit : JSString) :
    durationInMs (duration + extension) durationUnit
      = durationInMs duration durationUnit + durationInMs extension durationUnit := by
  unfold durationInMs
  split
  · ring
  · split
    · ring
    · split <;> ring

/-- C23, failing input: a running test of 2 weeks is extended by `extensionDays = 3`.
`extendTest` stores `duration = 5`, clears `completedAt` and leaves `durationUnit = weeks`,
so the lifetime the completion check computes grows from 14 days to 35 days: by 21 days,
not by 3. On day 20, past 2 weeks and 3 days, the extended test is not due. -/
theorem extendTest_ignores_durationUnit :
    scheduledLifetime twoWeekTest = some (14 * millisecondsPerDay) ∧
    ∃ s, extendTest 0 (some (extendParameters 3)) twoWeekTest (stateOf twoWeekTest) =
        (Except.ok (ActionResult.extendTest 3 2 5), s) ∧
      s.store.test.map (fun row => (row.duration, row.durationUnit, row.completedAt))
        = some (some 5, some (js "weeks"), none) ∧
      s.store.test.bind scheduledLifetime = some (35 * millisecondsPerDay) ∧
      (35 * millisecondsPerDay - 14 * millisecondsPerDay = 21 * millisecondsPerDay) ∧
      (21 * millisecondsPerDay ≠ 3 * millisecondsPerDay) ∧
      s.store.test.map (isDueForCompletion (20 * millisecondsPerDay)) = some false := by
  refine ⟨by with_unfolding_all rfl, _, by with_unfolding_all rfl, by with_unfolding_all rfl,
    by with_unfolding_all rfl, ?_, ?_, by with_unfolding_all rfl⟩
  · norm_num [millisecondsPerDay]
  · norm_num [millisecondsPerDay]

/-- C26, failing input: both prices of the test are positive; rule `r5` lowers the price of
`B` (12) by 150 percent. `adjustPrice` accepts the adjustment and stores the price -6. -/
theorem adjustPrice_stores_negative_price :
    storedPrices (automatedStore [discountBRule])
      = some [(js "A", some 10), (js "B", some 12)] ∧
    (processAutomationRules unusedMath 0 [pageViewA] (automatedStore [discountBRule])).1 =
      RunOutcome.processed
        [RuleResult.executed (js "r5") (ActionResult.adjustPrice (js "B") (some 12) (-6)) 0] ∧
    storedPrices
        (processAutomationRules unusedMath 0 [pageViewA] (automatedStore [discountBRule])).2
      = some [(js "A", some 10), (js "B", some (-6))] := by
  refine ⟨by with_unfolding_all rfl, by with_unfolding_all rfl, by with_unfolding_all rfl⟩

/-- C28, failing input: rule `r6` sets the price of `A` to 11 and rule `r7` sets the price
of `B` to 13 in one run. Both are reported as executed, and the stored test ends with `A`
at its old price 10: the second write maps over the variations of the test as loaded
before the run. -/
theorem second_adjustment_restores_first_price :
    (processAutomationRules unusedMath 0 [pageViewA] (automatedStore [setARule, setBRule])).1 =
      RunOutcome.processed
        [RuleResult.executed (js "r6") (ActionResult.adjustPrice (js "A") (some 10) 11) 0,
         RuleResult.executed (js "r7") (ActionResult.adjustPrice (js "B") (some 12) 13) 0] ∧
    storedPrices
        (processAutomationRules unusedMath 0 [pageViewA] (automatedStore [setARule])).2
      = some [(js "A", some 11), (js "B", some 12)] ∧
    storedPrices
        (processAutomationRules unusedMath 0 [pageViewA]
          (automatedStore [setARule, setBRule])).2
      = some [(js "A", some 10), (js "B", some 13)] := by
  refine ⟨by with_unfolding_all rfl, by with_unfolding_all rfl, by with_unfolding_all rfl⟩

theorem adjustPrice_stored_variations (now : ℚ) (parameters : Option Parameters)
    (test : TestRecord) (variationPerformance : List VariationPerformance)
    (state s : RunState) (r : ActionResult)
    (h : adjustPrice now parameters test variationPerformance state = (Except.ok r, s)) :
    ∃ p oldPrice newPrice, parameters = some p ∧
      r = ActionResult.adjustPrice p.variation oldPrice newPrice ∧
      s.store.test = state.store.test.map (fun row =>
        { row with
          variations := test.variations.map (fun v =>
            if v.label = p.variation then { v with price := some newPrice } else v) }) := by
  unfold adjustPrice at h
  split at h
  · simp at h
  · rename_i p
    split at h
    · simp at h
    · rename_i targetVariation _
      simp only at h
      split at h
      · simp at h
      · rename_i unroundedPrice _
        split at h
        · simp at h
        · rename_i store1 hupdate
          unfold updateTest at hupdate
          split at hupdate
          · simp only [Except.ok.injEq] at hupdate
            simp only [Prod.mk.injEq, Except.ok.injEq] at h
            obtain ⟨hr, hs⟩ := h
            subst hs hr hupdate
            refine ⟨p, targetVariation.price, applyRounding unroundedPrice p.rounding,
              rfl, rfl, ?_⟩
            simp only [logAutomationAction]
            split <;> rfl
          · cases hupdate

section

variable {α : Type} [LinearOrderedField α] [FloorRing α]

theorem significance_of_winner (m : JSMath α) (perfs : List VariationPerformance)
    (c : JSString) (control : VariationPerformance) (w : StatisticalResult α) (hne : c ≠ [])
    (hc : perfs.find? (fun p => p.variation = c) = some control)
    (ht : perfs.filter (fun p => p.variation ≠ c) ≠ [])
    (hw : winnerResult ((perfs.filter (fun p => p.variation ≠ c)).map
        (variationResult m control)) = some w) :
    (calculateStatisticalSignificance m perfs (some c)).winner = some w.variation ∧
    (calculateStatisticalSignificance m perfs (some c)).lift = w.lift := by
  cases c with
  | nil => exact absurd rfl hne
  | cons u us =>
    have hlen : ¬ (perfs.filter (fun p => p.variation ≠ u :: us)).length = 0 := by
      simpa [List.length_eq_zero] using ht
    simp only [calculateStatisticalSignificance, hc, if_neg hlen, hw]
    exact ⟨trivial, trivial⟩

omit [FloorRing α] in
theorem winnerResult_singleton (r : StatisticalResult α) (h : r.isSignificant = true) :
    winnerResult [r] = some r := by
  have hb : betterOf r r = r := by
    unfold betterOf
    split <;> rfl
  simp only [winnerResult, bestVariation, List.foldl, hb, if_pos h]

end

theorem worseSampleB_result :
    (variationResult realMath controlHalf worseSampleB).isSignificant = true ∧
    (variationResult realMath controlHalf worseSampleB).lift = -10 ∧
    (variationResult realMath controlHalf worseSampleB).variation = js "B" := by
  have hl : rawLift controlHalf worseSampleB = (-10 : ℝ) := by
    norm_num [rawLift, performanceOf, controlHalf, worseSampleB]
  have hu : useFisher controlHalf worseSampleB = false := by decide
  have hχ : chiSquareStatistic (50000 : ℝ) 100000 45000 100000 = 200000 / 399 := by
    norm_num [chiSquareStatistic]
  have hs : selectedOutcome realMath controlHalf worseSampleB =
      chiSquareTest realMath 50000 100000 45000 100000 := by
    rw [selectedOutcome_of_large _ _ _ hu]
    norm_num [performanceOf, controlHalf, worseSampleB]
  have hp := real_chiSquare_pValue_bounds 50000 100000 45000 100000 (by rw [hχ]; norm_num)
  rw [hχ] at hp
  rw [variationResult_of_pos_visitors realMath _ _ (by decide) (by decide)]
  simp only [hl, hs]
  refine ⟨?_, ?_, rfl⟩
  · rw [decide_eq_true_eq]
    constructor
    · refine lt_of_le_of_lt hp.2 ?_
      norm_num
    · rw [abs_of_nonpos (by norm_num)]
      norm_num
  · have h1 : mathRound ((-10 : ℝ) * 10) = ((-100 : Int) : ℝ) :=
      mathRound_eq_of _ (-100) (by norm_num) (by norm_num)
    rw [h1]
    norm_num

/-- C27, evaluated at the failing input: against control `A` (50000 of 100000) the only
variant `B` (45000 of 100000) is significant with lift -10; it is the initial value of the
reduction, nothing replaces it, and the engine reports the winner `B` with lift -10. -/
theorem winner_with_negative_lift :
    (variationResult realMath controlHalf worseSampleB).isSignificant = true ∧
    (variationResult realMath controlHalf worseSampleB).lift = -10 ∧
    (calculateStatisticalSignificance realMath [controlHalf, worseSampleB]
        (some (js "A"))).winner = some (js "B") ∧
    (calculateStatisticalSignificance realMath [controlHalf, worseSampleB]
        (some (js "A"))).lift = -10 := by
  have hB := worseSampleB_result
  have hfind : [controlHalf, worseSampleB].find? (fun p => p.variation = js "A")
      = some controlHalf := by
    rfl
  have hfilter : [controlHalf, worseSampleB].filter
      (fun p => p.variation ≠ js "A") = [worseSampleB] := by
    rfl
  have h := significance_of_winner realMath [controlHalf, worseSampleB] (js "A")
    controlHalf (variationResult realMath controlHalf worseSampleB) (by decide) hfind
    (by rw [hfilter]; simp)
    (by rw [hfilter]; exact winnerResult_singleton _ hB.1)
  rw [hB.2.1, hB.2.2] at h
  exact ⟨hB.1, hB.2.1, h.1, h.2⟩

theorem recommendedWinner_first {α : Type} (analyzed : List (AnalyzedVariation α))
    (h : ∃ v, v ∈ analyzed ∧ v.isWinner = true) :
    ∃ before w after, analyzed = before ++ w :: after ∧
      (∀ v, v ∈ before → v.isWinner = false) ∧ w.isWinner = true ∧
      DetailView.recommendedWinner analyzed = some w := by
  obtain ⟨v, hv, hw⟩ := h
  cases hfind : analyzed.find? (fun v => v.isWinner) with
  | none =>
    rw [List.find?_eq_none] at hfind
    exact absurd hw (hfind v hv)
  | some w =>
    have hrec : DetailView.recommendedWinner analyzed = some w := by
      simp only [DetailView.recommendedWinner, hfind]
    rw [List.find?_eq_some] at hfind
    obtain ⟨hwin, before, after, heq, hbefore⟩ := hfind
    refine ⟨before, w, after, heq, ?_, hwin, hrec⟩
    intro u hu
    simpa using hbefore u hu

section

variable {α : Type} [LinearOrderedField α] [FloorRing α]

theorem analyzeVariation_isWinner (m : JSMath α) (ctx : DetailContext) (controlMetric : α)
    (variant : VariationPerformance) :
    (DetailView.analyzeVariation m ctx controlMetric variant).isWinner = true ↔
      (DetailView.analyzeVariation m ctx controlMetric variant).status = js "Winner" := by
  simp only [DetailView.analyzeVariation, decide_eq_true_eq]

/-- C30 (as amended): whenever at least one analyzed variation is graded `Winner`, the
recommended winner of the detail view is the first `Winner`-graded entry in the order of
the variations, whatever the improvements of the later ones. -/
theorem recommended_winner_is_first_winner (m : JSMath α) (ctx : DetailContext)
    (variations : List VariationPerformance) (control : VariationPerformance)
    (h : ∃ v, v ∈ (DetailView.calculateStatisticalSignificance m ctx variations
      control).variations ∧ v.status = js "Winner") :
    ∃ before w after,
      (DetailView.calculateStatisticalSignificance m ctx variations control).variations
        = before ++ w :: after ∧
      (∀ v, v ∈ before → v.status ≠ js "Winner") ∧ w.status = js "Winner" ∧
      (DetailView.calculateStatisticalSignificance m ctx variations control).winner
        = some w := by
  have hstatus : ∀ v, v ∈ (DetailView.calculateStatisticalSignificance m ctx variations
      control).variations → (v.isWinner = true ↔ v.status = js "Winner") := by
    intro v hv
    simp only [DetailView.calculateStatisticalSignificance, List.mem_map] at hv
    obtain ⟨p, -, rfl⟩ := hv
    exact analyzeVariation_isWinner m ctx _ p
  obtain ⟨v, hv, hw⟩ := h
  obtain ⟨before, w, after, heq, hbefore, hwin, hrec⟩ :=
    recommendedWinner_first
      (DetailView.calculateStatisticalSignificance m ctx variations control).variations
      ⟨v, hv, (hstatus v hv).mpr hw⟩
  refine ⟨before, w, after, heq, ?_, ?_, hrec⟩
  · intro u hu hs
    have hmem : u ∈ (DetailView.calculateStatisticalSignificance m ctx variations
        control).variations := by
      rw [heq]
      exact List.mem_append_left _ hu
    have := (hstatus u hmem).mpr hs
    rw [hbefore u hu] at this
    cases this
  · have hmem : w ∈ (DetailView.calculateStatisticalSignificance m ctx variations
        control).variations := by
      rw [heq]
      simp
    exact (hstatus w hmem).mp hwin

end

theorem realMath_sqrt_40000 : realMath.sqrt ((40000 : Nat) : ℝ) = 200 := by
  have h : ((40000 : Nat) : ℝ) = 200 ^ 2 := by norm_num
  rw [h]
  exact Real.sqrt_sq (by norm_num)

theorem getGoalMetric_revenueRollup (variation : JSString) (isControl : Bool) (revenue : ℚ) :
    DetailView.getGoalMetric firstDayContext (revenueRollup variation isControl revenue)
      = (revenue : ℝ) / 40000 := by
  unfold DetailView.getGoalMetric
  simp only []
  rw [if_neg (by decide), if_neg (by decide), if_neg (by decide)]
  simp [revenueRollup, performanceOf]

theorem confidence_of_40000 (improvement : ℝ) :
    DetailView.confidence realMath 0 improvement 40000 = 95 := by
  unfold DetailView.confidence
  rw [realMath_sqrt_40000]
  have h : (0 : ℝ) ≤ |improvement| := abs_nonneg _
  rw [min_eq_left]
  refine le_trans ?_ (le_max_right _ _)
  norm_num
  linarith

theorem analyzeVariation_revenueRollup (variation : JSString) (isControl : Bool)
    (revenue : ℚ) :
    DetailView.analyzeVariation realMath firstDayContext (1 : ℝ)
        (revenueRollup variation isControl revenue) =
      { variant := revenueRollup variation isControl revenue,
        improvement := ((revenue : ℝ) / 40000 - 1) * 100,
        confidence := 95,
        status := DetailView.status false (95 : ℝ) (((revenue : ℝ) / 40000 - 1) * 100) 40000,
        isWinner := DetailView.status false (95 : ℝ) (((revenue : ℝ) / 40000 - 1) * 100) 40000
          = js "Winner" } := by
  have hd : DetailView.testDuration firstDayContext = 0 := by
    simp [DetailView.testDuration, firstDayContext]
  have himp : DetailView.improvement (1 : ℝ) ((revenue : ℝ) / 40000)
      = ((revenue : ℝ) / 40000 - 1) * 100 := by
    simp [DetailView.improvement]
  have hv : (revenueRollup variation isControl revenue).visitors = 40000 := rfl
  have hs : (decide (firstDayContext.status = js "Stopped")) = false := by decide
  have hr : mathRound (95 : ℝ) = 95 := by
    have := mathRound_intCast (95 : Int) (α := ℝ)
    simpa using this
  simp only [DetailView.analyzeVariation, getGoalMetric_revenueRollup, hd, himp, hv,
    confidence_of_40000, hs, hr]

theorem revenueRollups_analysis :
    (DetailView.calculateStatisticalSignificance realMath firstDayContext revenueRollups
        (revenueRollup (js "A") true 40000)).variations.map
        (fun v => (v.variant.variation, v.improvement, v.status)) =
      [(js "A", 0, js "Not Significant"), (js "B", 10, js "Winner"),
       (js "C", 50, js "Winner")] ∧
    (DetailView.calculateStatisticalSignificance realMath firstDayContext revenueRollups
        (revenueRollup (js "A") true 40000)).winner.map
        (fun w => (w.variant.variation, w.improvement)) = some (js "B", 10) := by
  have hc : DetailView.getGoalMetric firstDayContext (revenueRollup (js "A") true 40000)
      = (1 : ℝ) := by
    rw [getGoalMetric_revenueRollup]
    norm_num
  have hA : DetailView.status false (95 : ℝ) ((((40000 : ℚ) : ℝ) / 40000 - 1) * 100) 40000
      = js "Not Significant" := by
    norm_num [DetailView.status]
  have hB : DetailView.status false (95 : ℝ) ((((44000 : ℚ) : ℝ) / 40000 - 1) * 100) 40000
      = js "Winner" := by
    norm_num [DetailView.status]
  have hC : DetailView.status false (95 : ℝ) ((((60000 : ℚ) : ℝ) / 40000 - 1) * 100) 40000
      = js "Winner" := by
    norm_num [DetailView.status]
  have hne : js "Not Significant" ≠ js "Winner" := by decide
  simp only [DetailView.calculateStatisticalSignificance, hc, revenueRollups, List.map,
    analyzeVariation_revenueRollup, hA, hB, hC, DetailView.recommendedWinner, List.find?,
    decide_eq_true_eq, hne, decide_False, decide_True, Option.map]
  constructor
  · norm_num [revenueRollup, performanceOf]
  · norm_num [revenueRollup, performanceOf]

/-- C30, the claim as stated fails: against control `A` (revenue per visitor 1) variant `B`
improves by 10 percent and variant `C` by 50 percent; both are graded `Winner`, and the
recommended winner is `B`, the first of them, not `C` with the greatest improvement. -/
theorem recommended_winner_not_greatest_improvement :
    (DetailView.calculateStatisticalSignificance realMath firstDayContext revenueRollups
        (revenueRollup (js "A") true 40000)).variations.map
        (fun v => (v.variant.variation, v.improvement, v.status)) =
      [(js "A", 0, js "Not Significant"), (js "B", 10, js "Winner"),
       (js "C", 50, js "Winner")] ∧
    (DetailView.calculateStatisticalSignificance realMath firstDayContext revenueRollups
        (revenueRollup (js "A") true 40000)).winner.map
        (fun w => (w.variant.variation, w.improvement)) = some (js "B", 10) ∧
    (10 : ℝ) < 50 :=
  ⟨revenueRollups_analysis.1, revenueRollups_analysis.2, by norm_num⟩

theorem revenueRollups_has_winner :
    ∃ v, v ∈ (DetailView.calculateStatisticalSignificance realMath firstDayContext
      revenueRollups (revenueRollup (js "A") true 40000)).variations ∧
      v.status = js "Winner" := by
  have h := revenueRollups_analysis.1
  have hmem : (js "B", (10 : ℝ), js "Winner") ∈
      (DetailView.calculateStatisticalSignificance realMath firstDayContext revenueRollups
        (revenueRollup (js "A") true 40000)).variations.map
        (fun v => (v.variant.variation, v.improvement, v.status)) := by
    rw [h]
    simp
  obtain ⟨v, hv, hf⟩ := List.mem_map.mp hmem
  refine ⟨v, hv, ?_⟩
  simp only [Prod.mk.injEq] at hf
  exact hf.2.2

/-- Witness for C30 (as amended): the rollups `A`, `B`, `C` above, where `B` and `C` are
graded `Winner`. -/
theorem recommended_winner_is_first_winner_witness :
    ∃ before w after,
      (DetailView.calculateStatisticalSignificance realMath firstDayContext revenueRollups
        (revenueRollup (js "A") true 40000)).variations = before ++ w :: after ∧
      (∀ v, v ∈ before → v.status ≠ js "Winner") ∧ w.status = js "Winner" ∧
      (DetailView.calculateStatisticalSignificance realMath firstDayContext revenueRollups
        (revenueRollup (js "A") true 40000)).winner = some w :=
  recommended_winner_is_first_winner realMath firstDayContext revenueRollups
    (revenueRollup (js "A") true 40000) revenueRollups_has_winner

/-! ## Theorems: double-precision arithmetic -/

theorem pow2_eq_zpow (e : Int) : pow2 e = (2 : ℚ) ^ e := by
  unfold pow2
  split
  · rename_i h
    have h1 : ((e.toNat : Int)) = e := Int.toNat_of_nonneg h
    conv_rhs => rw [← h1]
    rw [zpow_natCast]
    push_cast
    rfl
  · rename_i h
    have h0 : 0 ≤ -e := by omega
    have h1 : (((-e).toNat : Int)) = -e := Int.toNat_of_nonneg h0
    have h2 : e = -(((-e).toNat : Int)) := by omega
    conv_rhs => rw [h2]
    rw [zpow_neg, zpow_natCast]
    push_cast
    rw [one_div]

theorem pow2_pos (e : Int) : 0 < pow2 e := by
  rw [pow2_eq_zpow]
  positivity

theorem leadingBit_spec (fuel : Nat) : ∀ n : Nat, n ≤ fuel → n ≠ 0 →
    2 ^ leadingBit fuel n ≤ n ∧ n < 2 ^ (leadingBit fuel n + 1) := by
  induction fuel with
  | zero =>
    intro n h1 h2
    omega
  | succ k ih =>
    intro n h1 h2
    unfold leadingBit
    split
    · constructor
      · simp only [pow_zero]
        omega
      · simp only [zero_add, pow_one]
        omega
    · rename_i hn
      have h3 : n / 2 ≤ k := by omega
      have h4 : n / 2 ≠ 0 := by omega
      obtain ⟨ih1, ih2⟩ := ih (n / 2) h3 h4
      constructor
      · rw [pow_succ]
        omega
      · rw [pow_succ]
        omega

theorem binaryExponent_spec (x : ℚ) (hx : 0 < x) :
    pow2 (binaryExponent x) ≤ x ∧ x < pow2 (binaryExponent x + 1) := by
  have hnum : 0 < x.num := Rat.num_pos.mpr hx
  have hden : 0 < x.den := x.den_pos
  set a := leadingBit x.num.natAbs x.num.natAbs with ha
  set b := leadingBit x.den x.den with hb
  have hn0 : x.num.natAbs ≠ 0 := by omega
  have hd0 : x.den ≠ 0 := by omega
  obtain ⟨ha1, ha2⟩ := leadingBit_spec x.num.natAbs x.num.natAbs le_rfl hn0
  obtain ⟨hb1, hb2⟩ := leadingBit_spec x.den x.den le_rfl hd0
  rw [← ha] at ha1 ha2
  rw [← hb] at hb1 hb2
  have hxe : x = (x.num.natAbs : ℚ) / (x.den : ℚ) := by
    have h1 : (x.num.natAbs : Int) = x.num := Int.natAbs_of_nonneg (le_of_lt hnum)
    have h2 : ((x.num.natAbs : Nat) : ℚ) = ((x.num : Int) : ℚ) := by
      rw [Nat.cast_natAbs, abs_of_pos hnum]
    rw [h2]
    exact (Rat.num_div_den x).symm
  have hdq : (0 : ℚ) < (x.den : ℚ) := by exact_mod_cast hden
  have ha1q : (2 : ℚ) ^ a ≤ (x.num.natAbs : ℚ) := by exact_mod_cast ha1
  have ha2q : (x.num.natAbs : ℚ) < (2 : ℚ) ^ (a + 1) := by exact_mod_cast ha2
  have hb1q : (2 : ℚ) ^ b ≤ (x.den : ℚ) := by exact_mod_cast hb1
  have hb2q : (x.den : ℚ) < (2 : ℚ) ^ (b + 1) := by exact_mod_cast hb2
  have hpa : (0 : ℚ) < (2 : ℚ) ^ a := by positivity
  have hpb : (0 : ℚ) < (2 : ℚ) ^ b := by positivity
  -- the two outer bounds
  have hlow : (2 : ℚ) ^ ((a : Int) - (b : Int) - 1) < x := by
    have : (2 : ℚ) ^ ((a : Int) - (b : Int) - 1) = (2 : ℚ) ^ a / (2 : ℚ) ^ (b + 1) := by
      rw [zpow_sub₀ (by norm_num), zpow_sub₀ (by norm_num), zpow_natCast, zpow_natCast,
        zpow_one, pow_succ, div_div]
    rw [this, hxe, div_lt_div_iff₀ (by positivity) hdq]
    calc (2 : ℚ) ^ a * (x.den : ℚ) < (2 : ℚ) ^ a * (2 : ℚ) ^ (b + 1) :=
          mul_lt_mul_of_pos_left hb2q hpa
      _ ≤ (x.num.natAbs : ℚ) * (2 : ℚ) ^ (b + 1) :=
          mul_le_mul_of_nonneg_right ha1q (by positivity)
  have hhigh : x < (2 : ℚ) ^ ((a : Int) - (b : Int) + 1) := by
    have : (2 : ℚ) ^ ((a : Int) - (b : Int) + 1) = (2 : ℚ) ^ (a + 1) / (2 : ℚ) ^ b := by
      rw [zpow_add₀ (by norm_num), zpow_sub₀ (by norm_num), zpow_natCast, zpow_natCast,
        zpow_one, pow_succ]
      ring
    rw [this, hxe, div_lt_div_iff₀ hdq hpb]
    calc (x.num.natAbs : ℚ) * (2 : ℚ) ^ b < (2 : ℚ) ^ (a + 1) * (2 : ℚ) ^ b :=
          mul_lt_mul_of_pos_right ha2q hpb
      _ ≤ (2 : ℚ) ^ (a + 1) * (x.den : ℚ) :=
          mul_le_mul_of_nonneg_left hb1q (by positivity)
  unfold binaryExponent
  simp only [← ha, ← hb, pow2_eq_zpow]
  split
  · rename_i hlt
    refine ⟨le_of_lt hlow, ?_⟩
    have : (a : Int) - (b : Int) - 1 + 1 = (a : Int) - (b : Int) := by ring
    rw [this]
    exact hlt
  · rename_i hge
    exact ⟨not_lt.mp hge, hhigh⟩

theorem roundHalfEven_err (q : ℚ) : |((roundHalfEven q : Int) : ℚ) - q| ≤ 1 / 2 := by
  have h1 : ((⌊q⌋ : Int) : ℚ) ≤ q := Int.floor_le q
  have h2 : q < ((⌊q⌋ : Int) : ℚ) + 1 := Int.lt_floor_add_one q
  unfold roundHalfEven
  simp only
  split
  · rw [abs_le]
    constructor <;> linarith
  · split
    · push_cast
      rw [abs_le]
      constructor <;> linarith
    · rename_i h3 h4
      have h5 : q - ((⌊q⌋ : Int) : ℚ) = 1 / 2 := le_antisymm (not_lt.mp h4) (not_lt.mp h3)
      split
      · rw [abs_le]
        constructor <;> linarith
      · push_cast
        rw [abs_le]
        constructor <;> linarith

/-- The rounding error of `roundToDouble`: at most the relative error `2 ^ (-53)`, plus
the absolute error `2 ^ (-1075)` of the subnormal range. -/
theorem roundToDouble_err (x : ℚ) :
    |roundToDouble x - x| ≤ |x| / 2 ^ 53 + 1 / 2 ^ 1075 := by
  unfold roundToDouble
  split
  · rename_i h0
    rw [h0]
    simp
  · rename_i h0
    have hpos : 0 < |x| := abs_pos.mpr h0
    obtain ⟨hlo, -⟩ := binaryExponent_spec |x| hpos
    set e := max (binaryExponent |x|) (-1022) with he
    set ulp := pow2 (e - 52) with hulp
    have hulp_pos : 0 < ulp := pow2_pos _
    have herr := roundHalfEven_err (|x| / ulp)
    set n := roundHalfEven (|x| / ulp) with hn
    have hmain : abs ((n : ℚ) * ulp - abs x) ≤ ulp / 2 := by
      have h1 : (n : ℚ) * ulp - |x| = ((n : ℚ) - |x| / ulp) * ulp := by
        field_simp
      rw [h1, abs_mul, abs_of_pos hulp_pos]
      calc |(n : ℚ) - |x| / ulp| * ulp ≤ 1 / 2 * ulp :=
            mul_le_mul_of_nonneg_right herr (le_of_lt hulp_pos)
        _ = ulp / 2 := by ring
    have hulp_le : ulp / 2 ≤ |x| / 2 ^ 53 + 1 / 2 ^ 1075 := by
      have hz : ulp = (2 : ℚ) ^ e / 2 ^ 52 := by
        rw [hulp, pow2_eq_zpow, zpow_sub₀ (by norm_num)]
        norm_cast
      rcases le_total (binaryExponent |x|) (-1022) with hc | hc
      · have he1 : e = -1022 := by rw [he]; exact max_eq_right hc
        have : ulp / 2 = 1 / 2 ^ 1075 := by
          rw [hz, he1, zpow_neg]
          norm_num
        rw [this]
        have : 0 ≤ |x| / 2 ^ 53 := by positivity
        linarith
      · have he1 : e = binaryExponent |x| := by rw [he]; exact max_eq_left hc
        have h2 : (2 : ℚ) ^ e ≤ |x| := by
          rw [he1, ← pow2_eq_zpow]
          exact hlo
        have : ulp / 2 = (2 : ℚ) ^ e / 2 ^ 53 := by
          rw [hz]
          ring
        rw [this]
        have h3 : (2 : ℚ) ^ e / 2 ^ 53 ≤ |x| / 2 ^ 53 :=
          div_le_div_of_nonneg_right h2 (by positivity)
        have : (0 : ℚ) ≤ 1 / 2 ^ 1075 := by positivity
        linarith
    split
    · rename_i hneg
      have hx : |x| = -x := abs_of_neg hneg
      have : -((n : ℚ) * ulp) - x = -((n : ℚ) * ulp - |x|) := by rw [hx]; ring
      rw [this, abs_neg]
      exact le_trans hmain hulp_le
    · rename_i hneg
      have hx : |x| = x := abs_of_nonneg (not_lt.mp hneg)
      have : (n : ℚ) * ulp - x = (n : ℚ) * ulp - |x| := by rw [hx]
      rw [this]
      exact le_trans hmain hulp_le

theorem cumulativeBefore_add {N : Type} (ops : NumberOps N) (trafficSplit : List N) (i : Nat) :
    ops.add (Num.cumulativeBefore ops trafficSplit i)
        (ops.div (Num.percentage ops trafficSplit i) (ops.ofInt 100))
      = Num.cumulative ops trafficSplit i := by
  cases i <;> rfl

theorem numAssignLoop_spec {N V : Type} (ops : NumberOps N) (random : N) (variations : List V)
    (trafficSplit : List N) (fuel : Nat) : ∀ i : Nat,
    (∀ k, i ≤ k → k < i + fuel → ops.le random (Num.cumulative ops trafficSplit k) = true →
      (∀ j, i ≤ j → j < k → ops.le random (Num.cumulative ops trafficSplit j) = false) →
      Num.assignLoop ops random variations trafficSplit fuel i
          (Num.cumulativeBefore ops trafficSplit i) = variations[k]?) ∧
    ((∀ k, i ≤ k → k < i + fuel →
        ops.le random (Num.cumulative ops trafficSplit k) = false) →
      Num.assignLoop ops random variations trafficSplit fuel i
          (Num.cumulativeBefore ops trafficSplit i) = none) := by
  induction fuel with
  | zero =>
    intro i
    refine ⟨fun k h1 h2 => by omega, fun _ => rfl⟩
  | succ n ih =>
    intro i
    have hstep := cumulativeBefore_add ops trafficSplit i
    have hnext : Num.cumulativeBefore ops trafficSplit (i + 1)
        = Num.cumulative ops trafficSplit i := rfl
    constructor
    · intro k hik hk hle hmin
      simp only [Num.assignLoop, hstep]
      by_cases hi : ops.le random (Num.cumulative ops trafficSplit i) = true
      · have : k = i := by
          by_contra hne
          have := hmin i le_rfl (by omega)
          rw [hi] at this
          cases this
        simp [hi, this]
      · have hki : i + 1 ≤ k := by
          rcases Nat.eq_or_lt_of_le hik with h | h
          · exact absurd (h ▸ hle) hi
          · exact h
        rw [if_neg hi, ← hnext]
        exact (ih (i + 1)).1 k hki (by omega) hle (fun j hj1 hj2 => hmin j (by omega) hj2)
    · intro hnone
      simp only [Num.assignLoop, hstep]
      have hi := hnone i le_rfl (by omega)
      rw [if_neg (by rw [hi]; simp), ← hnext]
      exact (ih (i + 1)).2 (fun k hk1 hk2 => hnone k (by omega) (by omega))

/-- C1 (as amended): for non-empty `variations` and `trafficSplit`, and for the number
arithmetic of JavaScript (any `ops`, in particular `binary64`),
`assignVisitorToVariant` returns `variations[i]` for the least index `i` with
`r <= c_i`, where `r = (simpleHash(visitorId) % 10000) / 10000` and `c_i` is the running
sum `(...(0 + s_0 / 100) + ...) + s_i / 100` as the loop accumulates it, every division
and addition rounded (a missing or falsy entry `s_j` counting as 0); it returns the last
variation when no index of `variations` satisfies this. -/
theorem assignVisitorToVariant_least_running_index {N V : Type} (ops : NumberOps N)
    (visitorId : JSString) (variations : List V) (trafficSplit : List N)
    (hv : variations ≠ []) (ht : trafficSplit ≠ []) :
    (∀ (i : Nat) (hi : i < variations.length),
      ops.le (Num.bucket ops visitorId) (Num.cumulative ops trafficSplit i) = true →
      (∀ j, j < i →
        ops.le (Num.bucket ops visitorId) (Num.cumulative ops trafficSplit j) = false) →
      Num.assignVisitorToVariant ops visitorId variations trafficSplit
        = some variations[i]) ∧
    ((∀ i, i < variations.length →
        ops.le (Num.bucket ops visitorId) (Num.cumulative ops trafficSplit i) = false) →
      Num.assignVisitorToVariant ops visitorId variations trafficSplit
        = some (variations.getLast hv)) := by
  have hspec := numAssignLoop_spec ops (Num.bucket ops visitorId) variations trafficSplit
    variations.length 0
  simp only [Num.cumulativeBefore, Nat.zero_add] at hspec
  have h1 : ¬ (variations.length = 0 ∨ trafficSplit.length = 0) := by
    simp [List.length_eq_zero, hv, ht]
  unfold Num.assignVisitorToVariant
  rw [if_neg h1]
  constructor
  · intro i hi hle hmin
    simp only []
    rw [hspec.1 i (Nat.zero_le _) hi hle (fun j _ hj => hmin j hj)]
    simp [hi]
  · intro hnone
    simp only []
    rw [hspec.2 (fun k _ hk => hnone k hk)]
    simp [List.getLast?_eq_getLast _ hv]

theorem numAssignLoop_exact {V : Type} (random : ℚ) (variations : List V)
    (trafficSplit : List ℚ) (fuel : Nat) : ∀ (i : Nat) (cumulative : ℚ),
    Num.assignLoop exactArithmetic random variations trafficSplit fuel i cumulative
      = assignLoop random variations trafficSplit fuel i cumulative := by
  induction fuel with
  | zero => intro i c; rfl
  | succ n ih =>
    intro i c
    have hp : Num.percentage exactArithmetic trafficSplit i = trafficSplit.getD i 0 := by
      unfold Num.percentage
      rw [List.getD_eq_getElem?_getD]
      cases h : trafficSplit[i]? with
      | none => simp [exactArithmetic]
      | some x =>
        by_cases hx : x = 0
        · simp [exactArithmetic, hx]
        · simp [exactArithmetic, hx]
    simp only [Num.assignLoop, assignLoop, hp, ih]
    simp [exactArithmetic]

/-- Without rounding the model with explicit arithmetic is the exact model above. -/
theorem numAssignVisitorToVariant_exact {V : Type} (visitorId : JSString)
    (variations : List V) (trafficSplit : List ℚ) :
    Num.assignVisitorToVariant exactArithmetic visitorId variations trafficSplit
      = assignVisitorToVariant visitorId variations trafficSplit := by
  unfold Num.assignVisitorToVariant assignVisitorToVariant
  have hb : Num.bucket exactArithmetic visitorId = bucket visitorId := by
    simp [Num.bucket, bucket, exactArithmetic]
  simp only [hb, numAssignLoop_exact]
  rfl

theorem numBucket_visitor_4553 :
    Num.bucket binary64 (js "visitor_4553") = 3602879701896397 / 4503599627370496 := by
  have h : simpleHashLoop 0 (js "visitor_4553") = -193558000 := by
    set_option maxRecDepth 100000 in decide
  have hr : roundToDouble (8000 / 10000) = 3602879701896397 / 4503599627370496 := by
    decide!
  unfold Num.bucket simpleHash
  rw [h]
  simp only [binary64]
  rw [← hr]
  norm_num

theorem cumulative_70_10_20 :
    Num.cumulative binary64 [70, 10, 20] 0 = 3152519739159347 / 4503599627370496 ∧
    Num.cumulative binary64 [70, 10, 20] 1 = 7205759403792793 / 9007199254740992 ∧
    Num.cumulative binary64 [70, 10, 20] 2 = 1 := by
  refine ⟨by decide!, by decide!, by decide!⟩

theorem numAssign_visitor_4553 :
    Num.assignVisitorToVariant binary64 (js "visitor_4553") ["A", "B", "C"] [70, 10, 20]
      = some "C" := by
  decide!

/-- Witness for C1 (as amended): for the visitor `visitor_4553` and the split
`[70, 10, 20]` in double arithmetic the running sums are 0.7, 0.7999999999999999 and 1,
the bucket value is 0.8, and the least index that reaches it is 2. -/
theorem assignVisitorToVariant_least_running_index_witness :
    Num.assignVisitorToVariant binary64 (js "visitor_4553") ["A", "B", "C"] [70, 10, 20]
      = some "C" := by
  have hc := cumulative_70_10_20
  have hb := numBucket_visitor_4553
  exact (assignVisitorToVariant_least_running_index binary64 (js "visitor_4553")
    ["A", "B", "C"] [70, 10, 20] (by simp) (by simp)).1 2 (by simp)
    (by rw [hb, hc.2.2]; simp only [binary64]; norm_num)
    (by
      intro j hj
      have hj2 : j = 0 ∨ j = 1 := by omega
      rcases hj2 with rfl | rfl
      · rw [hb, hc.1]; simp only [binary64]; norm_num
      · rw [hb, hc.2.1]; simp only [binary64]; norm_num)

/-- C1, the claim as stated fails: for the visitor `visitor_4553` (bucket value 0.8) and
the split `[70, 10, 20]` the least index `i` with `r <= (s_0 + ... + s_i) / 100` is 1
(0.8 is not at most 70 / 100 and is at most (70 + 10) / 100, exactly and also when the
quotient is taken in doubles), so the claim names `B`. In double arithmetic the running
sum `70 / 100 + 10 / 100` is 0.7999999999999999, below 0.8, and the function returns
`C`. -/
theorem assign_split_70_10_20_skips_B :
    ¬ bucket (js "visitor_4553") ≤ splitThreshold [70, 10, 20] 0 ∧
    bucket (js "visitor_4553") ≤ splitThreshold [70, 10, 20] 1 ∧
    Num.bucket binary64 (js "visitor_4553") = binary64.div (binary64.add 70 10) 100 ∧
    Num.cumulative binary64 [70, 10, 20] 1 < Num.bucket binary64 (js "visitor_4553") ∧
    Num.assignVisitorToVariant binary64 (js "visitor_4553") ["A", "B", "C"] [70, 10, 20]
      = some "C" := by
  have hb := bucket_visitor_4553
  have hn := numBucket_visitor_4553
  have hc := cumulative_70_10_20
  refine ⟨?_, ?_, ?_, ?_, numAssign_visitor_4553⟩
  · rw [hb]
    norm_num [splitThreshold, List.range_succ]
  · rw [hb]
    norm_num [splitThreshold, List.range_succ]
  · rw [hn]
    decide!
  · rw [hn, hc.2.1]
    norm_num

theorem roundToDouble_err_small (x : ℚ) :
    |roundToDouble x - x| ≤ |x| / 2 ^ 53 + 1 / 2 ^ 60 := by
  have h := roundToDouble_err x
  have h2 : (1 : ℚ) / 2 ^ 1075 ≤ 1 / 2 ^ 60 := by
    apply one_div_le_one_div_of_le (by positivity)
    exact pow_le_pow_right₀ (by norm_num) (by norm_num)
  linarith

/-- The cents survive the quotient by 100 and the product with 100 in doubles when they
are at most `2 ^ 50`. -/
theorem cents_round_trip (n : Int) (hn : |(n : ℚ)| ≤ 2 ^ 50) :
    mathRound (roundToDouble (roundToDouble ((n : ℚ) / 100) * 100)) = (n : ℚ) := by
  set y := roundToDouble ((n : ℚ) / 100) with hy
  set z := roundToDouble (y * 100) with hz
  have h1 := roundToDouble_err_small ((n : ℚ) / 100)
  have h2 := roundToDouble_err_small (y * 100)
  rw [← hy] at h1
  rw [← hz] at h2
  have hN : (0 : ℚ) ≤ |(n : ℚ)| := abs_nonneg _
  have ha : |(n : ℚ) / 100| = |(n : ℚ)| / 100 := by
    rw [abs_div]
    norm_num
  rw [ha] at h1
  have h3 : |y * 100 - (n : ℚ)| ≤ |(n : ℚ)| / 2 ^ 53 + 100 / 2 ^ 60 := by
    have : y * 100 - (n : ℚ) = (y - (n : ℚ) / 100) * 100 := by ring
    rw [this, abs_mul]
    have h100 : |(100 : ℚ)| = 100 := by norm_num
    rw [h100]
    calc |y - (n : ℚ) / 100| * 100 ≤ (|(n : ℚ)| / 100 / 2 ^ 53 + 1 / 2 ^ 60) * 100 :=
          mul_le_mul_of_nonneg_right h1 (by norm_num)
      _ = |(n : ℚ)| / 2 ^ 53 + 100 / 2 ^ 60 := by ring
  have h4 : |y * 100| ≤ |(n : ℚ)| + (|(n : ℚ)| / 2 ^ 53 + 100 / 2 ^ 60) := by
    have : y * 100 = (n : ℚ) + (y * 100 - (n : ℚ)) := by ring
    calc |y * 100| = |(n : ℚ) + (y * 100 - (n : ℚ))| := by rw [← this]
      _ ≤ |(n : ℚ)| + |y * 100 - (n : ℚ)| := abs_add _ _
      _ ≤ |(n : ℚ)| + (|(n : ℚ)| / 2 ^ 53 + 100 / 2 ^ 60) := by linarith
  have h5 : |z - (n : ℚ)| < 1 / 2 := by
    have : z - (n : ℚ) = (z - y * 100) + (y * 100 - (n : ℚ)) := by ring
    calc |z - (n : ℚ)| = |(z - y * 100) + (y * 100 - (n : ℚ))| := by rw [← this]
      _ ≤ |z - y * 100| + |y * 100 - (n : ℚ)| := abs_add _ _
      _ ≤ (|y * 100| / 2 ^ 53 + 1 / 2 ^ 60) + (|(n : ℚ)| / 2 ^ 53 + 100 / 2 ^ 60) := by
          linarith
      _ < 1 / 2 := by
          have h6 : |y * 100| / 2 ^ 53
              ≤ (|(n : ℚ)| + (|(n : ℚ)| / 2 ^ 53 + 100 / 2 ^ 60)) / 2 ^ 53 :=
            div_le_div_of_nonneg_right h4 (by positivity)
          have h7 : |(n : ℚ)| / 2 ^ 53 ≤ 2 ^ 50 / 2 ^ 53 :=
            div_le_div_of_nonneg_right hn (by positivity)
          have h8 : (|(n : ℚ)| + (|(n : ℚ)| / 2 ^ 53 + 100 / 2 ^ 60)) / 2 ^ 53
              ≤ (2 ^ 50 + (2 ^ 50 / 2 ^ 53 + 100 / 2 ^ 60)) / 2 ^ 53 :=
            div_le_div_of_nonneg_right (by linarith) (by positivity)
          have h9 : ((2 : ℚ) ^ 50 + (2 ^ 50 / 2 ^ 53 + 100 / 2 ^ 60)) / 2 ^ 53 + 1 / 2 ^ 60
              + (2 ^ 50 / 2 ^ 53 + 100 / 2 ^ 60) < 1 / 2 := by norm_num
          linarith
  rw [abs_lt] at h5
  exact mathRound_eq_of z n (by linarith) (by linarith)

theorem mathRound_abs_le (w : ℚ) : |mathRound w| ≤ |w| + 1 / 2 := by
  unfold mathRound
  have h1 : ((⌊w + 1 / 2⌋ : Int) : ℚ) ≤ w + 1 / 2 := Int.floor_le _
  have h2 : w + 1 / 2 < ((⌊w + 1 / 2⌋ : Int) : ℚ) + 1 := Int.lt_floor_add_one _
  rw [abs_le]
  constructor
  · have := neg_abs_le w
    linarith
  · have := le_abs_self w
    linarith

theorem numApplyRounding_cent (price : ℚ) :
    Num.applyRounding binary64 price (js "round_to_cent")
      = roundToDouble (mathRound (roundToDouble (price * 100)) / 100) := by
  have h1 : ¬ js "round_to_cent" = js "round" := by decide
  have h2 : ¬ js "round_to_cent" = js "round_up" := by decide
  have h3 : ¬ js "round_to_cent" = js "round_down" := by decide
  unfold Num.applyRounding
  rw [if_neg h1, if_neg h2, if_neg h3, if_pos rfl]
  simp [binary64]

/-- C18 (as amended): in double arithmetic `applyRounding` is idempotent for every price
under every mode other than `round_to_cent` (`round`, `round_up`, `round_down`,
`round_to_dollar` and every unrecognised mode), and under `round_to_cent` for every price
of absolute value at most `10 ^ 13`. -/
theorem applyRounding_idempotent_in_doubles (price : ℚ) (rounding : JSString) :
    (rounding ≠ js "round_to_cent" →
      Num.applyRounding binary64 (Num.applyRounding binary64 price rounding) rounding
        = Num.applyRounding binary64 price rounding) ∧
    (|price| ≤ 10 ^ 13 →
      Num.applyRounding binary64 (Num.applyRounding binary64 price rounding) rounding
        = Num.applyRounding binary64 price rounding) := by
  have hother : rounding ≠ js "round_to_cent" →
      Num.applyRounding binary64 (Num.applyRounding binary64 price rounding) rounding
        = Num.applyRounding binary64 price rounding := by
    intro hne
    unfold Num.applyRounding
    split
    · unfold mathRound
      exact mathRound_intCast _
    · split
      · simp
      · split
        · simp
        · split
          · unfold mathRound
            exact mathRound_intCast _
          · rfl
  refine ⟨hother, ?_⟩
  intro hp
  by_cases hc : rounding = js "round_to_cent"
  · subst hc
    rw [numApplyRounding_cent, numApplyRounding_cent]
    set w := roundToDouble (price * 100) with hw
    have hwerr := roundToDouble_err_small (price * 100)
    rw [← hw] at hwerr
    have hp100 : |price * 100| ≤ 10 ^ 15 := by
      rw [abs_mul]
      have : |(100 : ℚ)| = 100 := by norm_num
      rw [this]
      linarith
    have hwabs : |w| ≤ |price * 100| + (|price * 100| / 2 ^ 53 + 1 / 2 ^ 60) := by
      have : w = price * 100 + (w - price * 100) := by ring
      calc |w| = |price * 100 + (w - price * 100)| := by rw [← this]
        _ ≤ |price * 100| + |w - price * 100| := abs_add _ _
        _ ≤ |price * 100| + (|price * 100| / 2 ^ 53 + 1 / 2 ^ 60) := by linarith
    have hm := mathRound_abs_le w
    obtain ⟨n, hn⟩ : ∃ n : Int, mathRound w = (n : ℚ) := ⟨⌊w + 1 / 2⌋, rfl⟩
    rw [hn] at hm ⊢
    have hn50 : |(n : ℚ)| ≤ 2 ^ 50 := by
      have h1 : |price * 100| / 2 ^ 53 ≤ 10 ^ 15 / 2 ^ 53 :=
        div_le_div_of_nonneg_right hp100 (by positivity)
      have h2 : (10 : ℚ) ^ 15 + (10 ^ 15 / 2 ^ 53 + 1 / 2 ^ 60) + 1 / 2 ≤ 2 ^ 50 := by
        norm_num
      linarith
    rw [cents_round_trip n hn50]
  · exact hother hc

/-- Witness for C18 (as amended): 19.999 rounds to 20 under `round_to_cent`, and 20 rounds
to itself. -/
theorem applyRounding_idempotent_in_doubles_witness :
    Num.applyRounding binary64 (19999 / 1000) (js "round_to_cent") = 20 ∧
    Num.applyRounding binary64
        (Num.applyRounding binary64 (19999 / 1000) (js "round_to_cent")) (js "round_to_cent")
      = Num.applyRounding binary64 (19999 / 1000) (js "round_to_cent") :=
  ⟨by decide!,
    (applyRounding_idempotent_in_doubles (19999 / 1000) (js "round_to_cent")).2
      (by rw [abs_of_pos (by norm_num)]; norm_num)⟩

/-- C18, the claim as stated fails: in doubles `round_to_cent` takes the price
43923586606979.375 to 43923586606979.3828125 (the double nearest to ...979.38), and a
second application takes that to 43923586606979.390625 (the double nearest to
...979.39). -/
theorem applyRounding_cent_not_idempotent :
    Num.applyRounding binary64 largePrice (js "round_to_cent")
      = 5622219085693361 / 128 ∧
    Num.applyRounding binary64
        (Num.applyRounding binary64 largePrice (js "round_to_cent")) (js "round_to_cent")
      = 2811109542846681 / 64 ∧
    Num.applyRounding binary64
        (Num.applyRounding binary64 largePrice (js "round_to_cent")) (js "round_to_cent")
      ≠ Num.applyRounding binary64 largePrice (js "round_to_cent") := by
  have h1 : Num.applyRounding binary64 largePrice (js "round_to_cent")
      = 5622219085693361 / 128 := by decide!
  have h2 : Num.applyRounding binary64 (5622219085693361 / 128) (js "round_to_cent")
      = 2811109542846681 / 64 := by decide!
  rw [h1, h2]
  refine ⟨rfl, rfl, by norm_num⟩

/-- The tolerance is applied to the sum in doubles: the custom split `[0.1, 68, 31.8]` sums
to 99.89999999999999, further than the double 0.1 from 100, and is refused. -/
theorem rebalanceTraffic_custom_split_in_doubles :
    nearlyHundredSplit.foldl (fun sum val => JSValue.add sum val) (JSValue.number 0)
      = JSValue.number (7029837543348633 / 70368744177664) ∧
    Num.rebalanceTraffic (js "custom")
        (some { winnerBonus := JSValue.undefined, minTraffic := JSValue.undefined,
                customSplit := some nearlyHundredSplit }) twoRollups
      = Except.error AutomationError.splitMustSumTo100 := by
  refine ⟨by decide!, by decide!⟩

/-- C21, failing input: `winner_takes_more` with `{ winnerBonus: 70 }` and no `minTraffic`
on two variations. `Math.max(undefined, 30)` is `NaN`, the split is `[NaN, 70]`, its sum
is `NaN`, the comparison `Math.abs(NaN - 100) > 0.1` is false, and the split is handed to
the update instead of being refused. With `minTraffic: 40` the split `[40, 70]` (sum 110)
is refused. -/
theorem rebalanceTraffic_accepts_nan_split :
    Num.calculateWinnerTakesMoreSplit twoRollups bonusOnlyParams
      = Except.ok [JSValue.nan, JSValue.number 70] ∧
    [JSValue.nan, JSValue.number 70].foldl (fun sum val => JSValue.add sum val)
      (JSValue.number 0) = JSValue.nan ∧
    Num.rebalanceTraffic (js "winner_takes_more") (some bonusOnlyParams) twoRollups
      = Except.ok [JSValue.nan, JSValue.number 70] ∧
    Num.rebalanceTraffic (js "winner_takes_more") (some bonusAndFloorParams) twoRollups
      = Except.error AutomationError.splitMustSumTo100 := by
  refine ⟨?_, ?_, ?_, ?_⟩
  · with_unfolding_all rfl
  · with_unfolding_all rfl
  · with_unfolding_all rfl
  · decide!

end TrueAtom
